import Mathlib

/-!
# A shallow embedding of `src/game.c` (leidav/tetris)

The simulation core of the game is embedded function by function.  The
declarations of the header `game.h` are rebuilt from the way `game.c` uses
them: its build-time constants are the fields of `Config`, its record types
are the structures below.

Conventions of the embedding.

* The source converts every absolute block coordinate with `(int8_t)`; the
  conversion is `toInt8`, applied at the same places, and the increments of a
  `struct Pos` component wrap the same way.
* The counters `level`, `lines`, `score` and `interval_count` and the entries
  of `points` are C `int` values, the type `updateStatistics` gives to the
  entry it reads.  The embedding computes their sums and
  products exactly; this is the value the C code computes as long as the
  result fits an `int` (`FitsInt`, with `INT_MAX` a constant of `Config`), and
  a signed overflow has no defined result in C.  A theorem that asserts the
  value of such a sum or product therefore carries the bound under which the
  C arithmetic is defined (`StatisticsFit`, `FitsInt`).
* The field `int8_t field[GRID_HEIGHT][GRID_WIDTH]` is a function from row and
  column to the cell value; only the cells with `row < GRID_HEIGHT` and
  `column < GRID_WIDTH` exist.  Every access whose index is computed from data
  is bounds-checked: an access outside the array has no defined result in C and
  yields `Fault.outOfBounds` here.  The collision test is also given in a
  second form, `checkCollisionWith`, in which a read outside the array yields
  an arbitrary value.
* `rand()` is an external source: the raw values it will return are passed as a
  list, consumed from the front.  `Fault.noDraw` says that the list ran out
  before `randomIndex` accepted a value.
-/

namespace Tetris

/-- Build-time constants: the macros of `game.h`, and `RAND_MAX` and `INT_MAX`
of the C library.  The three interval constants are divisors and are
nonzero. -/
structure Config where
  GRID_WIDTH : Nat
  GRID_HEIGHT : Nat
  MOVE_INTERVAL_COUNT : Nat
  SOFT_DROP_INTERVAL_COUNT : Nat
  DROP_INTERVAL_COUNT : Nat
  RAND_MAX : Nat
  INT_MAX : Nat

/-- Ways in which a run of the C code has no defined result. -/
inductive Fault where
  | outOfBounds
  | noDraw
  deriving DecidableEq, Repr

/-- The type `struct Pos`: two `int8_t` components. -/
structure Pos where
  x : Int
  y : Int
  deriving DecidableEq, Repr

/-- The type `struct Piece`: the number of distinct rotations and the four
rotation variants, each a list of four relative offsets. -/
structure Piece where
  count : Nat
  rotations : List (List Pos)
  deriving DecidableEq, Repr

/-- The type `struct PieceState`: catalogue index and rotation index. -/
structure PieceState where
  piece : Nat
  rotation : Nat
  deriving DecidableEq, Repr

/-- The three direction constants passed to `move`. -/
inductive Direction where
  | DIRECTION_DOWN
  | DIRECTION_LEFT
  | DIRECTION_RIGHT
  deriving DecidableEq, Repr

/-- The playing field, indexed by row and then column. -/
abbrev Field := Nat → Nat → Int

/-- The type `struct Game`. -/
structure Game where
  field : Field
  pieces : List Piece
  current_piece : PieceState
  next_piece : PieceState
  piece_pos : Pos
  key_left : Bool
  key_right : Bool
  key_down : Bool
  rotate_right : Bool
  rotate_left : Bool
  interval_count : Int
  level : Int
  lines : Int
  score : Int
  points : Nat → Int

/-- Conversion of an `int` to `int8_t` (two's complement wrap-around). -/
def toInt8 (v : Int) : Int := (v + 128) % 256 - 128

/-- The catalogue `pieces[7]`. -/
def pieces : List Piece :=
  [ -- O
    ⟨1, [[⟨0, 0⟩, ⟨0, -1⟩, ⟨1, -1⟩, ⟨1, 0⟩],
         [⟨0, 0⟩, ⟨0, -1⟩, ⟨1, -1⟩, ⟨1, 0⟩],
         [⟨0, 0⟩, ⟨0, -1⟩, ⟨1, -1⟩, ⟨1, 0⟩],
         [⟨0, 0⟩, ⟨0, -1⟩, ⟨1, -1⟩, ⟨1, 0⟩]]⟩,
    -- I
    ⟨2, [[⟨-1, 0⟩, ⟨0, 0⟩, ⟨1, 0⟩, ⟨2, 0⟩],
         [⟨0, -2⟩, ⟨0, -1⟩, ⟨0, 0⟩, ⟨0, 1⟩],
         [⟨-1, 0⟩, ⟨0, 0⟩, ⟨1, 0⟩, ⟨2, 0⟩],
         [⟨0, -2⟩, ⟨0, -1⟩, ⟨0, 0⟩, ⟨0, 1⟩]]⟩,
    -- J
    ⟨4, [[⟨-1, 0⟩, ⟨0, 0⟩, ⟨1, 0⟩, ⟨1, 1⟩],
         [⟨-1, 1⟩, ⟨0, 1⟩, ⟨0, 0⟩, ⟨0, -1⟩],
         [⟨-1, -1⟩, ⟨-1, 0⟩, ⟨0, 0⟩, ⟨1, 0⟩],
         [⟨1, -1⟩, ⟨0, -1⟩, ⟨0, 0⟩, ⟨0, 1⟩]]⟩,
    -- L
    ⟨4, [[⟨-1, 1⟩, ⟨-1, 0⟩, ⟨0, 0⟩, ⟨1, 0⟩],
         [⟨-1, -1⟩, ⟨0, -1⟩, ⟨0, 0⟩, ⟨0, 1⟩],
         [⟨-1, 0⟩, ⟨0, 0⟩, ⟨1, 0⟩, ⟨1, -1⟩],
         [⟨0, -1⟩, ⟨0, 0⟩, ⟨0, 1⟩, ⟨1, 1⟩]]⟩,
    -- S
    ⟨4, [[⟨-1, 1⟩, ⟨0, 1⟩, ⟨0, 0⟩, ⟨1, 0⟩],
         [⟨-1, -1⟩, ⟨-1, 0⟩, ⟨0, 0⟩, ⟨0, 1⟩],
         [⟨-1, 1⟩, ⟨0, 1⟩, ⟨0, 0⟩, ⟨1, 0⟩],
         [⟨-1, -1⟩, ⟨-1, 0⟩, ⟨0, 0⟩, ⟨0, 1⟩]]⟩,
    -- T
    ⟨4, [[⟨-1, 0⟩, ⟨0, 0⟩, ⟨1, 0⟩, ⟨0, 1⟩],
         [⟨-1, 0⟩, ⟨0, -1⟩, ⟨0, 0⟩, ⟨0, 1⟩],
         [⟨-1, 0⟩, ⟨0, 0⟩, ⟨1, 0⟩, ⟨0, -1⟩],
         [⟨0, -1⟩, ⟨0, 0⟩, ⟨0, 1⟩, ⟨1, 0⟩]]⟩,
    -- Z
    ⟨4, [[⟨-1, 0⟩, ⟨0, 0⟩, ⟨0, 1⟩, ⟨1, 1⟩],
         [⟨-1, 1⟩, ⟨-1, 0⟩, ⟨0, 0⟩, ⟨0, -1⟩],
         [⟨-1, 0⟩, ⟨0, 0⟩, ⟨0, 1⟩, ⟨1, 1⟩],
         [⟨-1, 1⟩, ⟨-1, 0⟩, ⟨0, 0⟩, ⟨0, -1⟩]]⟩ ]

/-- Assignment `field[y][x] = v` on an index inside the array. -/
def setCell (f : Field) (y x : Nat) (v : Int) : Field :=
  fun y' x' => if y' = y ∧ x' = x then v else f y' x'

/-- Bounds-checked read of `field[y][x]`, both indices being C integers. -/
def readCell (cfg : Config) (f : Field) (y x : Int) : Except Fault Int :=
  if 0 ≤ y ∧ y < cfg.GRID_HEIGHT ∧ 0 ≤ x ∧ x < cfg.GRID_WIDTH then
    .ok (f y.toNat x.toNat)
  else .error .outOfBounds

/-- Bounds-checked write `field[y][x] = v`, both indices being C integers. -/
def writeCell (cfg : Config) (f : Field) (y x : Int) (v : Int) : Except Fault Field :=
  if 0 ≤ y ∧ y < cfg.GRID_HEIGHT ∧ 0 ≤ x ∧ x < cfg.GRID_WIDTH then
    .ok (setCell f y.toNat x.toNat v)
  else .error .outOfBounds

/-- Inner loop of `initField`: zero the columns `x .. x + n - 1` of row `y`. -/
def initFieldRow (f : Field) (y : Nat) : Nat → Nat → Field
  | 0, _ => f
  | n + 1, x => initFieldRow (setCell f y x 0) y n (x + 1)

/-- Outer loop of `initField`: zero the rows `y .. y + n - 1`. -/
def initFieldRows (cfg : Config) (f : Field) : Nat → Nat → Field
  | 0, _ => f
  | n + 1, y => initFieldRows cfg (initFieldRow f y cfg.GRID_WIDTH 0) n (y + 1)

/-- The function `initField`. -/
def initField (cfg : Config) (g : Game) : Game :=
  { g with field := initFieldRows cfg g.field cfg.GRID_HEIGHT 0 }

/-- The function `randomIndex`: raw values are drawn until one is below
`bucket_size * size`; the result is that value divided by `bucket_size`. -/
def randomIndex (cfg : Config) (size : Nat) : List Nat → Except Fault (Nat × List Nat)
  | [] => .error .noDraw
  | val :: rest =>
    if val ≥ (cfg.RAND_MAX + 1) / size * size then randomIndex cfg size rest
    else .ok (val / ((cfg.RAND_MAX + 1) / size), rest)

/-- The function `generatePiece`. -/
def generatePiece (cfg : Config) (draws : List Nat) : Except Fault (PieceState × List Nat) :=
  match randomIndex cfg 7 draws with
  | .error e => .error e
  | .ok (p, d1) =>
    match randomIndex cfg 4 d1 with
    | .error e => .error e
    | .ok (r, d2) => .ok (⟨p, r⟩, d2)

/-- The function `resetPos`; the quotient is stored in an `int8_t`. -/
def resetPos (cfg : Config) (g : Game) : Game :=
  { g with piece_pos := ⟨toInt8 ((cfg.GRID_WIDTH / 2 : Nat) : Int), 1⟩ }

/-- Assignment `points[i] = v`. -/
def setPoint (p : Nat → Int) (i : Nat) (v : Int) : Nat → Int :=
  fun j => if j = i then v else p j

/-- The function `gameInit`.  The member `interval_count` is not assigned. -/
def gameInit (cfg : Config) (g : Game) (draws : List Nat) : Except Fault (Game × List Nat) :=
  let g1 := initField cfg g
  let g2 : Game :=
    { g1 with
      key_left := false, key_right := false, key_down := false,
      rotate_right := false, rotate_left := false,
      level := 0, lines := 0, score := 0,
      points := setPoint (setPoint (setPoint (setPoint g1.points 0 40) 1 100) 2 300) 3 1200,
      pieces := pieces }
  match generatePiece cfg draws with
  | .error e => .error e
  | .ok (cur, d1) =>
    match generatePiece cfg d1 with
    | .error e => .error e
    | .ok (nxt, d2) =>
      .ok (resetPos cfg { g2 with current_piece := cur, next_piece := nxt }, d2)

/-- The function `checkCellCollision`.  The guard does not test `pos.y < 0`;
the read that follows it is bounds-checked. -/
def checkCellCollision (cfg : Config) (grid : Field) (pos : Pos) : Except Fault Bool :=
  if pos.x < 0 ∨ pos.x ≥ cfg.GRID_WIDTH ∨ pos.y ≥ cfg.GRID_HEIGHT then .ok true
  else
    match readCell cfg grid pos.y pos.x with
    | .error e => .error e
    | .ok v => if v = 0 then .ok false else .ok true

/-- Address of `pieces[piece].rotations[rotation].blocks`, bounds-checked. -/
def blocksOf (piece rotation : Nat) : Except Fault (List Pos) :=
  match pieces[piece]? with
  | none => .error .outOfBounds
  | some p =>
    match p.rotations[rotation]? with
    | none => .error .outOfBounds
    | some blocks => .ok blocks

/-- Absolute cell of a block: both sums are converted to `int8_t`. -/
def blockAt (b pos : Pos) : Pos := ⟨toInt8 (b.x + pos.x), toInt8 (b.y + pos.y)⟩

/-- The loop over the four blocks shared by `checkCollision` and `move`: it
stops with `true` at the first block whose cell collides. -/
def anyBlockCollides (cfg : Config) (grid : Field) (pos : Pos) : List Pos → Except Fault Bool
  | [] => .ok false
  | b :: bs =>
    match checkCellCollision cfg grid (blockAt b pos) with
    | .error e => .error e
    | .ok true => .ok true
    | .ok false => anyBlockCollides cfg grid pos bs

/-- The function `checkCollision`. -/
def checkCollision (cfg : Config) (g : Game) (pos : Pos) (rotation : Nat) : Except Fault Bool :=
  match blocksOf g.current_piece.piece rotation with
  | .error e => .error e
  | .ok blocks => anyBlockCollides cfg g.field pos blocks

/-- The candidate position computed by the `switch` of `move`. -/
def stepPos (pos : Pos) : Direction → Pos
  | .DIRECTION_DOWN => ⟨pos.x, toInt8 (pos.y + 1)⟩
  | .DIRECTION_LEFT => ⟨toInt8 (pos.x - 1), pos.y⟩
  | .DIRECTION_RIGHT => ⟨toInt8 (pos.x + 1), pos.y⟩

/-- The function `move`: the returned flag and the state after the call. -/
def move (cfg : Config) (g : Game) (dir : Direction) : Except Fault (Bool × Game) :=
  let pos := stepPos g.piece_pos dir
  match blocksOf g.current_piece.piece g.current_piece.rotation with
  | .error e => .error e
  | .ok blocks =>
    match anyBlockCollides cfg g.field pos blocks with
    | .error e => .error e
    | .ok true => .ok (false, g)
    | .ok false => .ok (true, { g with piece_pos := pos })

/-- The loop of `lockPiece` over the blocks. -/
def lockBlocks (cfg : Config) (pos : Pos) (v : Int) : List Pos → Field → Except Fault Field
  | [], f => .ok f
  | b :: bs, f =>
    match writeCell cfg f (blockAt b pos).y (blockAt b pos).x v with
    | .error e => .error e
    | .ok f1 => lockBlocks cfg pos v bs f1

/-- The function `lockPiece`. -/
def lockPiece (cfg : Config) (g : Game) : Except Fault Game :=
  match blocksOf g.current_piece.piece g.current_piece.rotation with
  | .error e => .error e
  | .ok blocks =>
    match lockBlocks cfg g.piece_pos ((g.current_piece.piece : Int) + 1) blocks g.field with
    | .error e => .error e
    | .ok f => .ok { g with field := f }

/-- Inner loop of `moveGridDown` on row `y`, columns `x .. x + n - 1`:
`field[y + count][x] = field[y][x]; field[y][x] = 0`. -/
def moveRowDown (cfg : Config) (y count : Nat) : Nat → Nat → Field → Except Fault Field
  | 0, _, f => .ok f
  | n + 1, x, f =>
    if y + count < cfg.GRID_HEIGHT ∧ x < cfg.GRID_WIDTH then
      moveRowDown cfg y count n (x + 1) (setCell (setCell f (y + count) x (f y x)) y x 0)
    else .error .outOfBounds

/-- Outer loop of `moveGridDown`: rows `n - 1` down to `0`. -/
def moveGridDownFrom (cfg : Config) (count : Nat) : Nat → Field → Except Fault Field
  | 0, f => .ok f
  | y + 1, f =>
    match moveRowDown cfg y count cfg.GRID_WIDTH 0 f with
    | .error e => .error e
    | .ok f1 => moveGridDownFrom cfg count y f1

/-- The function `moveGridDown`. -/
def moveGridDown (cfg : Config) (g : Game) (top count : Nat) : Except Fault Game :=
  match moveGridDownFrom cfg count (top + 1) g.field with
  | .error e => .error e
  | .ok f => .ok { g with field := f }

/-- The function `updateStatistics`; the read `points[lines - 1]` is
bounds-checked against the four entries of the table.  The two sums and the
product are exact: they are the values of the C `int` arithmetic whenever
`StatisticsFit` holds. -/
def updateStatistics (g : Game) (lines : Nat) : Except Fault Game :=
  if 1 ≤ lines ∧ lines ≤ 4 then
    .ok { g with lines := g.lines + lines,
                 score := g.score + g.points (lines - 1) * (g.level + 1) }
  else .error .outOfBounds

/-- Inner loop of `clearLines`: are the columns `x .. x + n - 1` of row `y`
all non-zero. -/
def lineFullFrom (f : Field) (y : Nat) : Nat → Nat → Bool
  | 0, _ => true
  | n + 1, x => if f y x = 0 then false else lineFullFrom f y n (x + 1)

/-- The flag `line_full` computed for row `y`. -/
def lineFull (cfg : Config) (f : Field) (y : Nat) : Bool :=
  lineFullFrom f y cfg.GRID_WIDTH 0

/-- Outer loop of `clearLines`: rows `n - 1` down to `0`, with the running
value of `count`. -/
def clearLinesFrom (cfg : Config) : Nat → Nat → Game → Except Fault Game
  | 0, _, g => .ok g
  | y + 1, count, g =>
    if lineFull cfg g.field y then clearLinesFrom cfg y (count + 1) g
    else if count > 0 then
      match moveGridDown cfg g y count with
      | .error e => .error e
      | .ok g1 =>
        match updateStatistics g1 count with
        | .error e => .error e
        | .ok g2 => clearLinesFrom cfg y 0 g2
    else clearLinesFrom cfg y 0 g

/-- The function `clearLines`. -/
def clearLines (cfg : Config) (g : Game) : Except Fault Game :=
  clearLinesFrom cfg cfg.GRID_HEIGHT 0 g

/-- The function `moveDown`. -/
def moveDown (cfg : Config) (g : Game) (draws : List Nat) : Except Fault (Game × List Nat) :=
  match move cfg g .DIRECTION_DOWN with
  | .error e => .error e
  | .ok (true, g1) => .ok (g1, draws)
  | .ok (false, g1) =>
    match lockPiece cfg g1 with
    | .error e => .error e
    | .ok g2 =>
      match clearLines cfg g2 with
      | .error e => .error e
      | .ok g3 =>
        match generatePiece cfg draws with
        | .error e => .error e
        | .ok (nxt, d1) =>
          .ok (resetPos cfg { g3 with current_piece := g3.next_piece, next_piece := nxt }, d1)

/-- The function `rotate_right`. -/
def rotate_right (cfg : Config) (g : Game) : Except Fault Game :=
  match pieces[g.current_piece.piece]? with
  | none => .error .outOfBounds
  | some p =>
    let rotation := (g.current_piece.rotation + 1) % p.count
    match checkCollision cfg g g.piece_pos rotation with
    | .error e => .error e
    | .ok true => .ok g
    | .ok false => .ok { g with current_piece := { g.current_piece with rotation := rotation } }

/-- The function `rotate_left`. -/
def rotate_left (cfg : Config) (g : Game) : Except Fault Game :=
  match pieces[g.current_piece.piece]? with
  | none => .error .outOfBounds
  | some p =>
    let rotation := (g.current_piece.rotation + 3) % p.count
    match checkCollision cfg g g.piece_pos rotation with
    | .error e => .error e
    | .ok true => .ok g
    | .ok false => .ok { g with current_piece := { g.current_piece with rotation := rotation } }

/-- First part of `gameUpdate`: the two rotation requests. -/
def updateRotation (cfg : Config) (g : Game) : Except Fault Game :=
  match (if g.rotate_right then
          match rotate_right cfg g with
          | .error e => .error e
          | .ok g1 => .ok { g1 with rotate_right := false }
        else .ok g : Except Fault Game) with
  | .error e => .error e
  | .ok g1 =>
    if g1.rotate_left then
      match rotate_left cfg g1 with
      | .error e => .error e
      | .ok g2 => .ok { g2 with rotate_left := false }
    else .ok g1

/-- Second part of `gameUpdate`: the horizontal move.  The test
`interval_count % MOVE_INTERVAL_COUNT == 0` is a divisibility test, the same
for the truncating remainder of C and for the remainder used here. -/
def updateMove (cfg : Config) (g : Game) : Except Fault Game :=
  if g.interval_count % (cfg.MOVE_INTERVAL_COUNT : Int) = 0 then
    if g.key_left then
      match move cfg g .DIRECTION_LEFT with
      | .error e => .error e
      | .ok (_, g1) => .ok g1
    else if g.key_right then
      match move cfg g .DIRECTION_RIGHT with
      | .error e => .error e
      | .ok (_, g1) => .ok g1
    else .ok g
  else .ok g

/-- Third part of `gameUpdate`: the descent. -/
def updateDrop (cfg : Config) (g : Game) (draws : List Nat) : Except Fault (Game × List Nat) :=
  if g.interval_count % (cfg.SOFT_DROP_INTERVAL_COUNT : Int) = 0 ∧ g.key_down = true then
    moveDown cfg g draws
  else if g.interval_count % (cfg.DROP_INTERVAL_COUNT : Int) = 0 then
    moveDown cfg g draws
  else .ok (g, draws)

/-- The function `gameUpdate`.  The increment of `interval_count` is exact: it
is the value of the C `int` increment whenever the counter is below
`INT_MAX`. -/
def gameUpdate (cfg : Config) (g : Game) (draws : List Nat) : Except Fault (Game × List Nat) :=
  match updateRotation cfg g with
  | .error e => .error e
  | .ok g1 =>
    match updateMove cfg g1 with
    | .error e => .error e
    | .ok g2 =>
      match updateDrop cfg g2 draws with
      | .error e => .error e
      | .ok (g3, d1) => .ok ({ g3 with interval_count := g3.interval_count + 1 }, d1)

/-- The value fits the C type `int`. -/
def FitsInt (cfg : Config) (v : Int) : Prop :=
  -(cfg.INT_MAX : Int) - 1 ≤ v ∧ v ≤ (cfg.INT_MAX : Int)

/-- The `int` arithmetic of `updateStatistics` for `lines` cleared lines has
no overflow: the new line count, `level + 1`, the product
`base * (level + 1)` and the new score all fit an `int`. -/
def StatisticsFit (cfg : Config) (g : Game) (lines : Nat) : Prop :=
  FitsInt cfg (g.lines + lines) ∧ FitsInt cfg (g.level + 1) ∧
  FitsInt cfg (g.points (lines - 1) * (g.level + 1)) ∧
  FitsInt cfg (g.score + g.points (lines - 1) * (g.level + 1))

/-- A row of the field is full when none of its cells is zero. -/
def RowFull (cfg : Config) (f : Field) (y : Nat) : Prop :=
  ∀ x, x < cfg.GRID_WIDTH → f y x ≠ 0

/-- A row of the field is empty when all of its cells are zero. -/
def RowZero (cfg : Config) (f : Field) (y : Nat) : Prop :=
  ∀ x, x < cfg.GRID_WIDTH → f y x = 0

/-- Row `y'` of `f'` holds the cells of row `y` of `f`. -/
def RowEq (cfg : Config) (f' : Field) (y' : Nat) (f : Field) (y : Nat) : Prop :=
  ∀ x, x < cfg.GRID_WIDTH → f' y' x = f y x

/-- The points table written by `gameInit`. -/
def pointsTable : Nat → Int :=
  setPoint (setPoint (setPoint (setPoint (fun _ => 0) 0 40) 1 100) 2 300) 3 1200

/-- An example configuration: a field of 10 columns and 20 rows.  The interval
values are examples, they are not taken from `game.h`. -/
def exampleConfig : Config := ⟨10, 20, 4, 2, 32, 2147483647, 2147483647⟩

/-- An example state over a given field: an O piece at the spawn position,
level 0, no lines, no score, no flag set. -/
def exampleGame (f : Field) : Game :=
  { field := f, pieces := pieces, current_piece := ⟨0, 0⟩, next_piece := ⟨0, 0⟩,
    piece_pos := ⟨5, 1⟩, key_left := false, key_right := false, key_down := false,
    rotate_right := false, rotate_left := false, interval_count := 0,
    level := 0, lines := 0, score := 0, points := pointsTable }

/-- Rows 3 and 5 full, row 4 with one hole, the other rows empty. -/
def fieldSplitRows : Field :=
  fun y x => if y = 3 ∨ y = 5 then 1 else if y = 4 then (if x = 0 then 0 else 2) else 0

/-- Rows 1 and 2 full, row 0 with one hole, the other rows empty. -/
def fieldRunNearTop : Field :=
  fun y x => if y = 1 ∨ y = 2 then 1 else if y = 0 then (if x = 0 then 0 else 2) else 0

/-- Rows 0 and 1 full, the other rows empty. -/
def fieldRunAtTop : Field :=
  fun y _ => if y = 0 ∨ y = 1 then 1 else 0

/-- Rows 3, 4 and 5 full, one cell set in each of the rows 0, 1, 2 and 7. -/
def fieldThreeRows : Field :=
  fun y x => if y = 3 ∨ y = 4 ∨ y = 5 then 1
    else if x = 1 ∧ (y < 3 ∨ y = 7) then (y : Int) + 2 else 0

/-- The empty field. -/
def fieldEmpty : Field := fun _ _ => 0

/-- The example state with the given piece, rotation and position. -/
def exampleGameAt (f : Field) (piece rotation : Nat) (pos : Pos) : Game :=
  { exampleGame f with current_piece := ⟨piece, rotation⟩, piece_pos := pos }

/-- A cell counts as blocked when it lies left or right of the field, below
its last row, or on a cell of the field that is not zero. -/
def CellBlocked (cfg : Config) (grid : Field) (p : Pos) : Prop :=
  p.x < 0 ∨ p.x ≥ cfg.GRID_WIDTH ∨ p.y ≥ cfg.GRID_HEIGHT ∨ grid p.y.toNat p.x.toNat ≠ 0

/-- The cell lies inside the field. -/
def InGrid (cfg : Config) (p : Pos) : Prop :=
  0 ≤ p.x ∧ p.x < cfg.GRID_WIDTH ∧ 0 ≤ p.y ∧ p.y < cfg.GRID_HEIGHT

/-- The state `g'` differs from `g` at most in the field, the line counter and
the score. -/
def SameExceptFieldAndScore (g g' : Game) : Prop :=
  g'.pieces = g.pieces ∧ g'.current_piece = g.current_piece ∧
  g'.next_piece = g.next_piece ∧ g'.piece_pos = g.piece_pos ∧
  g'.key_left = g.key_left ∧ g'.key_right = g.key_right ∧ g'.key_down = g.key_down ∧
  g'.rotate_right = g.rotate_right ∧ g'.rotate_left = g.rotate_left ∧
  g'.interval_count = g.interval_count ∧ g'.level = g.level ∧ g'.points = g.points

/-- The state `g'` has the five flags, the interval counter, the level, the
points table and the catalogue of `g`. -/
def SameControls (g g' : Game) : Prop :=
  g'.key_left = g.key_left ∧ g'.key_right = g.key_right ∧ g'.key_down = g.key_down ∧
  g'.rotate_right = g.rotate_right ∧ g'.rotate_left = g.rotate_left ∧
  g'.interval_count = g.interval_count ∧ g'.level = g.level ∧
  g'.points = g.points ∧ g'.pieces = g.pieces

/-- The example state with `rotate_right` and `key_left` set by the driver. -/
def exampleGameKeys (f : Field) (piece rotation : Nat) (pos : Pos) : Game :=
  { exampleGameAt f piece rotation pos with rotate_right := true, key_left := true }

/-- The I piece lying on the floor of the empty example field, with
`rotate_right` set by the driver and the O piece in rotation 3 as next piece. -/
def exampleGameOnFloor : Game :=
  { exampleGameAt fieldEmpty 1 0 ⟨5, 19⟩ with next_piece := ⟨0, 3⟩, rotate_right := true }

/-- Every cell of the field holds a value in [0, 7]. -/
def FieldInRange (cfg : Config) (f : Field) : Prop :=
  ∀ y x, y < cfg.GRID_HEIGHT → x < cfg.GRID_WIDTH → 0 ≤ f y x ∧ f y x ≤ 7

/-- Every cell of the field holds a value in [0, 7] and the current and the
next piece have a shape index below 7. -/
def ValuesInRange (cfg : Config) (g : Game) : Prop :=
  FieldInRange cfg g.field ∧ g.current_piece.piece < 7 ∧ g.next_piece.piece < 7

/-- What the driver may do between two calls: it sets the flags, the interval
counter and the level; the field, the pieces, the position, the lines, the
score and the table are those the simulation left. -/
def DriverStep (g g' : Game) : Prop :=
  g'.field = g.field ∧ g'.pieces = g.pieces ∧ g'.current_piece = g.current_piece ∧
  g'.next_piece = g.next_piece ∧ g'.piece_pos = g.piece_pos ∧ g'.lines = g.lines ∧
  g'.score = g.score ∧ g'.points = g.points

/-- The states reachable from `gameInit` by calls of `gameUpdate`, with the
driver acting between the calls and any raw draws. -/
inductive Reachable (cfg : Config) : Game → Prop where
  | init (prior : Game) (draws : List Nat) (g : Game) (rest : List Nat) :
      gameInit cfg prior draws = .ok (g, rest) → Reachable cfg g
  | tick (g gd : Game) (draws : List Nat) (g' : Game) (rest : List Nat) :
      Reachable cfg g → DriverStep g gd → gameUpdate cfg gd draws = .ok (g', rest) →
      Reachable cfg g'

/-- Calls of `gameUpdate` in a row, `n` of them, the driver leaving the state
as it is between the calls. -/
def runTicks (cfg : Config) : Nat → Game → List Nat → Except Fault (Game × List Nat)
  | 0, g, draws => .ok (g, draws)
  | n + 1, g, draws =>
    match gameUpdate cfg g draws with
    | .error e => .error e
    | .ok (g1, d1) => runTicks cfg n g1 d1

/-- The field is empty and no flag is set. -/
def EmptyAndIdle (cfg : Config) (g : Game) : Prop :=
  (∀ y x, y < cfg.GRID_HEIGHT → x < cfg.GRID_WIDTH → g.field y x = 0) ∧
  g.key_left = false ∧ g.key_right = false ∧ g.key_down = false ∧
  g.rotate_right = false ∧ g.rotate_left = false

/-- The state `g` with the piece in row `y` of the spawn column and the
interval counter at `n`. -/
def fallState (cfg : Config) (g : Game) (y : Int) (n : Nat) : Game :=
  { g with piece_pos := ⟨((cfg.GRID_WIDTH / 2 : Nat) : Int), y⟩, interval_count := (n : Int) }

/-- A descent is due in a tick: the soft drop (interval reached and `key_down`
set) or the automatic drop (interval reached). -/
def DescentDue (cfg : Config) (g : Game) : Prop :=
  (g.interval_count % (cfg.SOFT_DROP_INTERVAL_COUNT : Int) = 0 ∧ g.key_down = true) ∨
  g.interval_count % (cfg.DROP_INTERVAL_COUNT : Int) = 0

/-- The cell lies left of the field, right of it, or below its last row. -/
def Outside (cfg : Config) (p : Pos) : Prop :=
  p.x < 0 ∨ p.x ≥ cfg.GRID_WIDTH ∨ p.y ≥ cfg.GRID_HEIGHT

/-- The read `grid[y][x]` when a read outside the array yields the value
`outside y x`, about which nothing is assumed. -/
def readCellWith (cfg : Config) (outside : Int → Int → Int) (f : Field) (y x : Int) : Int :=
  if 0 ≤ y ∧ y < cfg.GRID_HEIGHT ∧ 0 ≤ x ∧ x < cfg.GRID_WIDTH then f y.toNat x.toNat
  else outside y x

/-- The function `checkCellCollision` with the reads of `readCellWith`. -/
def checkCellCollisionWith (cfg : Config) (outside : Int → Int → Int) (grid : Field)
    (pos : Pos) : Bool :=
  if pos.x < 0 ∨ pos.x ≥ cfg.GRID_WIDTH ∨ pos.y ≥ cfg.GRID_HEIGHT then true
  else if readCellWith cfg outside grid pos.y pos.x = 0 then false else true

/-- The loop of `checkCollision` over the blocks with the reads of
`readCellWith`. -/
def anyBlockCollidesWith (cfg : Config) (outside : Int → Int → Int) (grid : Field)
    (pos : Pos) : List Pos → Bool
  | [] => false
  | b :: bs =>
    if checkCellCollisionWith cfg outside grid (blockAt b pos) then true
    else anyBlockCollidesWith cfg outside grid pos bs

/-- The function `checkCollision` with the reads of `readCellWith`. -/
def checkCollisionWith (cfg : Config) (outside : Int → Int → Int) (g : Game) (pos : Pos)
    (rotation : Nat) : Except Fault Bool :=
  match blocksOf g.current_piece.piece rotation with
  | .error e => .error e
  | .ok blocks => .ok (anyBlockCollidesWith cfg outside g.field pos blocks)

/-- Number of full rows among the rows `0 .. n - 1` of the field. -/
def fullCount (cfg : Config) (f : Field) (n : Nat) : Nat :=
  (List.range n).countP (fun r => lineFull cfg f r)

/-- The current piece is a catalogue shape in one of its four rotations and
its four cells, the position plus each relative offset, lie inside the
field. -/
def PieceInField (cfg : Config) (g : Game) : Prop :=
  g.current_piece.piece < 7 ∧ g.current_piece.rotation < 4 ∧
  ∀ blocks, blocksOf g.current_piece.piece g.current_piece.rotation = .ok blocks →
    ∀ b ∈ blocks, InGrid cfg ⟨b.x + g.piece_pos.x, b.y + g.piece_pos.y⟩

/-- A state on which a tick reads and writes inside the arrays only: the
current piece lies inside the field, the cell coordinates of a piece next to
the field are `int8_t` values, no rotation of the shape has a cell above the
field at the position of the piece when a rotation is requested, and no row of
the field is full. -/
def TickReady (cfg : Config) (g : Game) : Prop :=
  PieceInField cfg g ∧ cfg.GRID_WIDTH ≤ 125 ∧ cfg.GRID_HEIGHT ≤ 126 ∧
  ((g.rotate_right = true ∨ g.rotate_left = true) →
    ∀ r blocks, blocksOf g.current_piece.piece r = .ok blocks →
      ∀ b ∈ blocks, 0 ≤ b.y + g.piece_pos.y) ∧
  (∀ y, y < cfg.GRID_HEIGHT → ¬ RowFull cfg g.field y)

/-! ## Auxiliary facts -/

theorem toInt8_of_range (v : Int) (h1 : -128 ≤ v) (h2 : v ≤ 127) : toInt8 v = v := by
  unfold toInt8
  omega

theorem lineFullFrom_iff (f : Field) (y : Nat) (n x : Nat) :
    lineFullFrom f y n x = true ↔ ∀ x', x ≤ x' → x' < x + n → f y x' ≠ 0 := by
  induction n generalizing x with
  | zero =>
    simp only [lineFullFrom, true_iff]
    intro x' h1 h2
    omega
  | succ n ih =>
    rw [lineFullFrom]
    by_cases h0 : f y x = 0
    · simp only [h0, if_true]
      constructor
      · intro h
        cases h
      · intro h
        exact absurd h0 (h x (le_refl x) (by omega))
    · simp only [h0, if_false]
      rw [ih]
      constructor
      · intro h x' h1 h2
        by_cases hx : x' = x
        · subst hx
          exact h0
        · exact h x' (by omega) (by omega)
      · intro h x' h1 h2
        exact h x' (by omega) (by omega)

theorem lineFull_iff (cfg : Config) (f : Field) (y : Nat) :
    lineFull cfg f y = true ↔ RowFull cfg f y := by
  unfold lineFull RowFull
  rw [lineFullFrom_iff]
  constructor
  · intro h x hx
    exact h x (Nat.zero_le x) (by omega)
  · intro h x _ hx
    exact h x (by omega)

theorem lineFull_false_iff (cfg : Config) (f : Field) (y : Nat) :
    lineFull cfg f y = false ↔ ¬ RowFull cfg f y := by
  rw [← lineFull_iff]
  cases lineFull cfg f y <;> simp

theorem moveRowDown_spec (cfg : Config) (y count : Nat) (hc : 0 < count)
    (hy : y + count < cfg.GRID_HEIGHT) (n x : Nat) (f : Field) (hx : x + n ≤ cfg.GRID_WIDTH) :
    ∃ f', moveRowDown cfg y count n x f = .ok f' ∧
      ∀ y' x', f' y' x' =
        if x ≤ x' ∧ x' < x + n then
          (if y' = y + count then f y x' else if y' = y then 0 else f y' x')
        else f y' x' := by
  induction n generalizing x f with
  | zero =>
    refine ⟨f, rfl, ?_⟩
    intro y' x'
    have : ¬ (x ≤ x' ∧ x' < x + 0) := by omega
    simp only [this, if_false]
  | succ n ih =>
    have hxw : x < cfg.GRID_WIDTH := by omega
    obtain ⟨f', hf', hspec⟩ := ih (x + 1)
      (setCell (setCell f (y + count) x (f y x)) y x 0) (by omega)
    refine ⟨f', ?_, ?_⟩
    · rw [moveRowDown, if_pos ⟨hy, hxw⟩]
      exact hf'
    · intro y' x'
      rw [hspec y' x']
      simp only [setCell]
      by_cases h1 : x' = x
      · subst h1
        have e1 : ¬ (x' + 1 ≤ x' ∧ x' < x' + 1 + n) := by omega
        have e2 : (x' ≤ x' ∧ x' < x' + (n + 1)) := by omega
        simp only [e1, e2, if_false, if_true, and_true]
        by_cases h2 : y' = y
        · subst h2
          have e3 : ¬ (y' = y' + count) := by omega
          simp [e3]
        · by_cases h3 : y' = y + count
          · subst h3
            have e4 : ¬ (count = 0) := by omega
            simp [e4]
          · simp [h2, h3]
      · have e1 : (x + 1 ≤ x' ∧ x' < x + 1 + n) ↔ (x ≤ x' ∧ x' < x + (n + 1)) := by omega
        simp only [e1, h1, and_false, if_false]

theorem moveGridDownFrom_spec (cfg : Config) (count : Nat) (hc : 0 < count)
    (n : Nat) (f : Field) (hn : n + count ≤ cfg.GRID_HEIGHT) :
    ∃ f', moveGridDownFrom cfg count n f = .ok f' ∧
      ∀ y' x', f' y' x' =
        if x' < cfg.GRID_WIDTH then
          (if count ≤ y' ∧ y' < n + count then f (y' - count) x'
           else if y' < n then 0 else f y' x')
        else f y' x' := by
  induction n generalizing f with
  | zero =>
    refine ⟨f, rfl, ?_⟩
    intro y' x'
    have e1 : ¬ (count ≤ y' ∧ y' < 0 + count) := by omega
    have e2 : ¬ (y' < 0) := by omega
    simp only [e1, e2, if_false, ite_self]
  | succ n ih =>
    obtain ⟨f1, hf1, hs1⟩ := moveRowDown_spec cfg n count hc (by omega)
      cfg.GRID_WIDTH 0 f (by omega)
    obtain ⟨f2, hf2, hs2⟩ := ih f1 (by omega)
    refine ⟨f2, ?_, ?_⟩
    · rw [moveGridDownFrom, hf1]
      exact hf2
    · intro y' x'
      rw [hs2 y' x']
      by_cases hx : x' < cfg.GRID_WIDTH
      · have e0 : (0 ≤ x' ∧ x' < 0 + cfg.GRID_WIDTH) := by omega
        have hs1' : ∀ y'', f1 y'' x' =
            if y'' = n + count then f n x' else if y'' = n then 0 else f y'' x' := by
          intro y''
          rw [hs1 y'' x', if_pos e0]
        rw [if_pos hx, if_pos hx]
        simp only [hs1']
        split_ifs <;> first | rfl | (exfalso; omega) | (congr 1; omega)
      · have e0 : ¬ (0 ≤ x' ∧ x' < 0 + cfg.GRID_WIDTH) := by omega
        rw [if_neg hx, if_neg hx, hs1 y' x', if_neg e0]

theorem moveGridDown_spec (cfg : Config) (g : Game) (top count : Nat) (hc : 0 < count)
    (hn : top + count < cfg.GRID_HEIGHT) :
    ∃ f', moveGridDown cfg g top count = .ok { g with field := f' } ∧
      ∀ y' x', f' y' x' =
        if x' < cfg.GRID_WIDTH then
          (if count ≤ y' ∧ y' ≤ top + count then g.field (y' - count) x'
           else if y' ≤ top then 0 else g.field y' x')
        else g.field y' x' := by
  obtain ⟨f', hf', hs⟩ := moveGridDownFrom_spec cfg count hc (top + 1) g.field (by omega)
  refine ⟨f', ?_, ?_⟩
  · rw [moveGridDown, hf']
  · intro y' x'
    rw [hs y' x']
    have e1 : (count ≤ y' ∧ y' < top + 1 + count) ↔ (count ≤ y' ∧ y' ≤ top + count) := by omega
    have e2 : y' < top + 1 ↔ y' ≤ top := by omega
    simp only [e1, e2]

theorem clearLinesFrom_skip (cfg : Config) (g : Game) (m d : Nat)
    (h : ∀ y, m ≤ y → y < m + d → ¬ RowFull cfg g.field y) :
    clearLinesFrom cfg (m + d) 0 g = clearLinesFrom cfg m 0 g := by
  induction d with
  | zero => rfl
  | succ d ih =>
    have hd : lineFull cfg g.field (m + d) = false :=
      (lineFull_false_iff cfg g.field (m + d)).2 (h (m + d) (by omega) (by omega))
    have e : m + (d + 1) = (m + d) + 1 := by omega
    rw [e, clearLinesFrom, hd]
    simp only [Bool.false_eq_true, if_false, gt_iff_lt, lt_self_iff_false]
    exact ih (fun y h1 h2 => h y h1 (by omega))

theorem clearLinesFrom_run (cfg : Config) (g : Game) (m d c : Nat)
    (h : ∀ y, m ≤ y → y < m + d → RowFull cfg g.field y) :
    clearLinesFrom cfg (m + d) c g = clearLinesFrom cfg m (c + d) g := by
  induction d generalizing c with
  | zero => rfl
  | succ d ih =>
    have hd : lineFull cfg g.field (m + d) = true :=
      (lineFull_iff cfg g.field (m + d)).2 (h (m + d) (by omega) (by omega))
    have e : m + (d + 1) = (m + d) + 1 := by omega
    rw [e, clearLinesFrom, hd]
    simp only [if_true]
    rw [ih (c + 1) (fun y h1 h2 => h y h1 (by omega))]
    congr 1
    omega

theorem clearLinesFrom_flush (cfg : Config) (g : Game) (y count : Nat)
    (hrow : ¬ RowFull cfg g.field y) (hc : 0 < count) (hc4 : count ≤ 4)
    (hn : y + count < cfg.GRID_HEIGHT) :
    ∃ f', (∀ y' x', f' y' x' =
        if x' < cfg.GRID_WIDTH then
          (if count ≤ y' ∧ y' ≤ y + count then g.field (y' - count) x'
           else if y' ≤ y then 0 else g.field y' x')
        else g.field y' x') ∧
      clearLinesFrom cfg (y + 1) count g =
        clearLinesFrom cfg y 0
          { g with field := f', lines := g.lines + count,
                   score := g.score + g.points (count - 1) * (g.level + 1) } := by
  obtain ⟨f', hf', hs⟩ := moveGridDown_spec cfg g y count hc hn
  refine ⟨f', hs, ?_⟩
  have hd : lineFull cfg g.field y = false := (lineFull_false_iff cfg g.field y).2 hrow
  rw [clearLinesFrom, hd]
  simp only [Bool.false_eq_true, if_false, gt_iff_lt, hc, if_true, hf', updateStatistics]
  have e : 1 ≤ count ∧ count ≤ 4 := ⟨hc, hc4⟩
  simp only [e, and_self, if_true]

theorem width_pos_of_not_full (cfg : Config) (f : Field) (y : Nat)
    (h : ¬ RowFull cfg f y) : ∃ x, x < cfg.GRID_WIDTH ∧ f y x = 0 := by
  unfold RowFull at h
  push_neg at h
  exact h

theorem clearLinesFrom_zero (cfg : Config) (count : Nat) (g : Game) :
    clearLinesFrom cfg 0 count g = .ok g := rfl

/-- One run of `k` full rows below a non-full row `t`, no full row below the
run and none among the rows `0 .. t - k - 1`: the result of `clearLines` in
closed form.  The rows `t - k .. t - 1` are not constrained: after the
compaction they lie at `t .. t + k - 1`, where the scan has already passed. -/
theorem clearLines_one_run (cfg : Config) (g : Game) (t k : Nat)
    (hk1 : 1 ≤ k) (hk4 : k ≤ 4) (hH : t + k < cfg.GRID_HEIGHT)
    (ht : ¬ RowFull cfg g.field t)
    (hrun : ∀ y, t < y → y ≤ t + k → RowFull cfg g.field y)
    (habove : ∀ y, y + k < t → ¬ RowFull cfg g.field y)
    (hbelow : ∀ y, t + k < y → y < cfg.GRID_HEIGHT → ¬ RowFull cfg g.field y) :
    ∃ f', clearLines cfg g =
        .ok { g with field := f', lines := g.lines + k,
                     score := g.score + g.points (k - 1) * (g.level + 1) } ∧
      ∀ y' x', f' y' x' =
        if x' < cfg.GRID_WIDTH then
          (if k ≤ y' ∧ y' ≤ t + k then g.field (y' - k) x'
           else if y' ≤ t then 0 else g.field y' x')
        else g.field y' x' := by
  obtain ⟨d, hd⟩ : ∃ d, cfg.GRID_HEIGHT = (t + k + 1) + d :=
    ⟨cfg.GRID_HEIGHT - (t + k + 1), by omega⟩
  obtain ⟨f', hs, hfl⟩ := clearLinesFrom_flush cfg g t k ht (by omega) hk4 hH
  obtain ⟨x0, hx0, hz0⟩ := width_pos_of_not_full cfg g.field t ht
  refine ⟨f', ?_, hs⟩
  have s1 : clearLinesFrom cfg cfg.GRID_HEIGHT 0 g = clearLinesFrom cfg (t + k + 1) 0 g := by
    have := clearLinesFrom_skip cfg g (t + k + 1) d
      (fun y h1 h2 => hbelow y (by omega) (by omega))
    rw [← hd] at this
    exact this
  have s2 : clearLinesFrom cfg (t + k + 1) 0 g = clearLinesFrom cfg (t + 1) k g := by
    have := clearLinesFrom_run cfg g (t + 1) k 0
      (fun y h1 h2 => hrun y (by omega) (by omega))
    have e1 : t + 1 + k = t + k + 1 := by omega
    have e2 : 0 + k = k := by omega
    rw [e1, e2] at this
    exact this
  have s3 : ∀ g2 : Game, g2.field = f' →
      clearLinesFrom cfg t 0 g2 = clearLinesFrom cfg 0 0 g2 := by
    intro g2 hg2
    have := clearLinesFrom_skip cfg g2 0 t (by
      intro y _ hy hfull
      rw [hg2] at hfull
      by_cases hyk : y < k
      · have h0 := hfull x0 hx0
        rw [hs y x0, if_pos hx0, if_neg (by omega), if_pos (by omega)] at h0
        exact h0 rfl
      · apply habove (y - k) (by omega)
        intro x hx
        have h0 := hfull x hx
        rw [hs y x, if_pos hx, if_pos (by omega)] at h0
        exact h0)
    have e : 0 + t = t := by omega
    rw [e] at this
    exact this
  unfold clearLines
  rw [s1, s2, hfl, s3 _ rfl, clearLinesFrom_zero]

/-! ## Line clearing -/

/-- C1 (the code departs from the claim): for every state with grid height at
least 6 whose rows 5 and 3 are full and no other row is, `clearLines` registers
a single 1-line event: `lines` grows by 1, `score` by
`points[0] * (level + 1)`, and row 4 of the result is full (it is the old
row 3, which the scan never examines). -/
theorem clearLines_split_rows_one_event (cfg : Config) (g : Game)
    (hH : 6 ≤ cfg.GRID_HEIGHT)
    (h5 : RowFull cfg g.field 5) (h3 : RowFull cfg g.field 3)
    (hother : ∀ y, y < cfg.GRID_HEIGHT → y ≠ 5 → y ≠ 3 → ¬ RowFull cfg g.field y) :
    ∃ g', clearLines cfg g = .ok g' ∧ g'.lines = g.lines + 1 ∧
      g'.score = g.score + g.points 0 * (g.level + 1) ∧
      RowFull cfg g'.field 4 := by
  obtain ⟨f', hcl, hs⟩ := clearLines_one_run cfg g 4 1 (by omega) (by omega) (by omega)
    (hother 4 (by omega) (by omega) (by omega))
    (fun y h1 h2 => by
      have : y = 5 := by omega
      subst this
      exact h5)
    (fun y h1 => hother y (by omega) (by omega) (by omega))
    (fun y h1 h2 => hother y h2 (by omega) (by omega))
  refine ⟨_, hcl, ?_, ?_, ?_⟩
  · simp
  · simp
  · intro x hx
    show f' 4 x ≠ 0
    rw [hs 4 x, if_pos hx, if_pos (by omega)]
    exact h3 x hx

/-- Instance of `clearLines_split_rows_one_event` on the example state with
the field `fieldSplitRows`. -/
theorem clearLines_split_rows_one_event_witness :
    ∃ g', clearLines exampleConfig (exampleGame fieldSplitRows) = .ok g' ∧
      g'.lines = (exampleGame fieldSplitRows).lines + 1 ∧
      g'.score = (exampleGame fieldSplitRows).score +
        (exampleGame fieldSplitRows).points 0 * ((exampleGame fieldSplitRows).level + 1) ∧
      RowFull exampleConfig g'.field 4 :=
  clearLines_split_rows_one_event exampleConfig (exampleGame fieldSplitRows)
    (by decide) (by unfold RowFull; decide) (by unfold RowFull; decide)
    (by unfold RowFull; decide)

/-- Compaction of one run that has at least as many rows above it as it is
long (`k ≤ t + 1`): rows `0 .. k - 1` of the result are zero, rows `k .. t + k`
are the old rows `0 .. t`, the rows below the run are unchanged. -/
theorem clearLines_compacts_run (cfg : Config) (g : Game) (t k : Nat)
    (hk1 : 1 ≤ k) (hk4 : k ≤ 4) (hH : t + k < cfg.GRID_HEIGHT) (htk : k ≤ t + 1)
    (hrun : ∀ y, t < y → y ≤ t + k → RowFull cfg g.field y)
    (hother : ∀ y, y < cfg.GRID_HEIGHT → (y ≤ t ∨ t + k < y) → ¬ RowFull cfg g.field y) :
    ∃ g', clearLines cfg g = .ok g' ∧ g'.lines = g.lines + k ∧
      g'.score = g.score + g.points (k - 1) * (g.level + 1) ∧
      (∀ y, y < k → RowZero cfg g'.field y) ∧
      (∀ y, k ≤ y → y ≤ t + k → RowEq cfg g'.field y g.field (y - k)) ∧
      (∀ y, t + k < y → y < cfg.GRID_HEIGHT → RowEq cfg g'.field y g.field y) := by
  obtain ⟨f', hcl, hs⟩ := clearLines_one_run cfg g t k hk1 hk4 hH
    (hother t (by omega) (Or.inl (le_refl t))) hrun
    (fun y h1 => hother y (by omega) (Or.inl (by omega)))
    (fun y h1 h2 => hother y h2 (Or.inr h1))
  refine ⟨_, hcl, by simp, by simp, ?_, ?_, ?_⟩
  · intro y hy x hx
    show f' y x = 0
    rw [hs y x, if_pos hx, if_neg (by omega), if_pos (by omega)]
  · intro y h1 h2 x hx
    show f' y x = g.field (y - k) x
    rw [hs y x, if_pos hx, if_pos ⟨h1, h2⟩]
  · intro y h1 h2 x hx
    show f' y x = g.field y x
    rw [hs y x, if_pos hx, if_neg (by omega), if_neg (by omega)]

/-- C2 (the code departs from the claim): when the run of `k` full rows at
`t + 1 .. t + k` lies so close to the top that `t + 1 < k`, `clearLines`
registers the `k` lines but the rows `t + 1 .. k - 1` of the result are the old
rows of the run, still full, not zero. -/
theorem clearLines_run_near_top_keeps_rows (cfg : Config) (g : Game) (t k : Nat)
    (hk1 : 1 ≤ k) (hk4 : k ≤ 4) (hH : t + k < cfg.GRID_HEIGHT) (hnear : t + 1 < k)
    (hrun : ∀ y, t < y → y ≤ t + k → RowFull cfg g.field y)
    (hother : ∀ y, y < cfg.GRID_HEIGHT → (y ≤ t ∨ t + k < y) → ¬ RowFull cfg g.field y) :
    ∃ g', clearLines cfg g = .ok g' ∧ g'.lines = g.lines + k ∧
      ∀ y, t < y → y < k →
        RowEq cfg g'.field y g.field y ∧ RowFull cfg g'.field y ∧ ¬ RowZero cfg g'.field y := by
  obtain ⟨f', hcl, hs⟩ := clearLines_one_run cfg g t k hk1 hk4 hH
    (hother t (by omega) (Or.inl (le_refl t))) hrun
    (fun y h1 => hother y (by omega) (Or.inl (by omega)))
    (fun y h1 h2 => hother y h2 (Or.inr h1))
  obtain ⟨x0, hx0, _⟩ := width_pos_of_not_full cfg g.field t
    (hother t (by omega) (Or.inl (le_refl t)))
  refine ⟨_, hcl, by simp, ?_⟩
  intro y h1 h2
  have heq : ∀ x, x < cfg.GRID_WIDTH → f' y x = g.field y x := by
    intro x hx
    rw [hs y x, if_pos hx, if_neg (by omega), if_neg (by omega)]
  have hfull : ∀ x, x < cfg.GRID_WIDTH → f' y x ≠ 0 := by
    intro x hx
    rw [heq x hx]
    exact hrun y h1 (by omega) x hx
  exact ⟨heq, hfull, fun hz => hfull x0 hx0 (hz x0 hx0)⟩

/-- Instance of `clearLines_run_near_top_keeps_rows`: rows 1 and 2 full under
the non-full row 0 (`t = 0`, `k = 2`); row 1 of the result is still full. -/
theorem clearLines_run_near_top_keeps_rows_witness :
    ∃ g', clearLines exampleConfig (exampleGame fieldRunNearTop) = .ok g' ∧
      g'.lines = (exampleGame fieldRunNearTop).lines + (2 : Nat) ∧
      ∀ y, 0 < y → y < 2 →
        RowEq exampleConfig g'.field y (exampleGame fieldRunNearTop).field y ∧
        RowFull exampleConfig g'.field y ∧ ¬ RowZero exampleConfig g'.field y :=
  clearLines_run_near_top_keeps_rows exampleConfig (exampleGame fieldRunNearTop) 0 2
    (by decide) (by decide) (by decide) (by decide)
    (fun y h1 h2 => by
      have hy : y = 1 ∨ y = 2 := by omega
      rcases hy with h | h <;> subst h <;> unfold RowFull <;> decide)
    (by unfold RowFull; decide)

/-- C3 (the code departs from the claim): when the rows `0 .. k - 1` are full
and no other row is, the scan of `clearLines` ends with the run still pending
and returns the state as it was: no line is counted, no score is added and
the rows stay full. -/
theorem clearLines_run_at_top_not_flushed (cfg : Config) (g : Game) (k : Nat)
    (hk : k < cfg.GRID_HEIGHT)
    (hrun : ∀ y, y < k → RowFull cfg g.field y)
    (hother : ∀ y, k ≤ y → y < cfg.GRID_HEIGHT → ¬ RowFull cfg g.field y) :
    clearLines cfg g = .ok g := by
  obtain ⟨d, hd⟩ : ∃ d, cfg.GRID_HEIGHT = k + d := ⟨cfg.GRID_HEIGHT - k, by omega⟩
  have s1 := clearLinesFrom_skip cfg g k d (fun y h1 h2 => hother y h1 (by omega))
  have s2 := clearLinesFrom_run cfg g 0 k 0 (fun y _ h2 => hrun y (by omega))
  rw [← hd] at s1
  rw [Nat.zero_add] at s2
  unfold clearLines
  rw [s1, s2, clearLinesFrom_zero]

/-- Instance of `clearLines_run_at_top_not_flushed`: rows 0 and 1 full. -/
theorem clearLines_run_at_top_not_flushed_witness :
    clearLines exampleConfig (exampleGame fieldRunAtTop) = .ok (exampleGame fieldRunAtTop) :=
  clearLines_run_at_top_not_flushed exampleConfig (exampleGame fieldRunAtTop) 2
    (by decide) (by unfold RowFull; decide) (by unfold RowFull; decide)

/-- C4: for every state with grid height at least 6 whose rows 3, 4 and 5 are
full, whose row 2 is not full and which has no other full row, and in which
the `int` arithmetic of a 3-line event does not overflow (`lines + 3`,
`level + 1`, `points[2] * (level + 1)` and the new score fit an `int`),
`clearLines` registers one 3-line event: `lines` grows by 3, `score` by
`points[2] * (level + 1)` (300 times `level + 1` with the table of `gameInit`),
both results fit an `int`, rows 3, 4, 5 of the result are the old rows 0, 1, 2,
rows 0 to 2 are zero and the rows from 6 on are unchanged. -/
theorem clearLines_three_rows (cfg : Config) (g : Game)
    (hH : 6 ≤ cfg.GRID_HEIGHT)
    (h3 : RowFull cfg g.field 3) (h4 : RowFull cfg g.field 4) (h5 : RowFull cfg g.field 5)
    (hother : ∀ y, y < cfg.GRID_HEIGHT → y ≠ 3 → y ≠ 4 → y ≠ 5 → ¬ RowFull cfg g.field y)
    (hfit : StatisticsFit cfg g 3) :
    ∃ g', clearLines cfg g = .ok g' ∧ g'.lines = g.lines + 3 ∧
      g'.score = g.score + g.points 2 * (g.level + 1) ∧
      FitsInt cfg g'.lines ∧ FitsInt cfg g'.score ∧
      (g.points 2 = 300 → g'.score = g.score + 300 * (g.level + 1)) ∧
      RowEq cfg g'.field 3 g.field 0 ∧ RowEq cfg g'.field 4 g.field 1 ∧
      RowEq cfg g'.field 5 g.field 2 ∧
      (∀ y, y < 3 → RowZero cfg g'.field y) ∧
      (∀ y, 6 ≤ y → y < cfg.GRID_HEIGHT → RowEq cfg g'.field y g.field y) := by
  obtain ⟨g', hcl, hl, hsc, hz, hsh, hkeep⟩ :=
    clearLines_compacts_run cfg g 2 3 (by omega) (by omega) (by omega) (by omega)
      (fun y h1 h2 => by
        have : y = 3 ∨ y = 4 ∨ y = 5 := by omega
        rcases this with h | h | h
        · subst h
          exact h3
        · subst h
          exact h4
        · subst h
          exact h5)
      (fun y h1 h2 => hother y h1 (by omega) (by omega) (by omega))
  obtain ⟨f1, _, _, f4⟩ := hfit
  refine ⟨g', hcl, ?_, hsc, ?_, ?_, ?_, hsh 3 (by omega) (by omega),
    hsh 4 (by omega) (by omega), hsh 5 (by omega) (by omega), hz,
    fun y h1 h2 => hkeep y (by omega) h2⟩
  · rw [hl]
    rfl
  · rw [hl]
    exact f1
  · rw [hsc]
    exact f4
  · intro hp
    rw [hsc]
    show g.score + g.points 2 * (g.level + 1) = _
    rw [hp]

/-- Instance of `clearLines_three_rows` on the example state with the field
`fieldThreeRows`: level 0, so the score grows by 300, within `int`. -/
theorem clearLines_three_rows_witness :
    ∃ g', clearLines exampleConfig (exampleGame fieldThreeRows) = .ok g' ∧
      g'.lines = (exampleGame fieldThreeRows).lines + 3 ∧
      g'.score = (exampleGame fieldThreeRows).score +
        (exampleGame fieldThreeRows).points 2 * ((exampleGame fieldThreeRows).level + 1) ∧
      FitsInt exampleConfig g'.lines ∧ FitsInt exampleConfig g'.score ∧
      ((exampleGame fieldThreeRows).points 2 = 300 →
        g'.score = (exampleGame fieldThreeRows).score +
          300 * ((exampleGame fieldThreeRows).level + 1)) ∧
      RowEq exampleConfig g'.field 3 (exampleGame fieldThreeRows).field 0 ∧
      RowEq exampleConfig g'.field 4 (exampleGame fieldThreeRows).field 1 ∧
      RowEq exampleConfig g'.field 5 (exampleGame fieldThreeRows).field 2 ∧
      (∀ y, y < 3 → RowZero exampleConfig g'.field y) ∧
      (∀ y, 6 ≤ y → y < exampleConfig.GRID_HEIGHT →
        RowEq exampleConfig g'.field y (exampleGame fieldThreeRows).field y) :=
  clearLines_three_rows exampleConfig (exampleGame fieldThreeRows)
    (by decide) (by unfold RowFull; decide) (by unfold RowFull; decide)
    (by unfold RowFull; decide)
    (fun y hy h3 h4 h5 => by
      have hy' : y < 20 := hy
      interval_cases y <;> first | omega | (unfold RowFull; decide))
    (by unfold StatisticsFit FitsInt; decide)

/-! ## Collision test -/

theorem checkCellCollision_of_nonneg (cfg : Config) (grid : Field) (pos : Pos)
    (hy : 0 ≤ pos.y) :
    (CellBlocked cfg grid pos → checkCellCollision cfg grid pos = .ok true) ∧
    (¬ CellBlocked cfg grid pos → checkCellCollision cfg grid pos = .ok false) := by
  unfold CellBlocked checkCellCollision readCell
  by_cases hg : pos.x < 0 ∨ pos.x ≥ cfg.GRID_WIDTH ∨ pos.y ≥ cfg.GRID_HEIGHT
  · rw [if_pos hg]
    constructor
    · intro _
      rfl
    · intro h
      exact absurd (by tauto) h
  · rw [if_neg hg]
    have hin : 0 ≤ pos.y ∧ pos.y < cfg.GRID_HEIGHT ∧ 0 ≤ pos.x ∧ pos.x < cfg.GRID_WIDTH := by
      omega
    rw [if_pos hin]
    by_cases hz : grid pos.y.toNat pos.x.toNat = 0
    · constructor
      · intro h
        exact absurd h (by tauto)
      · intro _
        dsimp only
        rw [if_pos hz]
    · constructor
      · intro _
        dsimp only
        rw [if_neg hz]
      · intro h
        exact absurd (by tauto) h

theorem checkCellCollision_above_top (cfg : Config) (grid : Field) (pos : Pos)
    (hx0 : 0 ≤ pos.x) (hx1 : pos.x < cfg.GRID_WIDTH) (hy : pos.y < 0) :
    checkCellCollision cfg grid pos = .error .outOfBounds := by
  unfold checkCellCollision readCell
  rw [if_neg (by omega), if_neg (by omega)]

theorem checkCollision_first_block_above_top (cfg : Config) (g : Game) (p : Pos)
    (rotation : Nat) (b : Pos) (bs : List Pos)
    (hb : blocksOf g.current_piece.piece rotation = .ok (b :: bs))
    (hx0 : 0 ≤ (blockAt b p).x) (hx1 : (blockAt b p).x < cfg.GRID_WIDTH)
    (hy : (blockAt b p).y < 0) :
    checkCollision cfg g p rotation = .error .outOfBounds := by
  unfold checkCollision
  rw [hb]
  simp only [anyBlockCollides, checkCellCollision_above_top cfg g.field (blockAt b p) hx0 hx1 hy]

/-- C6 (the code departs from the claim): for a cell with a valid column and
a negative row the guard of `checkCellCollision` lets the cell through and the
function reads `grid[pos.y][pos.x]` outside the array: it has no defined
result, it does not return false.  The same holds for `checkCollision` as soon
as the first block of the rotation lies in such a cell. -/
theorem checkCellCollision_negative_row (cfg : Config) (grid : Field) (pos : Pos)
    (hx0 : 0 ≤ pos.x) (hx1 : pos.x < cfg.GRID_WIDTH) (hy : pos.y < 0) :
    checkCellCollision cfg grid pos = .error .outOfBounds ∧
    ∀ (g : Game) (p : Pos) (rotation : Nat) (b : Pos) (bs : List Pos),
      g.field = grid → blocksOf g.current_piece.piece rotation = .ok (b :: bs) →
      blockAt b p = pos → checkCollision cfg g p rotation = .error .outOfBounds := by
  refine ⟨checkCellCollision_above_top cfg grid pos hx0 hx1 hy, ?_⟩
  intro g p rotation b bs _ hb hcell
  rw [← hcell] at hx0 hx1 hy
  exact checkCollision_first_block_above_top cfg g p rotation b bs hb hx0 hx1 hy

/-- Instance of `checkCellCollision_negative_row`: the cell (5, -1) over the
empty field, and the O piece at position (5, -1), whose four cells (5, -1),
(5, -2), (6, -2), (6, -1) all have a valid column and a negative row. -/
theorem checkCellCollision_negative_row_witness :
    checkCellCollision exampleConfig fieldEmpty ⟨5, -1⟩ = .error .outOfBounds ∧
    checkCollision exampleConfig (exampleGameAt fieldEmpty 0 0 ⟨5, -1⟩) ⟨5, -1⟩ 0
      = .error .outOfBounds :=
  ⟨(checkCellCollision_negative_row exampleConfig fieldEmpty ⟨5, -1⟩
      (by decide) (by decide) (by decide)).1,
   (checkCellCollision_negative_row exampleConfig fieldEmpty ⟨5, -1⟩
      (by decide) (by decide) (by decide)).2
      (exampleGameAt fieldEmpty 0 0 ⟨5, -1⟩) ⟨5, -1⟩ 0 ⟨0, 0⟩
      [⟨0, -1⟩, ⟨1, -1⟩, ⟨1, 0⟩] rfl rfl (by decide)⟩

theorem anyBlockCollides_of_nonneg (cfg : Config) (grid : Field) (pos : Pos)
    (blocks : List Pos) (h : ∀ b ∈ blocks, 0 ≤ (blockAt b pos).y) :
    ((∃ b ∈ blocks, CellBlocked cfg grid (blockAt b pos)) →
      anyBlockCollides cfg grid pos blocks = .ok true) ∧
    ((¬ ∃ b ∈ blocks, CellBlocked cfg grid (blockAt b pos)) →
      anyBlockCollides cfg grid pos blocks = .ok false) := by
  induction blocks with
  | nil =>
    constructor
    · rintro ⟨b, hb, _⟩
      cases hb
    · intro _
      rfl
  | cons b bs ih =>
    have hb := checkCellCollision_of_nonneg cfg grid (blockAt b pos)
      (h b (List.mem_cons_self b bs))
    have ih' := ih (fun c hc => h c (List.mem_cons_of_mem b hc))
    by_cases hblk : CellBlocked cfg grid (blockAt b pos)
    · constructor
      · intro _
        rw [anyBlockCollides, hb.1 hblk]
      · intro hn
        exact absurd ⟨b, List.mem_cons_self b bs, hblk⟩ hn
    · constructor
      · rintro ⟨c, hc, hcb⟩
        rw [anyBlockCollides, hb.2 hblk]
        rcases List.mem_cons.1 hc with hcb' | hcb'
        · subst hcb'
          exact absurd hcb hblk
        · exact ih'.1 ⟨c, hcb', hcb⟩
      · intro hn
        rw [anyBlockCollides, hb.2 hblk]
        exact ih'.2 (fun ⟨c, hc, hcb⟩ => hn ⟨c, List.mem_cons_of_mem b hc, hcb⟩)

theorem anyBlockCollides_false_iff (cfg : Config) (grid : Field) (pos : Pos)
    (blocks : List Pos) :
    anyBlockCollides cfg grid pos blocks = .ok false ↔
      ∀ b ∈ blocks, checkCellCollision cfg grid (blockAt b pos) = .ok false := by
  induction blocks with
  | nil => simp [anyBlockCollides]
  | cons b bs ih =>
    rw [anyBlockCollides]
    rcases hc : checkCellCollision cfg grid (blockAt b pos) with e | r
    · simp [hc]
    · cases r
      · simp only [List.mem_cons, forall_eq_or_imp, hc, true_and]
        exact ih
      · simp [hc]

theorem anyBlockCollides_true_iff (cfg : Config) (grid : Field) (pos : Pos)
    (blocks : List Pos) :
    anyBlockCollides cfg grid pos blocks = .ok true ↔
      ∃ pre b post, blocks = pre ++ b :: post ∧
        (∀ c ∈ pre, checkCellCollision cfg grid (blockAt c pos) = .ok false) ∧
        checkCellCollision cfg grid (blockAt b pos) = .ok true := by
  induction blocks with
  | nil => simp [anyBlockCollides]
  | cons b bs ih =>
    rw [anyBlockCollides]
    rcases hc : checkCellCollision cfg grid (blockAt b pos) with e | r
    · simp only [reduceCtorEq, false_iff]
      rintro ⟨pre, c, post, heq, hpre, hcc⟩
      cases pre with
      | nil =>
        simp only [List.nil_append, List.cons.injEq] at heq
        rw [← heq.1, hc] at hcc
        cases hcc
      | cons p ps =>
        simp only [List.cons_append, List.cons.injEq] at heq
        have := hpre p (List.mem_cons_self p ps)
        rw [← heq.1, hc] at this
        cases this
    · cases r
      · simp only
        rw [ih]
        constructor
        · rintro ⟨pre, c, post, heq, hpre, hcc⟩
          refine ⟨b :: pre, c, post, by rw [heq]; rfl, ?_, hcc⟩
          intro d hd
          rcases List.mem_cons.1 hd with h | h
          · rw [h, hc]
          · exact hpre d h
        · rintro ⟨pre, c, post, heq, hpre, hcc⟩
          cases pre with
          | nil =>
            simp only [List.nil_append, List.cons.injEq] at heq
            rw [← heq.1, hc] at hcc
            cases hcc
          | cons p ps =>
            simp only [List.cons_append, List.cons.injEq] at heq
            exact ⟨ps, c, post, heq.2, fun d hd => hpre d (List.mem_cons_of_mem p hd), hcc⟩
      · simp only [true_iff]
        exact ⟨[], b, bs, rfl, by simp, hc⟩

/-! ## Movement -/

theorem move_eq (cfg : Config) (g : Game) (dir : Direction) (blocks : List Pos)
    (hb : blocksOf g.current_piece.piece g.current_piece.rotation = .ok blocks) :
    move cfg g dir =
      match anyBlockCollides cfg g.field (stepPos g.piece_pos dir) blocks with
      | .error e => .error e
      | .ok true => .ok (false, g)
      | .ok false => .ok (true, { g with piece_pos := stepPos g.piece_pos dir }) := by
  unfold move
  simp only [hb]

theorem move_state (cfg : Config) (g : Game) (dir : Direction) (blocks : List Pos)
    (hb : blocksOf g.current_piece.piece g.current_piece.rotation = .ok blocks)
    (r : Bool) (g' : Game) (h : move cfg g dir = .ok (r, g')) :
    (r = true → g' = { g with piece_pos := stepPos g.piece_pos dir }) ∧
    (r = false → g' = g) := by
  rw [move_eq cfg g dir blocks hb] at h
  rcases hc : anyBlockCollides cfg g.field (stepPos g.piece_pos dir) blocks with e | c
  · rw [hc] at h
    cases h
  · rw [hc] at h
    cases c
    · simp only [Except.ok.injEq, Prod.mk.injEq] at h
      rw [← h.1, ← h.2]
      simp
    · simp only [Except.ok.injEq, Prod.mk.injEq] at h
      rw [← h.1, ← h.2]
      simp

/-- C8: for every state whose piece is in the catalogue and every direction,
`move` returns true exactly when none of the four cells of the current piece
and rotation collides at the candidate position, and then the piece position
is the candidate; it returns false exactly when one of the cells collides, and
then the state is the state before the call; in both cases the field, the
pieces, the flags, the counters, the score and the table are unchanged.  The
call returns whenever no cell of the candidate lies above the field.  The
candidate is the position plus the unit offset (0, +1), (-1, 0) or (+1, 0),
stored as `int8_t`. -/
theorem move_spec (cfg : Config) (g : Game) (dir : Direction) (blocks : List Pos)
    (hb : blocksOf g.current_piece.piece g.current_piece.rotation = .ok blocks) :
    (∀ g', move cfg g dir = .ok (true, g') ↔
      ((∀ b ∈ blocks, checkCellCollision cfg g.field
          (blockAt b (stepPos g.piece_pos dir)) = .ok false) ∧
        g' = { g with piece_pos := stepPos g.piece_pos dir })) ∧
    (∀ g', move cfg g dir = .ok (false, g') ↔
      ((∃ pre b post, blocks = pre ++ b :: post ∧
          (∀ c ∈ pre, checkCellCollision cfg g.field
            (blockAt c (stepPos g.piece_pos dir)) = .ok false) ∧
          checkCellCollision cfg g.field (blockAt b (stepPos g.piece_pos dir)) = .ok true) ∧
        g' = g)) ∧
    (∀ r g', move cfg g dir = .ok (r, g') →
      g'.field = g.field ∧ g'.pieces = g.pieces ∧
      g'.current_piece = g.current_piece ∧ g'.next_piece = g.next_piece ∧
      g'.key_left = g.key_left ∧ g'.key_right = g.key_right ∧ g'.key_down = g.key_down ∧
      g'.rotate_right = g.rotate_right ∧ g'.rotate_left = g.rotate_left ∧
      g'.interval_count = g.interval_count ∧ g'.level = g.level ∧ g'.lines = g.lines ∧
      g'.score = g.score ∧ g'.points = g.points) ∧
    ((∀ b ∈ blocks, 0 ≤ (blockAt b (stepPos g.piece_pos dir)).y) →
      ∃ r g', move cfg g dir = .ok (r, g')) ∧
    (-127 ≤ g.piece_pos.x → g.piece_pos.x ≤ 126 → -128 ≤ g.piece_pos.y →
      g.piece_pos.y ≤ 126 →
      stepPos g.piece_pos dir =
        match dir with
        | .DIRECTION_DOWN => ⟨g.piece_pos.x, g.piece_pos.y + 1⟩
        | .DIRECTION_LEFT => ⟨g.piece_pos.x - 1, g.piece_pos.y⟩
        | .DIRECTION_RIGHT => ⟨g.piece_pos.x + 1, g.piece_pos.y⟩) := by
  have hm := move_eq cfg g dir blocks hb
  refine ⟨?_, ?_, ?_, ?_, ?_⟩
  · intro g'
    rw [← anyBlockCollides_false_iff, hm]
    rcases anyBlockCollides cfg g.field (stepPos g.piece_pos dir) blocks with e | r
    · simp
    · cases r
      · simp only [Except.ok.injEq, Prod.mk.injEq, true_and]
        exact eq_comm
      · simp
  · intro g'
    rw [← anyBlockCollides_true_iff, hm]
    rcases anyBlockCollides cfg g.field (stepPos g.piece_pos dir) blocks with e | r
    · simp
    · cases r
      · simp
      · simp only [Except.ok.injEq, Prod.mk.injEq, true_and]
        exact eq_comm
  · intro r g' h
    rw [hm] at h
    rcases hc : anyBlockCollides cfg g.field (stepPos g.piece_pos dir) blocks with e | c
    · rw [hc] at h
      cases h
    · rw [hc] at h
      cases c
      · simp only [Except.ok.injEq, Prod.mk.injEq] at h
        rw [← h.2]
        simp
      · simp only [Except.ok.injEq, Prod.mk.injEq] at h
        rw [← h.2]
        simp
  · intro hrows
    rw [hm]
    have h := anyBlockCollides_of_nonneg cfg g.field (stepPos g.piece_pos dir) blocks hrows
    by_cases hblk : ∃ b ∈ blocks, CellBlocked cfg g.field (blockAt b (stepPos g.piece_pos dir))
    · rw [h.1 hblk]
      exact ⟨false, g, rfl⟩
    · rw [h.2 hblk]
      exact ⟨true, _, rfl⟩
  · intro h1 h2 h3 h4
    cases dir
    · simp only [stepPos]
      rw [toInt8_of_range _ (by omega) (by omega)]
    · simp only [stepPos]
      rw [toInt8_of_range _ (by omega) (by omega)]
    · simp only [stepPos]
      rw [toInt8_of_range _ (by omega) (by omega)]

/-- Instance of `move_spec`: the O piece at the spawn position of the empty
example field, moved down. -/
theorem move_spec_witness :
    move exampleConfig (exampleGame fieldEmpty) .DIRECTION_DOWN =
      .ok (true, { exampleGame fieldEmpty with piece_pos := ⟨5, 2⟩ }) :=
  ((move_spec exampleConfig (exampleGame fieldEmpty) .DIRECTION_DOWN
      [⟨0, 0⟩, ⟨0, -1⟩, ⟨1, -1⟩, ⟨1, 0⟩] rfl).1 _).2
    ⟨by
      intro b hb
      simp only [List.mem_cons, List.mem_singleton, List.not_mem_nil, or_false] at hb
      rcases hb with h | h | h | h <;> subst h <;> rfl, rfl⟩

/-! ## Descent and locking -/

theorem lockBlocks_spec (cfg : Config) (pos : Pos) (v : Int) (blocks : List Pos) (f : Field)
    (hin : ∀ b ∈ blocks, InGrid cfg (blockAt b pos)) :
    ∃ f', lockBlocks cfg pos v blocks f = .ok f' ∧
      ∀ y x : Nat, f' y x =
        if (∃ b ∈ blocks, blockAt b pos = ⟨(x : Int), (y : Int)⟩) then v else f y x := by
  induction blocks generalizing f with
  | nil =>
    refine ⟨f, rfl, ?_⟩
    intro y x
    simp
  | cons b bs ih =>
    have hb : InGrid cfg (blockAt b pos) := hin b (List.mem_cons_self b bs)
    obtain ⟨hx0, hx1, hy0, hy1⟩ := hb
    obtain ⟨f', hf', hs⟩ := ih
      (setCell f (blockAt b pos).y.toNat (blockAt b pos).x.toNat v)
      (fun c hc => hin c (List.mem_cons_of_mem b hc))
    refine ⟨f', ?_, ?_⟩
    · rw [lockBlocks, writeCell, if_pos ⟨hy0, hy1, hx0, hx1⟩]
      exact hf'
    · intro y x
      rw [hs y x]
      by_cases hbs : ∃ c ∈ bs, blockAt c pos = ⟨(x : Int), (y : Int)⟩
      · have : ∃ c ∈ b :: bs, blockAt c pos = ⟨(x : Int), (y : Int)⟩ := by
          obtain ⟨c, hc, hcc⟩ := hbs
          exact ⟨c, List.mem_cons_of_mem b hc, hcc⟩
        rw [if_pos hbs, if_pos this]
      · rw [if_neg hbs]
        unfold setCell
        by_cases hbe : blockAt b pos = ⟨(x : Int), (y : Int)⟩
        · have : ∃ c ∈ b :: bs, blockAt c pos = ⟨(x : Int), (y : Int)⟩ :=
            ⟨b, List.mem_cons_self b bs, hbe⟩
          rw [if_pos this, hbe]
          simp
        · have hn : ¬ ∃ c ∈ b :: bs, blockAt c pos = ⟨(x : Int), (y : Int)⟩ := by
            rintro ⟨c, hc, hcc⟩
            rcases List.mem_cons.1 hc with h | h
            · subst h
              exact hbe hcc
            · exact hbs ⟨c, h, hcc⟩
          rw [if_neg hn]
          have hne : ¬ (y = (blockAt b pos).y.toNat ∧ x = (blockAt b pos).x.toNat) := by
            rintro ⟨h1, h2⟩
            apply hbe
            have e1 : (blockAt b pos).x = (x : Int) := by omega
            have e2 : (blockAt b pos).y = (y : Int) := by omega
            rcases hp : blockAt b pos with ⟨px, py⟩
            rw [hp] at e1 e2
            simp only at e1 e2
            rw [e1, e2]
          rw [if_neg hne]

theorem SameExceptFieldAndScore.refl (g : Game) : SameExceptFieldAndScore g g := by
  unfold SameExceptFieldAndScore
  simp

theorem SameExceptFieldAndScore.trans {g1 g2 g3 : Game}
    (h1 : SameExceptFieldAndScore g1 g2) (h2 : SameExceptFieldAndScore g2 g3) :
    SameExceptFieldAndScore g1 g3 := by
  unfold SameExceptFieldAndScore at *
  obtain ⟨a1, a2, a3, a4, a5, a6, a7, a8, a9, a10, a11, a12⟩ := h1
  obtain ⟨b1, b2, b3, b4, b5, b6, b7, b8, b9, b10, b11, b12⟩ := h2
  exact ⟨b1.trans a1, b2.trans a2, b3.trans a3, b4.trans a4, b5.trans a5, b6.trans a6,
    b7.trans a7, b8.trans a8, b9.trans a9, b10.trans a10, b11.trans a11, b12.trans a12⟩

theorem moveGridDown_frame (cfg : Config) (g g' : Game) (top count : Nat)
    (h : moveGridDown cfg g top count = .ok g') :
    SameExceptFieldAndScore g g' ∧ g'.lines = g.lines ∧ g'.score = g.score := by
  unfold moveGridDown at h
  rcases hf : moveGridDownFrom cfg count (top + 1) g.field with e | f
  · rw [hf] at h
    cases h
  · rw [hf] at h
    simp only [Except.ok.injEq] at h
    rw [← h]
    exact ⟨SameExceptFieldAndScore.refl g, rfl, rfl⟩

theorem updateStatistics_frame (g g' : Game) (lines : Nat)
    (h : updateStatistics g lines = .ok g') :
    SameExceptFieldAndScore g g' ∧ g'.field = g.field := by
  unfold updateStatistics at h
  by_cases hl : 1 ≤ lines ∧ lines ≤ 4
  · rw [if_pos hl] at h
    simp only [Except.ok.injEq] at h
    rw [← h]
    exact ⟨SameExceptFieldAndScore.refl g, rfl⟩
  · rw [if_neg hl] at h
    cases h

theorem clearLinesFrom_frame (cfg : Config) (n count : Nat) (g g' : Game)
    (h : clearLinesFrom cfg n count g = .ok g') : SameExceptFieldAndScore g g' := by
  induction n generalizing count g with
  | zero =>
    simp only [clearLinesFrom, Except.ok.injEq] at h
    rw [← h]
    exact SameExceptFieldAndScore.refl g
  | succ y ih =>
    rw [clearLinesFrom] at h
    by_cases hfull : lineFull cfg g.field y = true
    · rw [if_pos hfull] at h
      exact ih (count + 1) g h
    · rw [if_neg hfull] at h
      by_cases hc : count > 0
      · rw [if_pos hc] at h
        rcases h1 : moveGridDown cfg g y count with e | g1
        · rw [h1] at h
          cases h
        · simp only [h1] at h
          rcases h2 : updateStatistics g1 count with e | g2
          · simp only [h2] at h
            cases h
          · simp only [h2] at h
            exact ((moveGridDown_frame cfg g g1 y count h1).1.trans
              (updateStatistics_frame g1 g2 count h2).1).trans (ih 0 g2 h)
      · rw [if_neg hc] at h
        exact ih 0 g h

theorem clearLines_frame (cfg : Config) (g g' : Game) (h : clearLines cfg g = .ok g') :
    SameExceptFieldAndScore g g' :=
  clearLinesFrom_frame cfg cfg.GRID_HEIGHT 0 g g' h

theorem randomIndex_lt (cfg : Config) (size : Nat) (draws : List Nat) (r : Nat)
    (rest : List Nat) (h : randomIndex cfg size draws = .ok (r, rest)) : r < size := by
  induction draws with
  | nil => cases h
  | cons v vs ih =>
    rw [randomIndex] at h
    by_cases hv : v ≥ (cfg.RAND_MAX + 1) / size * size
    · rw [if_pos hv] at h
      exact ih h
    · rw [if_neg hv] at h
      simp only [Except.ok.injEq, Prod.mk.injEq] at h
      rw [← h.1]
      have hlt : v < (cfg.RAND_MAX + 1) / size * size := by omega
      have hpos : 0 < (cfg.RAND_MAX + 1) / size := by
        rcases Nat.eq_zero_or_pos ((cfg.RAND_MAX + 1) / size) with h0 | h0
        · rw [h0] at hlt
          simp at hlt
        · exact h0
      rw [Nat.div_lt_iff_lt_mul hpos, Nat.mul_comm]
      exact hlt

theorem generatePiece_range (cfg : Config) (draws : List Nat) (nxt : PieceState)
    (rest : List Nat) (h : generatePiece cfg draws = .ok (nxt, rest)) :
    nxt.piece < 7 ∧ nxt.rotation < 4 := by
  unfold generatePiece at h
  rcases h1 : randomIndex cfg 7 draws with e | ⟨p, d1⟩
  · rw [h1] at h
    cases h
  · simp only [h1] at h
    rcases h2 : randomIndex cfg 4 d1 with e | ⟨r, d2⟩
    · simp only [h2] at h
      cases h
    · simp only [h2] at h
      simp only [Except.ok.injEq, Prod.mk.injEq] at h
      rw [← h.1]
      exact ⟨randomIndex_lt cfg 7 draws p d1 h1, randomIndex_lt cfg 4 d1 r d2 h2⟩

theorem generatePiece_accepts (cfg : Config) (v1 v2 : Nat) (rest : List Nat)
    (h1 : v1 < (cfg.RAND_MAX + 1) / 7 * 7) (h2 : v2 < (cfg.RAND_MAX + 1) / 4 * 4) :
    generatePiece cfg (v1 :: v2 :: rest) =
      .ok (⟨v1 / ((cfg.RAND_MAX + 1) / 7), v2 / ((cfg.RAND_MAX + 1) / 4)⟩, rest) := by
  unfold generatePiece
  rw [randomIndex, if_neg (by omega)]
  simp only
  rw [randomIndex, if_neg (by omega)]

theorem lockPiece_spec (cfg : Config) (g : Game) (blocks : List Pos)
    (hb : blocksOf g.current_piece.piece g.current_piece.rotation = .ok blocks)
    (hin : ∀ b ∈ blocks, InGrid cfg (blockAt b g.piece_pos)) :
    ∃ g2, lockPiece cfg g = .ok g2 ∧
      (∀ y x : Nat, g2.field y x =
        if (∃ b ∈ blocks, blockAt b g.piece_pos = ⟨(x : Int), (y : Int)⟩)
        then (g.current_piece.piece : Int) + 1 else g.field y x) ∧
      SameExceptFieldAndScore g g2 ∧ g2.lines = g.lines ∧ g2.score = g.score := by
  obtain ⟨f', hf', hs⟩ := lockBlocks_spec cfg g.piece_pos
    ((g.current_piece.piece : Int) + 1) blocks g.field hin
  refine ⟨{ g with field := f' }, ?_, hs, SameExceptFieldAndScore.refl g, rfl, rfl⟩
  unfold lockPiece
  simp only [hb, hf']

/-- C9: for every state whose piece is in the catalogue: if the downward move
succeeds, `moveDown` changes only the piece position, to row `y + 1`, and draws
nothing; if it fails and the four cells of the piece lie inside the grid, then
`lockPiece` writes the shape index plus one into exactly those four cells and
keeps every other cell, `clearLines` runs on that state, the old next piece
becomes the current piece, the new next piece has a shape index below 7 and a
rotation below 4, and the position is (GRID_WIDTH / 2, 1). -/
theorem moveDown_spec (cfg : Config) (g : Game) (draws : List Nat) (blocks : List Pos)
    (hb : blocksOf g.current_piece.piece g.current_piece.rotation = .ok blocks) :
    (∀ g1, move cfg g .DIRECTION_DOWN = .ok (true, g1) →
      moveDown cfg g draws =
        .ok ({ g with piece_pos := ⟨g.piece_pos.x, toInt8 (g.piece_pos.y + 1)⟩ }, draws)) ∧
    (∀ g1, move cfg g .DIRECTION_DOWN = .ok (false, g1) →
      (∀ b ∈ blocks, InGrid cfg (blockAt b g.piece_pos)) →
      ∃ g2, lockPiece cfg g = .ok g2 ∧
        (∀ y x : Nat, g2.field y x =
          if (∃ b ∈ blocks, blockAt b g.piece_pos = ⟨(x : Int), (y : Int)⟩)
          then (g.current_piece.piece : Int) + 1 else g.field y x) ∧
        SameExceptFieldAndScore g g2 ∧ g2.lines = g.lines ∧ g2.score = g.score ∧
        (∀ e, clearLines cfg g2 = .error e → moveDown cfg g draws = .error e) ∧
        (∀ g3, clearLines cfg g2 = .ok g3 →
          (∀ e, generatePiece cfg draws = .error e → moveDown cfg g draws = .error e) ∧
          (∀ nxt d, generatePiece cfg draws = .ok (nxt, d) →
            nxt.piece < 7 ∧ nxt.rotation < 4 ∧
            moveDown cfg g draws =
              .ok ({ g3 with current_piece := g.next_piece, next_piece := nxt,
                             piece_pos := ⟨toInt8 ((cfg.GRID_WIDTH / 2 : Nat) : Int), 1⟩ },
                   d)))) ∧
    (cfg.GRID_WIDTH ≤ 255 →
      toInt8 ((cfg.GRID_WIDTH / 2 : Nat) : Int) = ((cfg.GRID_WIDTH / 2 : Nat) : Int)) ∧
    (-128 ≤ g.piece_pos.y → g.piece_pos.y ≤ 126 →
      toInt8 (g.piece_pos.y + 1) = g.piece_pos.y + 1) ∧
    (∀ v1 v2 rest, v1 < (cfg.RAND_MAX + 1) / 7 * 7 → v2 < (cfg.RAND_MAX + 1) / 4 * 4 →
      generatePiece cfg (v1 :: v2 :: rest) =
        .ok (⟨v1 / ((cfg.RAND_MAX + 1) / 7), v2 / ((cfg.RAND_MAX + 1) / 4)⟩, rest)) := by
  refine ⟨?_, ?_, ?_, ?_, ?_⟩
  · intro g1 h
    have hg1 := (move_state cfg g .DIRECTION_DOWN blocks hb true g1 h).1 rfl
    unfold moveDown
    simp only [h]
    rw [hg1]
    rfl
  · intro g1 h hin
    have hg1 : g1 = g := (move_state cfg g .DIRECTION_DOWN blocks hb false g1 h).2 rfl
    subst hg1
    obtain ⟨g2, hl, hf, hsame, hlines, hscore⟩ := lockPiece_spec cfg g1 blocks hb hin
    refine ⟨g2, hl, hf, hsame, hlines, hscore, ?_, ?_⟩
    · intro e he
      unfold moveDown
      simp only [h, hl, he]
    · intro g3 h3
      have hnext : g3.next_piece = g1.next_piece :=
        (clearLines_frame cfg g2 g3 h3).2.2.1.trans hsame.2.2.1
      constructor
      · intro e he
        unfold moveDown
        simp only [h, hl, h3, he]
      · intro nxt d hgen
        obtain ⟨hp, hr⟩ := generatePiece_range cfg draws nxt d hgen
        refine ⟨hp, hr, ?_⟩
        unfold moveDown
        simp only [h, hl, h3, hgen, resetPos, hnext]
  · intro hw
    apply toInt8_of_range <;> omega
  · intro h1 h2
    apply toInt8_of_range <;> omega
  · intro v1 v2 rest h1 h2
    exact generatePiece_accepts cfg v1 v2 rest h1 h2

/-- Instance of `moveDown_spec`: the O piece resting on the floor of the empty
example field is locked, and the raw values 0, 0 give the next piece. -/
theorem moveDown_spec_witness :
    ∃ g2 g3, lockPiece exampleConfig (exampleGameAt fieldEmpty 0 0 ⟨5, 19⟩) = .ok g2 ∧
      clearLines exampleConfig g2 = .ok g3 ∧
      g3.field 19 5 = 1 ∧ g3.field 18 6 = 1 ∧ g3.field 19 4 = 0 ∧
      moveDown exampleConfig (exampleGameAt fieldEmpty 0 0 ⟨5, 19⟩) [0, 0] =
        .ok ({ g3 with current_piece := ⟨0, 0⟩, next_piece := ⟨0, 0⟩, piece_pos := ⟨5, 1⟩ },
             []) := by
  obtain ⟨g2, hl, _, _, _, _, _, hok⟩ :=
    (moveDown_spec exampleConfig (exampleGameAt fieldEmpty 0 0 ⟨5, 19⟩) [0, 0]
      [⟨0, 0⟩, ⟨0, -1⟩, ⟨1, -1⟩, ⟨1, 0⟩] rfl).2.1
      (exampleGameAt fieldEmpty 0 0 ⟨5, 19⟩) rfl (by
        intro b hb
        simp only [List.mem_cons, List.mem_singleton, List.not_mem_nil, or_false] at hb
        rcases hb with h | h | h | h <;> subst h <;> unfold InGrid <;> decide)
  have hl' : lockPiece exampleConfig (exampleGameAt fieldEmpty 0 0 ⟨5, 19⟩) = .ok _ := rfl
  rw [hl'] at hl
  simp only [Except.ok.injEq] at hl
  subst hl
  exact ⟨_, _, rfl, rfl, by decide, by decide, by decide, ((hok _ rfl).2 ⟨0, 0⟩ [] rfl).2.2⟩

/-! ## Rotation -/

theorem catalogue_count (i : Nat) (p : Piece) (hp : pieces[i]? = some p) :
    p.count = 1 ∨ p.count = 2 ∨ p.count = 4 := by
  have hmem : p ∈ pieces := List.getElem?_mem hp
  simp only [pieces, List.mem_cons, List.mem_singleton, List.not_mem_nil, or_false] at hmem
  rcases hmem with h | h | h | h | h | h | h <;> subst h <;> simp

theorem rotate_right_eq (cfg : Config) (g : Game) (p : Piece)
    (hp : pieces[g.current_piece.piece]? = some p) :
    rotate_right cfg g =
      match checkCollision cfg g g.piece_pos ((g.current_piece.rotation + 1) % p.count) with
      | .error e => .error e
      | .ok true => .ok g
      | .ok false =>
        .ok { g with current_piece :=
          { g.current_piece with rotation := (g.current_piece.rotation + 1) % p.count } } := by
  unfold rotate_right
  simp only [hp]

theorem rotate_left_eq (cfg : Config) (g : Game) (p : Piece)
    (hp : pieces[g.current_piece.piece]? = some p) :
    rotate_left cfg g =
      match checkCollision cfg g g.piece_pos ((g.current_piece.rotation + 3) % p.count) with
      | .error e => .error e
      | .ok true => .ok g
      | .ok false =>
        .ok { g with current_piece :=
          { g.current_piece with rotation := (g.current_piece.rotation + 3) % p.count } } := by
  unfold rotate_left
  simp only [hp]

/-- C10: for every state whose shape is in the catalogue (distinct rotation
count `c` in {1, 2, 4}) and every rotation index `r`, `rotate_right` tests the
candidate `(r + 1) mod c` and `rotate_left` the candidate `(r + c - 1) mod c`
(written `(r + 3) % c` in the source) at the current position; if the candidate
does not collide the rotation index becomes the candidate, if it collides the
state is unchanged; the piece position is never changed.  Both calls return
whenever no cell of the candidate lies above the field. -/
theorem rotate_spec (cfg : Config) (g : Game) (p : Piece)
    (hp : pieces[g.current_piece.piece]? = some p) :
    (p.count = 1 ∨ p.count = 2 ∨ p.count = 4) ∧
    (g.current_piece.rotation + 3) % p.count
      = (g.current_piece.rotation + p.count - 1) % p.count ∧
    (checkCollision cfg g g.piece_pos ((g.current_piece.rotation + 1) % p.count) = .ok false →
      rotate_right cfg g = .ok { g with current_piece :=
        { g.current_piece with rotation := (g.current_piece.rotation + 1) % p.count } }) ∧
    (checkCollision cfg g g.piece_pos ((g.current_piece.rotation + 1) % p.count) = .ok true →
      rotate_right cfg g = .ok g) ∧
    (checkCollision cfg g g.piece_pos
        ((g.current_piece.rotation + p.count - 1) % p.count) = .ok false →
      rotate_left cfg g = .ok { g with current_piece :=
        { g.current_piece with
          rotation := (g.current_piece.rotation + p.count - 1) % p.count } }) ∧
    (checkCollision cfg g g.piece_pos
        ((g.current_piece.rotation + p.count - 1) % p.count) = .ok true →
      rotate_left cfg g = .ok g) ∧
    (∀ g', rotate_right cfg g = .ok g' →
      g'.piece_pos = g.piece_pos ∧
      (g'.current_piece.rotation = (g.current_piece.rotation + 1) % p.count ∨
       g'.current_piece.rotation = g.current_piece.rotation)) ∧
    (∀ g', rotate_left cfg g = .ok g' →
      g'.piece_pos = g.piece_pos ∧
      (g'.current_piece.rotation = (g.current_piece.rotation + p.count - 1) % p.count ∨
       g'.current_piece.rotation = g.current_piece.rotation)) ∧
    (∀ blocks,
      blocksOf g.current_piece.piece ((g.current_piece.rotation + 1) % p.count) = .ok blocks →
      (∀ b ∈ blocks, 0 ≤ (blockAt b g.piece_pos).y) → ∃ g', rotate_right cfg g = .ok g') ∧
    (∀ blocks,
      blocksOf g.current_piece.piece ((g.current_piece.rotation + p.count - 1) % p.count)
        = .ok blocks →
      (∀ b ∈ blocks, 0 ≤ (blockAt b g.piece_pos).y) → ∃ g', rotate_left cfg g = .ok g') := by
  have hc := catalogue_count g.current_piece.piece p hp
  have hmod : (g.current_piece.rotation + 3) % p.count
      = (g.current_piece.rotation + p.count - 1) % p.count := by
    rcases hc with h | h | h <;> rw [h] <;> omega
  have hr := rotate_right_eq cfg g p hp
  have hl := rotate_left_eq cfg g p hp
  rw [hmod] at hl
  have htot : ∀ rotation blocks, blocksOf g.current_piece.piece rotation = .ok blocks →
      (∀ b ∈ blocks, 0 ≤ (blockAt b g.piece_pos).y) →
      ∃ c, checkCollision cfg g g.piece_pos rotation = .ok c := by
    intro rotation blocks hb hrows
    have h := anyBlockCollides_of_nonneg cfg g.field g.piece_pos blocks hrows
    unfold checkCollision
    rw [hb]
    by_cases hblk : ∃ b ∈ blocks, CellBlocked cfg g.field (blockAt b g.piece_pos)
    · exact ⟨true, h.1 hblk⟩
    · exact ⟨false, h.2 hblk⟩
  refine ⟨hc, hmod, ?_, ?_, ?_, ?_, ?_, ?_, ?_, ?_⟩
  · intro h
    rw [hr, h]
  · intro h
    rw [hr, h]
  · intro h
    rw [hl, h]
  · intro h
    rw [hl, h]
  · intro g' h
    rw [hr] at h
    rcases hcc : checkCollision cfg g g.piece_pos
        ((g.current_piece.rotation + 1) % p.count) with e | c
    · rw [hcc] at h
      cases h
    · rw [hcc] at h
      cases c
      · simp only [Except.ok.injEq] at h
        rw [← h]
        exact ⟨rfl, Or.inl rfl⟩
      · simp only [Except.ok.injEq] at h
        rw [← h]
        exact ⟨rfl, Or.inr rfl⟩
  · intro g' h
    rw [hl] at h
    rcases hcc : checkCollision cfg g g.piece_pos
        ((g.current_piece.rotation + p.count - 1) % p.count) with e | c
    · rw [hcc] at h
      cases h
    · rw [hcc] at h
      cases c
      · simp only [Except.ok.injEq] at h
        rw [← h]
        exact ⟨rfl, Or.inl rfl⟩
      · simp only [Except.ok.injEq] at h
        rw [← h]
        exact ⟨rfl, Or.inr rfl⟩

  · intro blocks hb hrows
    obtain ⟨c, hcc⟩ := htot _ blocks hb hrows
    rw [hr, hcc]
    cases c
    · exact ⟨_, rfl⟩
    · exact ⟨_, rfl⟩
  · intro blocks hb hrows
    obtain ⟨c, hcc⟩ := htot _ blocks hb hrows
    rw [hl, hcc]
    cases c
    · exact ⟨_, rfl⟩
    · exact ⟨_, rfl⟩

/-- Instance of `rotate_spec`: the I piece in rotation 1 at position (5, 5) of
the empty example field turns to rotation 0 in both directions. -/
theorem rotate_spec_witness :
    rotate_right exampleConfig (exampleGameAt fieldEmpty 1 1 ⟨5, 5⟩) =
      .ok (exampleGameAt fieldEmpty 1 0 ⟨5, 5⟩) ∧
    rotate_left exampleConfig (exampleGameAt fieldEmpty 1 1 ⟨5, 5⟩) =
      .ok (exampleGameAt fieldEmpty 1 0 ⟨5, 5⟩) :=
  ⟨(rotate_spec exampleConfig (exampleGameAt fieldEmpty 1 1 ⟨5, 5⟩) _ rfl).2.2.1 rfl,
   (rotate_spec exampleConfig (exampleGameAt fieldEmpty 1 1 ⟨5, 5⟩) _ rfl).2.2.2.2.1 rfl⟩

/-! ## The tick -/

theorem gameUpdate_rotate_above_top (cfg : Config) (g : Game) (draws : List Nat)
    (hW1 : 1 ≤ cfg.GRID_WIDTH)
    (hrr : g.rotate_right = true) (hcp : g.current_piece = ⟨1, 0⟩)
    (hcell : blockAt ⟨0, -2⟩ g.piece_pos = ⟨((cfg.GRID_WIDTH / 2 : Nat) : Int), -1⟩) :
    gameUpdate cfg g draws = .error .outOfBounds := by
  have hp : pieces[g.current_piece.piece]? = some
      ⟨2, [[⟨-1, 0⟩, ⟨0, 0⟩, ⟨1, 0⟩, ⟨2, 0⟩], [⟨0, -2⟩, ⟨0, -1⟩, ⟨0, 0⟩, ⟨0, 1⟩],
           [⟨-1, 0⟩, ⟨0, 0⟩, ⟨1, 0⟩, ⟨2, 0⟩], [⟨0, -2⟩, ⟨0, -1⟩, ⟨0, 0⟩, ⟨0, 1⟩]]⟩ := by
    rw [hcp]
    rfl
  have hb : blocksOf g.current_piece.piece 1 = .ok [⟨0, -2⟩, ⟨0, -1⟩, ⟨0, 0⟩, ⟨0, 1⟩] := by
    rw [hcp]
    rfl
  have hcol : checkCollision cfg g g.piece_pos 1 = .error .outOfBounds := by
    apply checkCollision_first_block_above_top cfg g g.piece_pos 1 ⟨0, -2⟩
      [⟨0, -1⟩, ⟨0, 0⟩, ⟨0, 1⟩] hb
    · rw [hcell]
      show (0 : Int) ≤ ((cfg.GRID_WIDTH / 2 : Nat) : Int)
      omega
    · rw [hcell]
      show ((cfg.GRID_WIDTH / 2 : Nat) : Int) < (cfg.GRID_WIDTH : Int)
      omega
    · rw [hcell]
      show (-1 : Int) < 0
      omega
  have hrot : rotate_right cfg g = .error .outOfBounds := by
    have hidx : g.current_piece.rotation = 0 := by rw [hcp]
    rw [rotate_right_eq cfg g _ hp]
    simp only [hidx, Nat.zero_add, Nat.reduceMod, hcol]
  unfold gameUpdate updateRotation
  simp only [hrr, hrot, if_true]

/-- C5 (the code departs from the claim): for every configuration with at
least one and at most 255 columns and `RAND_MAX` at least 6, a state produced by
`gameInit` (with `interval_count` 0) in which the driver sets `rotate_right`
makes the first `gameUpdate` read the field outside the array.  The draws give
the I piece in rotation 0; the candidate rotation 1 has its first block at
offset (0, -2), so the cell tested first is (GRID_WIDTH / 2, -1), column valid,
row negative: `checkCellCollision` reads `grid[-1][GRID_WIDTH / 2]`. -/
theorem gameUpdate_reads_above_field (cfg : Config) (prior : Game)
    (hW1 : 1 ≤ cfg.GRID_WIDTH) (hW2 : cfg.GRID_WIDTH ≤ 255) (hR : 6 ≤ cfg.RAND_MAX)
    (hic : prior.interval_count = 0) :
    ∃ g0, gameInit cfg prior [(cfg.RAND_MAX + 1) / 7, 0, 0, 0] = .ok (g0, []) ∧
      g0.interval_count = 0 ∧ g0.current_piece = ⟨1, 0⟩ ∧
      g0.piece_pos = ⟨((cfg.GRID_WIDTH / 2 : Nat) : Int), 1⟩ ∧
      blocksOf 1 1 = .ok [⟨0, -2⟩, ⟨0, -1⟩, ⟨0, 0⟩, ⟨0, 1⟩] ∧
      blockAt ⟨0, -2⟩ g0.piece_pos = ⟨((cfg.GRID_WIDTH / 2 : Nat) : Int), -1⟩ ∧
      gameUpdate cfg { g0 with rotate_right := true } [] = .error .outOfBounds := by
  have hb7 : 0 < (cfg.RAND_MAX + 1) / 7 := Nat.div_pos (by omega) (by omega)
  have hb4 : 0 < (cfg.RAND_MAX + 1) / 4 := Nat.div_pos (by omega) (by omega)
  have hg1 := generatePiece_accepts cfg ((cfg.RAND_MAX + 1) / 7) 0 [0, 0]
    (by omega) (by omega)
  have hg2 := generatePiece_accepts cfg 0 0 [] (by omega) (by omega)
  rw [Nat.div_self hb7, Nat.zero_div] at hg1
  rw [Nat.zero_div, Nat.zero_div] at hg2
  have hw : toInt8 ((cfg.GRID_WIDTH / 2 : Nat) : Int) = ((cfg.GRID_WIDTH / 2 : Nat) : Int) := by
    apply toInt8_of_range <;> omega
  have hcell : blockAt ⟨0, -2⟩ ⟨((cfg.GRID_WIDTH / 2 : Nat) : Int), 1⟩
      = ⟨((cfg.GRID_WIDTH / 2 : Nat) : Int), -1⟩ := by
    unfold blockAt
    simp only [zero_add, hw]
    rfl
  obtain ⟨g0, hinit, h1, h2, h3⟩ : ∃ g0,
      gameInit cfg prior [(cfg.RAND_MAX + 1) / 7, 0, 0, 0] = .ok (g0, []) ∧
      g0.interval_count = prior.interval_count ∧ g0.current_piece = ⟨1, 0⟩ ∧
      g0.piece_pos = ⟨toInt8 ((cfg.GRID_WIDTH / 2 : Nat) : Int), 1⟩ := by
    unfold gameInit
    simp only [hg1, hg2]
    exact ⟨_, rfl, rfl, rfl, rfl⟩
  rw [hw] at h3
  refine ⟨g0, hinit, h1.trans hic, h2, h3, rfl, ?_, ?_⟩
  · rw [h3]
    exact hcell
  · refine gameUpdate_rotate_above_top cfg { g0 with rotate_right := true } [] hW1 rfl h2 ?_
    show blockAt ⟨0, -2⟩ g0.piece_pos = _
    rw [h3]
    exact hcell

/-- Instance of `gameUpdate_reads_above_field` on the example configuration,
starting from the example state. -/
theorem gameUpdate_reads_above_field_witness :
    ∃ g0, gameInit exampleConfig (exampleGame fieldEmpty)
        [(exampleConfig.RAND_MAX + 1) / 7, 0, 0, 0] = .ok (g0, []) ∧
      g0.interval_count = 0 ∧ g0.current_piece = ⟨1, 0⟩ ∧
      g0.piece_pos = ⟨((exampleConfig.GRID_WIDTH / 2 : Nat) : Int), 1⟩ ∧
      blocksOf 1 1 = .ok [⟨0, -2⟩, ⟨0, -1⟩, ⟨0, 0⟩, ⟨0, 1⟩] ∧
      blockAt ⟨0, -2⟩ g0.piece_pos = ⟨((exampleConfig.GRID_WIDTH / 2 : Nat) : Int), -1⟩ ∧
      gameUpdate exampleConfig { g0 with rotate_right := true } [] = .error .outOfBounds :=
  gameUpdate_reads_above_field exampleConfig (exampleGame fieldEmpty)
    (by decide) (by decide) (by decide) rfl

/-! ## The catalogue -/

/-- C19: the catalogue has 7 shapes; each has a distinct rotation count of 1, 2
or 4 and 4 rotation variants; each variant has 4 relative offsets, pairwise
distinct, with both coordinates in [-2, 2]; and for every rotation index `r`
below 4 the variant `r` occupies the same set of cells as the variant
`r mod count`. -/
theorem catalogue_sanity :
    pieces.length = 7 ∧
    ∀ p ∈ pieces,
      (p.count = 1 ∨ p.count = 2 ∨ p.count = 4) ∧ p.rotations.length = 4 ∧
      (∀ blocks ∈ p.rotations, blocks.length = 4 ∧ blocks.Nodup ∧
        ∀ b ∈ blocks, -2 ≤ b.x ∧ b.x ≤ 2 ∧ -2 ≤ b.y ∧ b.y ≤ 2) ∧
      (∀ r, r < 4 →
        (∀ b ∈ p.rotations.getD r [], b ∈ p.rotations.getD (r % p.count) []) ∧
        (∀ b ∈ p.rotations.getD (r % p.count) [], b ∈ p.rotations.getD r [])) := by
  decide

/-! ## Random draws -/

theorem randomIndex_skip (cfg : Config) (size : Nat) (pre rest : List Nat)
    (hpre : ∀ u ∈ pre, (cfg.RAND_MAX + 1) / size * size ≤ u) :
    randomIndex cfg size (pre ++ rest) = randomIndex cfg size rest := by
  induction pre with
  | nil => rfl
  | cons u us ih =>
    rw [List.cons_append, randomIndex, if_pos (hpre u (List.mem_cons_self u us))]
    exact ih (fun w hw => hpre w (List.mem_cons_of_mem u hw))

theorem randomIndex_first_accepted (cfg : Config) (size : Nat) (draws : List Nat)
    (r : Nat) (rest : List Nat) (h : randomIndex cfg size draws = .ok (r, rest)) :
    ∃ pre v, draws = pre ++ v :: rest ∧
      (∀ u ∈ pre, (cfg.RAND_MAX + 1) / size * size ≤ u) ∧
      v < (cfg.RAND_MAX + 1) / size * size ∧ r = v / ((cfg.RAND_MAX + 1) / size) := by
  induction draws with
  | nil => cases h
  | cons v vs ih =>
    rw [randomIndex] at h
    by_cases hv : v ≥ (cfg.RAND_MAX + 1) / size * size
    · rw [if_pos hv] at h
      obtain ⟨pre, w, heq, hpre, hw, hr⟩ := ih h
      refine ⟨v :: pre, w, by rw [heq]; rfl, ?_, hw, hr⟩
      intro u hu
      rcases List.mem_cons.1 hu with h1 | h1
      · rw [h1]
        exact hv
      · exact hpre u h1
    · rw [if_neg hv] at h
      simp only [Except.ok.injEq, Prod.mk.injEq] at h
      exact ⟨[], v, by rw [h.2]; rfl, by simp, by omega, h.1.symm⟩

theorem bucket_card (n b size k : Nat) (hb : 0 < b) (hle : b * size ≤ n) (hk : k < size) :
    ((Finset.range n).filter (fun v => v < b * size ∧ v / b = k)).card = b := by
  have hk1 : (k + 1) * b ≤ b * size := by
    rw [Nat.mul_comm b size]
    exact Nat.mul_le_mul_right b hk
  have heq : (Finset.range n).filter (fun v => v < b * size ∧ v / b = k)
      = Finset.Ico (k * b) ((k + 1) * b) := by
    ext v
    simp only [Finset.mem_filter, Finset.mem_range, Finset.mem_Ico]
    constructor
    · rintro ⟨_, _, h3⟩
      rw [← h3]
      constructor
      · exact Nat.div_mul_le_self v b
      · exact Nat.lt_mul_of_div_lt (Nat.lt_succ_self (v / b)) hb
    · rintro ⟨h1, h2⟩
      have hdiv : v / b = k := by
        apply Nat.div_eq_of_lt_le
        · exact h1
        · exact h2
      exact ⟨by omega, by omega, hdiv⟩
  rw [heq, Nat.card_Ico]
  rw [Nat.add_mul]
  omega

/-- C16: for every size with `1 ≤ size ≤ RAND_MAX + 1` and
`b = (RAND_MAX + 1) / size`: `b` is positive and `b * size` is at most
`RAND_MAX + 1`; `randomIndex` skips the raw values `≥ b * size` and returns
`v / b` for the first raw value `v < b * size`; it returns nothing as long as
no such value comes; a returned result is below `size` and stems from the
first accepted value; and every `k < size` is the result of exactly `b` of the
raw values in `[0, RAND_MAX]`. -/
theorem randomIndex_uniform (cfg : Config) (size b : Nat)
    (h1 : 1 ≤ size) (h2 : size ≤ cfg.RAND_MAX + 1) (hb : b = (cfg.RAND_MAX + 1) / size) :
    0 < b ∧ b * size ≤ cfg.RAND_MAX + 1 ∧
    (∀ pre v rest, (∀ u ∈ pre, b * size ≤ u) → v < b * size →
      randomIndex cfg size (pre ++ v :: rest) = .ok (v / b, rest)) ∧
    (∀ draws, (∀ u ∈ draws, b * size ≤ u) → randomIndex cfg size draws = .error .noDraw) ∧
    (∀ draws r rest, randomIndex cfg size draws = .ok (r, rest) →
      r < size ∧ ∃ pre v, draws = pre ++ v :: rest ∧ (∀ u ∈ pre, b * size ≤ u) ∧
        v < b * size ∧ r = v / b) ∧
    (∀ k, k < size →
      ((Finset.range (cfg.RAND_MAX + 1)).filter (fun v => v < b * size ∧ v / b = k)).card
        = b) := by
  subst hb
  have hpos : 0 < (cfg.RAND_MAX + 1) / size := Nat.div_pos h2 (by omega)
  have hle : (cfg.RAND_MAX + 1) / size * size ≤ cfg.RAND_MAX + 1 :=
    Nat.div_mul_le_self (cfg.RAND_MAX + 1) size
  refine ⟨hpos, hle, ?_, ?_, ?_, ?_⟩
  · intro pre v rest hpre hv
    rw [randomIndex_skip cfg size pre (v :: rest) hpre, randomIndex, if_neg (by omega)]
  · intro draws hall
    have := randomIndex_skip cfg size draws [] hall
    rw [List.append_nil] at this
    rw [this]
    rfl
  · intro draws r rest h
    exact ⟨randomIndex_lt cfg size draws r rest h,
      randomIndex_first_accepted cfg size draws r rest h⟩
  · intro k hk
    exact bucket_card (cfg.RAND_MAX + 1) ((cfg.RAND_MAX + 1) / size) size k hpos hle hk

/-- Instance of `randomIndex_uniform`: size 7 on the example configuration,
where `b` is 306783378; the raw value 2147483646 is rejected and 613566756
gives the shape index 2. -/
theorem randomIndex_uniform_witness :
    randomIndex exampleConfig 7 ([2147483646] ++ 613566756 :: [5]) =
      .ok (613566756 / 306783378, [5]) :=
  (randomIndex_uniform exampleConfig 7 306783378 (by decide) (by decide) (by decide)).2.2.1
    [2147483646] 613566756 [5]
    (by
      intro u hu
      simp only [List.mem_singleton] at hu
      subst hu
      decide)
    (by decide)

/-! ## Initialization -/

theorem initFieldRow_spec (f : Field) (y n x : Nat) :
    ∀ y' x', initFieldRow f y n x y' x' =
      if y' = y ∧ x ≤ x' ∧ x' < x + n then 0 else f y' x' := by
  induction n generalizing f x with
  | zero =>
    intro y' x'
    have e : ¬ (y' = y ∧ x ≤ x' ∧ x' < x + 0) := by omega
    rw [initFieldRow, if_neg e]
  | succ n ih =>
    intro y' x'
    rw [initFieldRow, ih]
    unfold setCell
    by_cases h1 : y' = y ∧ x + 1 ≤ x' ∧ x' < x + 1 + n
    · rw [if_pos h1, if_pos (by omega)]
    · rw [if_neg h1]
      by_cases h2 : y' = y ∧ x' = x
      · rw [if_pos h2, if_pos (by omega)]
      · rw [if_neg h2, if_neg (by omega)]

theorem initFieldRows_spec (cfg : Config) (f : Field) (n y : Nat) :
    ∀ y' x', initFieldRows cfg f n y y' x' =
      if y ≤ y' ∧ y' < y + n ∧ x' < cfg.GRID_WIDTH then 0 else f y' x' := by
  induction n generalizing f y with
  | zero =>
    intro y' x'
    have e : ¬ (y ≤ y' ∧ y' < y + 0 ∧ x' < cfg.GRID_WIDTH) := by omega
    rw [initFieldRows, if_neg e]
  | succ n ih =>
    intro y' x'
    rw [initFieldRows, ih, initFieldRow_spec]
    by_cases h1 : y + 1 ≤ y' ∧ y' < y + 1 + n ∧ x' < cfg.GRID_WIDTH
    · rw [if_pos h1, if_pos (by omega)]
    · rw [if_neg h1]
      by_cases h2 : y' = y ∧ 0 ≤ x' ∧ x' < 0 + cfg.GRID_WIDTH
      · rw [if_pos h2, if_pos (by omega)]
      · rw [if_neg h2, if_neg (by omega)]

theorem gameInit_eq (cfg : Config) (prior : Game) (draws : List Nat) (g' : Game)
    (rest : List Nat) (h : gameInit cfg prior draws = .ok (g', rest)) :
    ∃ cur nxt d1, generatePiece cfg draws = .ok (cur, d1) ∧
      generatePiece cfg d1 = .ok (nxt, rest) ∧
      g' = { field := initFieldRows cfg prior.field cfg.GRID_HEIGHT 0,
             pieces := pieces, current_piece := cur, next_piece := nxt,
             piece_pos := ⟨toInt8 ((cfg.GRID_WIDTH / 2 : Nat) : Int), 1⟩,
             key_left := false, key_right := false, key_down := false,
             rotate_right := false, rotate_left := false,
             interval_count := prior.interval_count,
             level := 0, lines := 0, score := 0,
             points := setPoint (setPoint (setPoint (setPoint prior.points 0 40) 1 100)
               2 300) 3 1200 } := by
  unfold gameInit at h
  rcases h1 : generatePiece cfg draws with e | ⟨cur, d1⟩
  · simp only [h1] at h
    cases h
  · simp only [h1] at h
    rcases h2 : generatePiece cfg d1 with e | ⟨nxt, d2⟩
    · simp only [h2] at h
      cases h
    · simp only [h2, Except.ok.injEq, Prod.mk.injEq] at h
      refine ⟨cur, nxt, d1, rfl, ?_, ?_⟩
      · rw [h2, h.2]
      · rw [← h.1]
        rfl

theorem gameInit_accepts (cfg : Config) (prior : Game) (v1 v2 v3 v4 : Nat)
    (rest : List Nat)
    (h1 : v1 < (cfg.RAND_MAX + 1) / 7 * 7) (h2 : v2 < (cfg.RAND_MAX + 1) / 4 * 4)
    (h3 : v3 < (cfg.RAND_MAX + 1) / 7 * 7) (h4 : v4 < (cfg.RAND_MAX + 1) / 4 * 4) :
    ∃ g', gameInit cfg prior (v1 :: v2 :: v3 :: v4 :: rest) = .ok (g', rest) := by
  unfold gameInit
  simp only [generatePiece_accepts cfg v1 v2 (v3 :: v4 :: rest) h1 h2,
    generatePiece_accepts cfg v3 v4 rest h3 h4]
  exact ⟨_, rfl⟩

/-- C15: for every prior state and every list of raw draws, a state returned
by `gameInit` has every cell of the field equal to 0, the five flags false,
level, lines and score 0, the points table {40, 100, 300, 1200}, the catalogue
bound, the position (GRID_WIDTH / 2, 1) (stored as `int8_t`, so for at most 255
columns), and a current and a next piece with shape index below 7 and
rotation below 4; and `gameInit` returns as soon as the draws hold four
accepted values. -/
theorem gameInit_spec (cfg : Config) (prior : Game) (draws : List Nat) :
    (∀ g' rest, gameInit cfg prior draws = .ok (g', rest) →
      (∀ y x, y < cfg.GRID_HEIGHT → x < cfg.GRID_WIDTH → g'.field y x = 0) ∧
      g'.key_left = false ∧ g'.key_right = false ∧ g'.key_down = false ∧
      g'.rotate_right = false ∧ g'.rotate_left = false ∧
      g'.level = 0 ∧ g'.lines = 0 ∧ g'.score = 0 ∧
      g'.points 0 = 40 ∧ g'.points 1 = 100 ∧ g'.points 2 = 300 ∧ g'.points 3 = 1200 ∧
      g'.pieces = pieces ∧
      g'.piece_pos = ⟨toInt8 ((cfg.GRID_WIDTH / 2 : Nat) : Int), 1⟩ ∧
      (cfg.GRID_WIDTH ≤ 255 → g'.piece_pos = ⟨((cfg.GRID_WIDTH / 2 : Nat) : Int), 1⟩) ∧
      g'.current_piece.piece < 7 ∧ g'.current_piece.rotation < 4 ∧
      g'.next_piece.piece < 7 ∧ g'.next_piece.rotation < 4) ∧
    (∀ v1 v2 v3 v4 rest, draws = v1 :: v2 :: v3 :: v4 :: rest →
      v1 < (cfg.RAND_MAX + 1) / 7 * 7 → v2 < (cfg.RAND_MAX + 1) / 4 * 4 →
      v3 < (cfg.RAND_MAX + 1) / 7 * 7 → v4 < (cfg.RAND_MAX + 1) / 4 * 4 →
      ∃ g', gameInit cfg prior draws = .ok (g', rest)) := by
  constructor
  · intro g' rest h
    obtain ⟨cur, nxt, d1, hc, hn, hg⟩ := gameInit_eq cfg prior draws g' rest h
    obtain ⟨hc1, hc2⟩ := generatePiece_range cfg draws cur d1 hc
    obtain ⟨hn1, hn2⟩ := generatePiece_range cfg d1 nxt rest hn
    subst hg
    refine ⟨?_, rfl, rfl, rfl, rfl, rfl, rfl, rfl, rfl, rfl, rfl, rfl, rfl, rfl, rfl, ?_,
      hc1, hc2, hn1, hn2⟩
    · intro y x hy hx
      show initFieldRows cfg prior.field cfg.GRID_HEIGHT 0 y x = 0
      rw [initFieldRows_spec, if_pos (by omega)]
    · intro hw
      show (⟨toInt8 ((cfg.GRID_WIDTH / 2 : Nat) : Int), 1⟩ : Pos) = _
      rw [toInt8_of_range _ (by omega) (by omega)]
  · intro v1 v2 v3 v4 rest hd h1 h2 h3 h4
    rw [hd]
    exact gameInit_accepts cfg prior v1 v2 v3 v4 rest h1 h2 h3 h4

/-- Instance of `gameInit_spec`: the example state over a field that is not
empty, initialized with the raw draws 0, 0, 0, 0. -/
theorem gameInit_spec_witness :
    ∃ g', gameInit exampleConfig (exampleGame fieldThreeRows) [0, 0, 0, 0] = .ok (g', []) ∧
      (∀ y x, y < exampleConfig.GRID_HEIGHT → x < exampleConfig.GRID_WIDTH →
        g'.field y x = 0) ∧
      g'.score = 0 ∧ g'.piece_pos = ⟨5, 1⟩ := by
  obtain ⟨g', hg'⟩ :=
    (gameInit_spec exampleConfig (exampleGame fieldThreeRows) [0, 0, 0, 0]).2 0 0 0 0 []
      rfl (by decide) (by decide) (by decide) (by decide)
  have h := (gameInit_spec exampleConfig (exampleGame fieldThreeRows) [0, 0, 0, 0]).1 g' [] hg'
  exact ⟨g', hg', h.1, h.2.2.2.2.2.2.2.2.1, h.2.2.2.2.2.2.2.2.2.2.2.2.2.2.2.1 (by decide)⟩

/-! ## Shape of the result of each phase of a tick -/

theorem rotate_right_shape (cfg : Config) (g g' : Game) (h : rotate_right cfg g = .ok g') :
    ∃ r', g' = { g with current_piece := ⟨g.current_piece.piece, r'⟩ } := by
  unfold rotate_right at h
  rcases hp : pieces[g.current_piece.piece]? with _ | p
  · simp only [hp] at h
    cases h
  · simp only [hp] at h
    rcases hc : checkCollision cfg g g.piece_pos ((g.current_piece.rotation + 1) % p.count)
      with e | c
    · simp only [hc] at h
      cases h
    · simp only [hc] at h
      cases c
      · simp only [Except.ok.injEq] at h
        exact ⟨_, h.symm⟩
      · simp only [Except.ok.injEq] at h
        exact ⟨g.current_piece.rotation, h.symm⟩

theorem rotate_left_shape (cfg : Config) (g g' : Game) (h : rotate_left cfg g = .ok g') :
    ∃ r', g' = { g with current_piece := ⟨g.current_piece.piece, r'⟩ } := by
  unfold rotate_left at h
  rcases hp : pieces[g.current_piece.piece]? with _ | p
  · simp only [hp] at h
    cases h
  · simp only [hp] at h
    rcases hc : checkCollision cfg g g.piece_pos ((g.current_piece.rotation + 3) % p.count)
      with e | c
    · simp only [hc] at h
      cases h
    · simp only [hc] at h
      cases c
      · simp only [Except.ok.injEq] at h
        exact ⟨_, h.symm⟩
      · simp only [Except.ok.injEq] at h
        exact ⟨g.current_piece.rotation, h.symm⟩

theorem updateRotation_shape (cfg : Config) (g g1 : Game)
    (h : updateRotation cfg g = .ok g1) :
    ∃ r', g1 = { g with current_piece := ⟨g.current_piece.piece, r'⟩,
                        rotate_right := false, rotate_left := false } := by
  rcases g with ⟨f, ps, cp, np, pos, kl, kr, kd, rr, rl, ic, lv, ln, sc, pt⟩
  unfold updateRotation at h
  cases rr <;> cases rl
  · simp only [Bool.false_eq_true, if_false, Except.ok.injEq] at h
    exact ⟨cp.rotation, h.symm⟩
  · simp only [Bool.false_eq_true, if_false, if_true] at h
    rcases hl : rotate_left cfg (Game.mk f ps cp np pos kl kr kd false true ic lv ln sc pt)
      with e | g2
    · simp only [hl] at h
      cases h
    · simp only [hl, Except.ok.injEq] at h
      obtain ⟨r', hr'⟩ := rotate_left_shape cfg _ g2 hl
      subst hr'
      exact ⟨r', h.symm⟩
  · simp only [if_true] at h
    rcases hr : rotate_right cfg (Game.mk f ps cp np pos kl kr kd true false ic lv ln sc pt)
      with e | ga
    · simp only [hr] at h
      cases h
    · simp only [hr] at h
      obtain ⟨ra, hra⟩ := rotate_right_shape cfg _ ga hr
      subst hra
      simp only [Bool.false_eq_true, if_false, Except.ok.injEq] at h
      exact ⟨ra, h.symm⟩
  · simp only [if_true] at h
    rcases hr : rotate_right cfg (Game.mk f ps cp np pos kl kr kd true true ic lv ln sc pt)
      with e | ga
    · simp only [hr] at h
      cases h
    · simp only [hr] at h
      obtain ⟨ra, hra⟩ := rotate_right_shape cfg _ ga hr
      subst hra
      simp only [if_true] at h
      rcases hl : rotate_left cfg
          (Game.mk f ps ⟨cp.piece, ra⟩ np pos kl kr kd false true ic lv ln sc pt) with e | g2
      · simp only [hl] at h
        cases h
      · simp only [hl, Except.ok.injEq] at h
        obtain ⟨r', hr'⟩ := rotate_left_shape cfg _ g2 hl
        subst hr'
        exact ⟨r', h.symm⟩

theorem move_sideways_shape (cfg : Config) (g : Game) (dir : Direction)
    (hdir : dir = Direction.DIRECTION_LEFT ∨ dir = Direction.DIRECTION_RIGHT)
    (r : Bool) (ga : Game) (hm : move cfg g dir = .ok (r, ga)) :
    ∃ x', ga = { g with piece_pos := ⟨x', g.piece_pos.y⟩ } := by
  rcases hb : blocksOf g.current_piece.piece g.current_piece.rotation with e | blocks
  · have : move cfg g dir = .error e := by
      unfold move
      simp only [hb]
    rw [this] at hm
    cases hm
  · have hs := move_state cfg g dir blocks hb r ga hm
    cases r
    · exact ⟨g.piece_pos.x, hs.2 rfl⟩
    · rcases hdir with hd | hd
      · subst hd
        exact ⟨_, hs.1 rfl⟩
      · subst hd
        exact ⟨_, hs.1 rfl⟩

theorem updateMove_shape (cfg : Config) (g g2 : Game) (h : updateMove cfg g = .ok g2) :
    ∃ x', g2 = { g with piece_pos := ⟨x', g.piece_pos.y⟩ } := by
  unfold updateMove at h
  by_cases hi : g.interval_count % (cfg.MOVE_INTERVAL_COUNT : Int) = 0
  · rw [if_pos hi] at h
    by_cases hkl : g.key_left = true
    · rw [if_pos hkl] at h
      rcases hm : move cfg g .DIRECTION_LEFT with e | ⟨r, ga⟩
      · simp only [hm] at h
        cases h
      · simp only [hm, Except.ok.injEq] at h
        rw [← h]
        exact move_sideways_shape cfg g _ (Or.inl rfl) r ga hm
    · rw [if_neg hkl] at h
      by_cases hkr : g.key_right = true
      · rw [if_pos hkr] at h
        rcases hm : move cfg g .DIRECTION_RIGHT with e | ⟨r, ga⟩
        · simp only [hm] at h
          cases h
        · simp only [hm, Except.ok.injEq] at h
          rw [← h]
          exact move_sideways_shape cfg g _ (Or.inr rfl) r ga hm
      · rw [if_neg hkr] at h
        simp only [Except.ok.injEq] at h
        exact ⟨g.piece_pos.x, h.symm⟩
  · rw [if_neg hi] at h
    simp only [Except.ok.injEq] at h
    exact ⟨g.piece_pos.x, h.symm⟩

theorem lockPiece_shape (cfg : Config) (g g2 : Game) (h : lockPiece cfg g = .ok g2) :
    ∃ f, g2 = { g with field := f } := by
  unfold lockPiece at h
  rcases hb : blocksOf g.current_piece.piece g.current_piece.rotation with e | blocks
  · simp only [hb] at h
    cases h
  · simp only [hb] at h
    rcases hl : lockBlocks cfg g.piece_pos ((g.current_piece.piece : Int) + 1) blocks g.field
      with e | f
    · simp only [hl] at h
      cases h
    · simp only [hl, Except.ok.injEq] at h
      exact ⟨f, h.symm⟩

theorem move_down_shape (cfg : Config) (g : Game) (r : Bool) (ga : Game)
    (hm : move cfg g .DIRECTION_DOWN = .ok (r, ga)) :
    (r = true → ga = { g with piece_pos := ⟨g.piece_pos.x, toInt8 (g.piece_pos.y + 1)⟩ }) ∧
    (r = false → ga = g) := by
  rcases hb : blocksOf g.current_piece.piece g.current_piece.rotation with e | blocks
  · have : move cfg g .DIRECTION_DOWN = .error e := by
      unfold move
      simp only [hb]
    rw [this] at hm
    cases hm
  · exact move_state cfg g .DIRECTION_DOWN blocks hb r ga hm

theorem moveDown_shape (cfg : Config) (g : Game) (draws : List Nat) (g3 : Game)
    (d : List Nat) (h : moveDown cfg g draws = .ok (g3, d)) :
    (move cfg g .DIRECTION_DOWN = .ok (true, g3) ∧ d = draws ∧
      g3 = { g with piece_pos := ⟨g.piece_pos.x, toInt8 (g.piece_pos.y + 1)⟩ }) ∨
    (move cfg g .DIRECTION_DOWN = .ok (false, g) ∧
      ∃ g2 gcl nxt, lockPiece cfg g = .ok g2 ∧ clearLines cfg g2 = .ok gcl ∧
        generatePiece cfg draws = .ok (nxt, d) ∧
        g3 = resetPos cfg { gcl with current_piece := g.next_piece, next_piece := nxt }) := by
  unfold moveDown at h
  rcases hm : move cfg g .DIRECTION_DOWN with e | ⟨r, ga⟩
  · simp only [hm] at h
    cases h
  · have hs := move_down_shape cfg g r ga hm
    cases r
    · have hga : ga = g := hs.2 rfl
      subst hga
      simp only [hm] at h
      rcases hl : lockPiece cfg ga with e | g2
      · simp only [hl] at h
        cases h
      · simp only [hl] at h
        rcases hc : clearLines cfg g2 with e | gcl
        · simp only [hc] at h
          cases h
        · simp only [hc] at h
          rcases hg : generatePiece cfg draws with e | ⟨nxt, d1⟩
          · simp only [hg] at h
            cases h
          · simp only [hg, Except.ok.injEq, Prod.mk.injEq] at h
            right
            refine ⟨rfl, g2, gcl, nxt, rfl, hc, by rw [h.2], ?_⟩
            obtain ⟨f, hf⟩ := lockPiece_shape cfg ga g2 hl
            have hnext : gcl.next_piece = ga.next_piece := by
              rw [(clearLines_frame cfg g2 gcl hc).2.2.1, hf]
            rw [← h.1, hnext]
    · simp only [hm, Except.ok.injEq, Prod.mk.injEq] at h
      left
      rw [← h.1, ← h.2]
      exact ⟨rfl, rfl, hs.1 rfl⟩

theorem updateDrop_eq (cfg : Config) (g : Game) (draws : List Nat) :
    (DescentDue cfg g → updateDrop cfg g draws = moveDown cfg g draws) ∧
    (¬ DescentDue cfg g → updateDrop cfg g draws = .ok (g, draws)) := by
  unfold DescentDue updateDrop
  constructor
  · intro h
    by_cases h1 : g.interval_count % (cfg.SOFT_DROP_INTERVAL_COUNT : Int) = 0 ∧ g.key_down = true
    · rw [if_pos h1]
    · rw [if_neg h1]
      rcases h with h | h
      · exact absurd h h1
      · rw [if_pos h]
  · intro h
    rw [if_neg (fun h1 => h (Or.inl h1)), if_neg (fun h2 => h (Or.inr h2))]

theorem descentDue_congr (cfg : Config) (g g2 : Game)
    (hi : g2.interval_count = g.interval_count) (hk : g2.key_down = g.key_down) :
    DescentDue cfg g2 ↔ DescentDue cfg g := by
  unfold DescentDue
  rw [hi, hk]

theorem gameUpdate_phases (cfg : Config) (g : Game) (draws : List Nat) (g' : Game)
    (d : List Nat) (h : gameUpdate cfg g draws = .ok (g', d)) :
    ∃ g1 g2 g3, updateRotation cfg g = .ok g1 ∧ updateMove cfg g1 = .ok g2 ∧
      updateDrop cfg g2 draws = .ok (g3, d) ∧
      g' = { g3 with interval_count := g3.interval_count + 1 } := by
  unfold gameUpdate at h
  rcases h1 : updateRotation cfg g with e | g1
  · simp only [h1] at h
    cases h
  · simp only [h1] at h
    rcases h2 : updateMove cfg g1 with e | g2
    · simp only [h2] at h
      cases h
    · simp only [h2] at h
      rcases h3 : updateDrop cfg g2 draws with e | ⟨g3, d1⟩
      · simp only [h3] at h
        cases h
      · simp only [h3, Except.ok.injEq, Prod.mk.injEq] at h
        exact ⟨g1, g2, g3, rfl, h2, by rw [h3, h.2], h.1.symm⟩

theorem moveDown_controls (cfg : Config) (g : Game) (draws : List Nat) (g3 : Game)
    (d : List Nat) (h : moveDown cfg g draws = .ok (g3, d)) : SameControls g g3 := by
  rcases moveDown_shape cfg g draws g3 d h with ⟨_, _, hg⟩ | ⟨_, g2, gcl, nxt, hl, hc, _, hg⟩
  · rw [hg]
    exact ⟨rfl, rfl, rfl, rfl, rfl, rfl, rfl, rfl, rfl⟩
  · obtain ⟨f, hf⟩ := lockPiece_shape cfg g g2 hl
    obtain ⟨a1, _, _, _, a5, a6, a7, a8, a9, a10, a11, a12⟩ := clearLines_frame cfg g2 gcl hc
    rw [hf] at a1 a5 a6 a7 a8 a9 a10 a11 a12
    rw [hg]
    exact ⟨a5, a6, a7, a8, a9, a10, a11, a12, a1⟩

theorem updateDrop_controls (cfg : Config) (g : Game) (draws : List Nat) (g3 : Game)
    (d : List Nat) (h : updateDrop cfg g draws = .ok (g3, d)) : SameControls g g3 := by
  by_cases hd : DescentDue cfg g
  · rw [(updateDrop_eq cfg g draws).1 hd] at h
    exact moveDown_controls cfg g draws g3 d h
  · rw [(updateDrop_eq cfg g draws).2 hd] at h
    simp only [Except.ok.injEq, Prod.mk.injEq] at h
    rw [← h.1]
    exact ⟨rfl, rfl, rfl, rfl, rfl, rfl, rfl, rfl, rfl⟩

theorem gameUpdate_descent_due (cfg : Config) (g : Game) (draws : List Nat)
    (hd : DescentDue cfg g) :
    gameUpdate cfg g draws =
      match updateRotation cfg g with
      | .error e => .error e
      | .ok g1 =>
        match updateMove cfg g1 with
        | .error e => .error e
        | .ok g2 =>
          match moveDown cfg g2 draws with
          | .error e => .error e
          | .ok (g3, d) => .ok ({ g3 with interval_count := g3.interval_count + 1 }, d) := by
  unfold gameUpdate
  rcases h1 : updateRotation cfg g with e | g1
  · rfl
  · dsimp only
    rcases h2 : updateMove cfg g1 with e | g2
    · rfl
    · dsimp only
      obtain ⟨r', hr'⟩ := updateRotation_shape cfg g g1 h1
      obtain ⟨x', hx'⟩ := updateMove_shape cfg g1 g2 h2
      have hd2 : DescentDue cfg g2 :=
        (descentDue_congr cfg g g2 (by rw [hx', hr']) (by rw [hx', hr'])).2 hd
      rw [(updateDrop_eq cfg g2 draws).1 hd2]

theorem gameUpdate_no_descent (cfg : Config) (g : Game) (draws : List Nat)
    (hd : ¬ DescentDue cfg g) :
    gameUpdate cfg g draws =
      match updateRotation cfg g with
      | .error e => .error e
      | .ok g1 =>
        match updateMove cfg g1 with
        | .error e => .error e
        | .ok g2 => .ok ({ g2 with interval_count := g2.interval_count + 1 }, draws) := by
  unfold gameUpdate
  rcases h1 : updateRotation cfg g with e | g1
  · rfl
  · dsimp only
    rcases h2 : updateMove cfg g1 with e | g2
    · rfl
    · dsimp only
      obtain ⟨r', hr'⟩ := updateRotation_shape cfg g g1 h1
      obtain ⟨x', hx'⟩ := updateMove_shape cfg g1 g2 h2
      have hd2 : ¬ DescentDue cfg g2 := fun h =>
        hd ((descentDue_congr cfg g g2 (by rw [hx', hr']) (by rw [hx', hr'])).1 h)
      rw [(updateDrop_eq cfg g2 draws).2 hd2]

/-- C13: `gameUpdate` applies `moveDown` at most once.  When a descent is due
(in particular when `key_down` is set and `interval_count` is divisible by
both the soft-drop and the automatic-drop interval) the tick is the rotation
phase, the horizontal-move phase, exactly one `moveDown` and the counter
increment; when no descent is due it is the rotation phase, the
horizontal-move phase and the increment, and the field, the score, the lines,
the piece row and the draws are unchanged.  The horizontal-move phase
attempts left if `key_left` is set, otherwise right if `key_right` is set, and
only when `interval_count` is divisible by the move interval. -/
theorem gameUpdate_one_descent (cfg : Config) (g : Game) (draws : List Nat) :
    (DescentDue cfg g →
      gameUpdate cfg g draws =
        match updateRotation cfg g with
        | .error e => .error e
        | .ok g1 =>
          match updateMove cfg g1 with
          | .error e => .error e
          | .ok g2 =>
            match moveDown cfg g2 draws with
            | .error e => .error e
            | .ok (g3, d) => .ok ({ g3 with interval_count := g3.interval_count + 1 }, d)) ∧
    (g.key_down = true →
      g.interval_count % (cfg.SOFT_DROP_INTERVAL_COUNT : Int) = 0 →
      g.interval_count % (cfg.DROP_INTERVAL_COUNT : Int) = 0 → DescentDue cfg g) ∧
    (¬ DescentDue cfg g →
      gameUpdate cfg g draws =
        match updateRotation cfg g with
        | .error e => .error e
        | .ok g1 =>
          match updateMove cfg g1 with
          | .error e => .error e
          | .ok g2 => .ok ({ g2 with interval_count := g2.interval_count + 1 }, draws)) ∧
    (¬ DescentDue cfg g → ∀ g' d, gameUpdate cfg g draws = .ok (g', d) →
      g'.field = g.field ∧ g'.score = g.score ∧ g'.lines = g.lines ∧
      g'.piece_pos.y = g.piece_pos.y ∧ d = draws) ∧
    (∀ g1 : Game,
      (¬ g1.interval_count % (cfg.MOVE_INTERVAL_COUNT : Int) = 0 →
        updateMove cfg g1 = .ok g1) ∧
      (g1.interval_count % (cfg.MOVE_INTERVAL_COUNT : Int) = 0 → g1.key_left = true →
        updateMove cfg g1 =
          match move cfg g1 .DIRECTION_LEFT with
          | .error e => .error e
          | .ok (_, g2) => .ok g2) ∧
      (g1.interval_count % (cfg.MOVE_INTERVAL_COUNT : Int) = 0 → g1.key_left = false →
        g1.key_right = true →
        updateMove cfg g1 =
          match move cfg g1 .DIRECTION_RIGHT with
          | .error e => .error e
          | .ok (_, g2) => .ok g2) ∧
      (g1.key_left = false → g1.key_right = false → updateMove cfg g1 = .ok g1)) := by
  refine ⟨gameUpdate_descent_due cfg g draws, ?_, gameUpdate_no_descent cfg g draws, ?_, ?_⟩
  · intro h1 h2 _
    exact Or.inl ⟨h2, h1⟩
  · intro hd g' d h
    rw [gameUpdate_no_descent cfg g draws hd] at h
    rcases h1 : updateRotation cfg g with e | g1
    · simp only [h1] at h
      cases h
    · simp only [h1] at h
      rcases h2 : updateMove cfg g1 with e | g2
      · simp only [h2] at h
        cases h
      · simp only [h2, Except.ok.injEq, Prod.mk.injEq] at h
        obtain ⟨r', hr'⟩ := updateRotation_shape cfg g g1 h1
        obtain ⟨x', hx'⟩ := updateMove_shape cfg g1 g2 h2
        rw [← h.1, hx', hr']
        exact ⟨rfl, rfl, rfl, rfl, h.2.symm⟩
  · intro g1
    unfold updateMove
    refine ⟨?_, ?_, ?_, ?_⟩
    · intro h
      rw [if_neg h]
    · intro h hl
      rw [if_pos h]
      simp only [hl, if_true]
    · intro h hl hr
      rw [if_pos h]
      simp only [hl, hr, Bool.false_eq_true, if_false, if_true]
    · intro hl hr
      simp only [hl, hr, Bool.false_eq_true, if_false, ite_self]

/-- Instance of `gameUpdate_one_descent`: `key_down` set and `interval_count`
0 on the example state; the O piece goes down one row, not two. -/
theorem gameUpdate_one_descent_witness :
    gameUpdate exampleConfig { exampleGame fieldEmpty with key_down := true } [] =
      .ok ({ exampleGame fieldEmpty with
             key_down := true, piece_pos := ⟨5, 2⟩, interval_count := 1 }, []) :=
  ((gameUpdate_one_descent exampleConfig { exampleGame fieldEmpty with key_down := true }
      []).1 (Or.inl ⟨by decide, rfl⟩)).trans rfl

theorem updateRotation_rejected (cfg : Config) (g : Game) (p : Piece)
    (hp : pieces[g.current_piece.piece]? = some p)
    (hrr : g.rotate_right = true) (hrl : g.rotate_left = false)
    (hcol : checkCollision cfg g g.piece_pos
      ((g.current_piece.rotation + 1) % p.count) = .ok true) :
    updateRotation cfg g = .ok { g with rotate_right := false } := by
  have hr : rotate_right cfg g = .ok g := by
    rw [rotate_right_eq cfg g p hp, hcol]
  unfold updateRotation
  simp only [hrr, if_true, hr, hrl, Bool.false_eq_true, if_false]

/-- C14 (the claim fails as stated): the I piece lies on the floor of the
empty example field, `rotate_right` is set, `rotate_left` is clear, the
candidate rotation 1 collides with the floor and `interval_count` is 0.  The
tick rejects the rotation and clears the flag, then its descent locks the
piece and promotes the next piece, whose rotation index is 3, not 0. -/
theorem gameUpdate_rejected_rotation_counterexample :
    exampleGameOnFloor.rotate_right = true ∧ exampleGameOnFloor.rotate_left = false ∧
    checkCollision exampleConfig exampleGameOnFloor exampleGameOnFloor.piece_pos
      ((exampleGameOnFloor.current_piece.rotation + 1) % 2) = .ok true ∧
    ∃ g' d, gameUpdate exampleConfig exampleGameOnFloor [0, 0] = .ok (g', d) ∧
      g'.rotate_right = false ∧
      g'.current_piece.rotation ≠ exampleGameOnFloor.current_piece.rotation :=
  ⟨rfl, rfl, rfl, _, _, rfl, by decide, by decide⟩

/-- C14 (amended): for every state in which `rotate_right` is set,
`rotate_left` is clear and the clockwise candidate rotation of the current
piece collides at the current position, a state returned by `gameUpdate` has
`rotate_right` false, and its current piece is the piece before the call, with
the same rotation index, whenever the tick does not lock the piece (no descent
is due, or the downward move succeeds); when the tick locks the piece (a
descent is due and the downward move fails) it is the old next piece, with the
rotation index of that piece. -/
theorem gameUpdate_rejected_rotation (cfg : Config) (g : Game) (draws : List Nat)
    (p : Piece) (hp : pieces[g.current_piece.piece]? = some p)
    (hrr : g.rotate_right = true) (hrl : g.rotate_left = false)
    (hcol : checkCollision cfg g g.piece_pos
      ((g.current_piece.rotation + 1) % p.count) = .ok true) :
    ∀ g' d, gameUpdate cfg g draws = .ok (g', d) →
      g'.rotate_right = false ∧
      (g'.current_piece = g.current_piece ∨ g'.current_piece = g.next_piece) ∧
      (¬ DescentDue cfg g → g'.current_piece = g.current_piece) ∧
      (∀ g2 ga, updateMove cfg { g with rotate_right := false } = .ok g2 →
        move cfg g2 .DIRECTION_DOWN = .ok (true, ga) →
        g'.current_piece = g.current_piece) ∧
      (∀ g2 gb, updateMove cfg { g with rotate_right := false } = .ok g2 →
        DescentDue cfg g → move cfg g2 .DIRECTION_DOWN = .ok (false, gb) →
        g'.current_piece = g.next_piece) := by
  intro g' d h
  obtain ⟨g1, g2, g3, h1, h2, h3, hg'⟩ := gameUpdate_phases cfg g draws g' d h
  rw [updateRotation_rejected cfg g p hp hrr hrl hcol] at h1
  simp only [Except.ok.injEq] at h1
  subst h1
  obtain ⟨x', hx'⟩ := updateMove_shape cfg _ g2 h2
  have hctl := updateDrop_controls cfg g2 draws g3 d h3
  have hrr' : g'.rotate_right = false := by
    rw [hg']
    show g3.rotate_right = false
    rw [hctl.2.2.2.1, hx']
  have hcur2 : g2.current_piece = g.current_piece := by rw [hx']
  have hnext2 : g2.next_piece = g.next_piece := by rw [hx']
  have hcases : (g3.current_piece = g2.current_piece ∧
      (DescentDue cfg g2 → ∃ ga, move cfg g2 .DIRECTION_DOWN = .ok (true, ga)))
      ∨ (g3.current_piece = g2.next_piece ∧ DescentDue cfg g2 ∧
          move cfg g2 .DIRECTION_DOWN = .ok (false, g2)) := by
    by_cases hd : DescentDue cfg g2
    · rw [(updateDrop_eq cfg g2 draws).1 hd] at h3
      rcases moveDown_shape cfg g2 draws g3 d h3 with ⟨hm, _, hg⟩ | ⟨hm, ga, gcl, nxt, _, _, _, hg⟩
      · left
        exact ⟨by rw [hg], fun _ => ⟨g3, hm⟩⟩
      · right
        exact ⟨by rw [hg]; rfl, hd, hm⟩
    · rw [(updateDrop_eq cfg g2 draws).2 hd] at h3
      simp only [Except.ok.injEq, Prod.mk.injEq] at h3
      left
      exact ⟨by rw [h3.1], fun h => absurd h hd⟩
  have hdd : DescentDue cfg g2 ↔ DescentDue cfg g :=
    descentDue_congr cfg g g2 (by rw [hx']) (by rw [hx'])
  have hg'cur : g'.current_piece = g3.current_piece := by rw [hg']
  refine ⟨hrr', ?_, ?_, ?_, ?_⟩
  · rcases hcases with ⟨hc, _⟩ | ⟨hc, _, _⟩
    · left
      rw [hg'cur, hc, hcur2]
    · right
      rw [hg'cur, hc, hnext2]
  · intro hnd
    rcases hcases with ⟨hc, _⟩ | ⟨_, hd, _⟩
    · rw [hg'cur, hc, hcur2]
    · exact absurd (hdd.1 hd) hnd
  · intro g2' ga h2' hmv
    rw [h2] at h2'
    simp only [Except.ok.injEq] at h2'
    subst h2'
    rcases hcases with ⟨hc, _⟩ | ⟨_, _, hm⟩
    · rw [hg'cur, hc, hcur2]
    · rw [hm] at hmv
      simp only [Except.ok.injEq, Prod.mk.injEq] at hmv
      exact absurd hmv.1 (by decide)
  · intro g2' gb h2' hdue hmv
    rw [h2] at h2'
    simp only [Except.ok.injEq] at h2'
    subst h2'
    rcases hcases with ⟨_, hm⟩ | ⟨hc, _, _⟩
    · obtain ⟨ga, hga⟩ := hm (hdd.2 hdue)
      rw [hga] at hmv
      simp only [Except.ok.injEq, Prod.mk.injEq] at hmv
      exact absurd hmv.1 (by decide)
    · rw [hg'cur, hc, hnext2]

/-- Instances of `gameUpdate_rejected_rotation` on the I piece lying on the
floor with a colliding clockwise candidate.  With `interval_count` 1 no descent
is due: the flag is cleared and the piece keeps rotation 0.  With
`interval_count` 0 the descent is due and the downward move fails: the flag is
cleared, the piece is locked and the current piece is the old next piece, the
O piece with rotation index 3. -/
theorem gameUpdate_rejected_rotation_witness :
    (∃ g' d, gameUpdate exampleConfig { exampleGameOnFloor with interval_count := 1 } [] =
        .ok (g', d) ∧
      g'.rotate_right = false ∧ g'.current_piece = ⟨1, 0⟩) ∧
    (∃ g' d, gameUpdate exampleConfig exampleGameOnFloor [0, 0] = .ok (g', d) ∧
      DescentDue exampleConfig exampleGameOnFloor ∧
      move exampleConfig { exampleGameOnFloor with rotate_right := false } .DIRECTION_DOWN =
        .ok (false, { exampleGameOnFloor with rotate_right := false }) ∧
      g'.rotate_right = false ∧ g'.current_piece = exampleGameOnFloor.next_piece ∧
      g'.current_piece = ⟨0, 3⟩) :=
  ⟨⟨_, _, rfl,
    ((gameUpdate_rejected_rotation exampleConfig
        { exampleGameOnFloor with interval_count := 1 } [] _ rfl rfl rfl rfl) _ _ rfl).1,
    ((gameUpdate_rejected_rotation exampleConfig
        { exampleGameOnFloor with interval_count := 1 } [] _ rfl rfl rfl rfl) _ _ rfl).2.2.1
      (by unfold DescentDue; decide)⟩,
   ⟨_, _, rfl, by unfold DescentDue; decide, rfl,
    ((gameUpdate_rejected_rotation exampleConfig exampleGameOnFloor [0, 0] _ rfl rfl rfl rfl)
      _ _ rfl).1,
    ((gameUpdate_rejected_rotation exampleConfig exampleGameOnFloor [0, 0] _ rfl rfl rfl rfl)
      _ _ rfl).2.2.2.2 _ _ rfl (by unfold DescentDue; decide) rfl,
    rfl⟩⟩

/-! ## Rotation of the symmetric shape -/

/-- C11 (the claim fails as stated): the O piece (catalogue index 0, distinct
rotation count 1) holding rotation index 2 at position (5, 5) of the empty
example field: `rotate_right` and `rotate_left` both return a state whose
rotation index is 0, not 2. -/
theorem rotate_symmetric_counterexample :
    (∃ g', rotate_right exampleConfig (exampleGameAt fieldEmpty 0 2 ⟨5, 5⟩) = .ok g' ∧
      g'.current_piece.rotation ≠ (exampleGameAt fieldEmpty 0 2 ⟨5, 5⟩).current_piece.rotation) ∧
    (∃ g', rotate_left exampleConfig (exampleGameAt fieldEmpty 0 2 ⟨5, 5⟩) = .ok g' ∧
      g'.current_piece.rotation ≠ (exampleGameAt fieldEmpty 0 2 ⟨5, 5⟩).current_piece.rotation) :=
  ⟨⟨_, rfl, by decide⟩, ⟨_, rfl, by decide⟩⟩

/-- C11 (amended): for the shape with distinct rotation count 1 (catalogue
index 0), in every field and at every position, `rotate_right` and
`rotate_left` test the candidate rotation 0: if it does not collide the
rotation index becomes 0, if it collides the state is unchanged.  So the index
stays `r` when `r = 0` or when the rotation is rejected, and becomes 0
otherwise; the four variants of the shape hold the same offsets, so the cells
of the piece are the same before and after. -/
theorem rotate_symmetric (cfg : Config) (g : Game) (h0 : g.current_piece.piece = 0) :
    (checkCollision cfg g g.piece_pos 0 = .ok false →
      rotate_right cfg g = .ok { g with current_piece := ⟨0, 0⟩ } ∧
      rotate_left cfg g = .ok { g with current_piece := ⟨0, 0⟩ }) ∧
    (checkCollision cfg g g.piece_pos 0 = .ok true →
      rotate_right cfg g = .ok g ∧ rotate_left cfg g = .ok g) ∧
    (∀ g', rotate_right cfg g = .ok g' ∨ rotate_left cfg g = .ok g' →
      g'.current_piece.piece = 0 ∧
      (g'.current_piece.rotation = 0 ∨
        g'.current_piece.rotation = g.current_piece.rotation) ∧
      (g.current_piece.rotation = 0 → g' = g)) ∧
    (∀ r, r < 4 → blocksOf 0 r = .ok [⟨0, 0⟩, ⟨0, -1⟩, ⟨1, -1⟩, ⟨1, 0⟩]) := by
  have hp : pieces[g.current_piece.piece]? = some
      ⟨1, [[⟨0, 0⟩, ⟨0, -1⟩, ⟨1, -1⟩, ⟨1, 0⟩], [⟨0, 0⟩, ⟨0, -1⟩, ⟨1, -1⟩, ⟨1, 0⟩],
           [⟨0, 0⟩, ⟨0, -1⟩, ⟨1, -1⟩, ⟨1, 0⟩], [⟨0, 0⟩, ⟨0, -1⟩, ⟨1, -1⟩, ⟨1, 0⟩]]⟩ := by
    rw [h0]
    rfl
  have hr := rotate_right_eq cfg g _ hp
  have hl := rotate_left_eq cfg g _ hp
  simp only [Nat.mod_one] at hr hl
  have hcur : ∀ r', ({ g.current_piece with rotation := r' } : PieceState) = ⟨0, r'⟩ := by
    intro r'
    rw [← h0]
  simp only [hcur] at hr hl
  have hres : ∀ g', rotate_right cfg g = .ok g' ∨ rotate_left cfg g = .ok g' →
      g' = { g with current_piece := ⟨0, 0⟩ } ∨ g' = g := by
    intro g' h
    rw [hr, hl] at h
    rcases hc : checkCollision cfg g g.piece_pos 0 with e | c
    · rw [hc] at h
      rcases h with h | h <;> cases h
    · rw [hc] at h
      cases c
      · left
        rcases h with h | h <;>
          · simp only [Except.ok.injEq] at h
            exact h.symm
      · right
        rcases h with h | h <;>
          · simp only [Except.ok.injEq] at h
            exact h.symm
  refine ⟨?_, ?_, ?_, ?_⟩
  · intro h
    rw [hr, hl, h]
    exact ⟨rfl, rfl⟩
  · intro h
    rw [hr, hl, h]
    exact ⟨rfl, rfl⟩
  · intro g' h
    rcases hres g' h with hg | hg
    · rw [hg]
      refine ⟨rfl, Or.inl rfl, ?_⟩
      intro hz
      rcases g with ⟨f, ps, ⟨cp, cr⟩, np, pos, kl, kr, kd, rr, rl, ic, lv, ln, sc, pt⟩
      simp only at h0 hz
      subst h0
      subst hz
      rfl
    · rw [hg]
      exact ⟨h0, Or.inr rfl, fun _ => rfl⟩
  · intro r hr4
    interval_cases r <;> rfl

/-- Instance of `rotate_symmetric`: the O piece in rotation 3 at position
(5, 5) of the empty example field comes out in rotation 0. -/
theorem rotate_symmetric_witness :
    rotate_right exampleConfig (exampleGameAt fieldEmpty 0 3 ⟨5, 5⟩) =
      .ok (exampleGameAt fieldEmpty 0 0 ⟨5, 5⟩) ∧
    rotate_left exampleConfig (exampleGameAt fieldEmpty 0 3 ⟨5, 5⟩) =
      .ok (exampleGameAt fieldEmpty 0 0 ⟨5, 5⟩) :=
  (rotate_symmetric exampleConfig (exampleGameAt fieldEmpty 0 3 ⟨5, 5⟩) rfl).1 rfl

/-! ## The interval counter after an initialization -/

theorem gameUpdate_no_flags (cfg : Config) (g : Game) (draws : List Nat)
    (h1 : g.rotate_right = false) (h2 : g.rotate_left = false)
    (h3 : g.key_left = false) (h4 : g.key_right = false) (h5 : g.key_down = false) :
    (g.interval_count % (cfg.DROP_INTERVAL_COUNT : Int) = 0 →
      gameUpdate cfg g draws =
        match moveDown cfg g draws with
        | .error e => .error e
        | .ok (g3, d) => .ok ({ g3 with interval_count := g3.interval_count + 1 }, d)) ∧
    (¬ g.interval_count % (cfg.DROP_INTERVAL_COUNT : Int) = 0 →
      gameUpdate cfg g draws =
        .ok ({ g with interval_count := g.interval_count + 1 }, draws)) := by
  have hrot : updateRotation cfg g = .ok g := by
    unfold updateRotation
    simp only [h1, h2, Bool.false_eq_true, if_false]
  have hmv : updateMove cfg g = .ok g := by
    unfold updateMove
    simp only [h3, h4, Bool.false_eq_true, if_false, ite_self]
  constructor
  · intro hd
    rw [gameUpdate_descent_due cfg g draws (Or.inr hd)]
    simp only [hrot, hmv]
  · intro hd
    have hnd : ¬ DescentDue cfg g := by
      unfold DescentDue
      rintro (⟨_, hk⟩ | h)
      · rw [h5] at hk
        cases hk
      · exact hd h
    rw [gameUpdate_no_descent cfg g draws hnd]
    simp only [hrot, hmv]

/-- C20: `gameInit` does not assign `interval_count`: a state it returns has
the `interval_count` of the prior state.  The first `gameUpdate` after it
therefore depends on that value: it is one `moveDown` and the increment when
the value is divisible by the automatic-drop interval, and the increment
alone when it is not. -/
theorem gameInit_keeps_interval_count (cfg : Config) (prior : Game) (draws : List Nat)
    (g' : Game) (rest : List Nat) (h : gameInit cfg prior draws = .ok (g', rest)) :
    g'.interval_count = prior.interval_count ∧
    (prior.interval_count % (cfg.DROP_INTERVAL_COUNT : Int) = 0 →
      gameUpdate cfg g' rest =
        match moveDown cfg g' rest with
        | .error e => .error e
        | .ok (g3, d) => .ok ({ g3 with interval_count := g3.interval_count + 1 }, d)) ∧
    (¬ prior.interval_count % (cfg.DROP_INTERVAL_COUNT : Int) = 0 →
      gameUpdate cfg g' rest =
        .ok ({ g' with interval_count := prior.interval_count + 1 }, rest)) := by
  obtain ⟨cur, nxt, d1, _, _, hg⟩ := gameInit_eq cfg prior draws g' rest h
  have hic : g'.interval_count = prior.interval_count := by rw [hg]
  have hnf := gameUpdate_no_flags cfg g' rest (by rw [hg]) (by rw [hg]) (by rw [hg])
    (by rw [hg]) (by rw [hg])
  rw [hic] at hnf
  exact ⟨hic, hnf.1, hnf.2⟩

/-- Instance of `gameInit_keeps_interval_count`: the example state with
`interval_count` 5 is initialized with the draws 0, 0, 0, 0; the counter is
still 5, and the first tick only counts: the piece stays at the spawn
position. -/
theorem gameInit_keeps_interval_count_witness :
    ∃ g', gameInit exampleConfig { exampleGame fieldEmpty with interval_count := 5 }
        [0, 0, 0, 0] = .ok (g', []) ∧
      g'.interval_count = 5 ∧
      gameUpdate exampleConfig g' [] = .ok ({ g' with interval_count := 5 + 1 }, []) :=
  ⟨_, rfl,
    (gameInit_keeps_interval_count exampleConfig
      { exampleGame fieldEmpty with interval_count := 5 } [0, 0, 0, 0] _ [] rfl).1,
    (gameInit_keeps_interval_count exampleConfig
      { exampleGame fieldEmpty with interval_count := 5 } [0, 0, 0, 0] _ [] rfl).2.2
      (by decide)⟩

/-! ## Values of the field cells -/

theorem setCell_inRange (cfg : Config) (f : Field) (y x : Nat) (v : Int)
    (hf : FieldInRange cfg f) (hv : 0 ≤ v ∧ v ≤ 7) : FieldInRange cfg (setCell f y x v) := by
  intro y' x' hy hx
  unfold setCell
  by_cases h : y' = y ∧ x' = x
  · rw [if_pos h]
    exact hv
  · rw [if_neg h]
    exact hf y' x' hy hx

theorem moveRowDown_inRange (cfg : Config) (y count n x : Nat) (f f' : Field)
    (h : moveRowDown cfg y count n x f = .ok f') (hf : FieldInRange cfg f) :
    FieldInRange cfg f' := by
  induction n generalizing x f with
  | zero =>
    simp only [moveRowDown, Except.ok.injEq] at h
    rw [← h]
    exact hf
  | succ n ih =>
    rw [moveRowDown] at h
    by_cases hb : y + count < cfg.GRID_HEIGHT ∧ x < cfg.GRID_WIDTH
    · rw [if_pos hb] at h
      apply ih (x + 1) _ h
      apply setCell_inRange cfg _ y x 0 _ (by omega)
      exact setCell_inRange cfg f (y + count) x (f y x) hf (hf y x (by omega) hb.2)
    · rw [if_neg hb] at h
      cases h

theorem moveGridDownFrom_inRange (cfg : Config) (count n : Nat) (f f' : Field)
    (h : moveGridDownFrom cfg count n f = .ok f') (hf : FieldInRange cfg f) :
    FieldInRange cfg f' := by
  induction n generalizing f with
  | zero =>
    simp only [moveGridDownFrom, Except.ok.injEq] at h
    rw [← h]
    exact hf
  | succ y ih =>
    rw [moveGridDownFrom] at h
    rcases h1 : moveRowDown cfg y count cfg.GRID_WIDTH 0 f with e | f1
    · simp only [h1] at h
      cases h
    · simp only [h1] at h
      exact ih f1 h (moveRowDown_inRange cfg y count cfg.GRID_WIDTH 0 f f1 h1 hf)

theorem clearLinesFrom_inRange (cfg : Config) (n count : Nat) (g g' : Game)
    (h : clearLinesFrom cfg n count g = .ok g') (hf : FieldInRange cfg g.field) :
    FieldInRange cfg g'.field := by
  induction n generalizing count g with
  | zero =>
    simp only [clearLinesFrom, Except.ok.injEq] at h
    rw [← h]
    exact hf
  | succ y ih =>
    rw [clearLinesFrom] at h
    by_cases hfull : lineFull cfg g.field y = true
    · rw [if_pos hfull] at h
      exact ih (count + 1) g h hf
    · rw [if_neg hfull] at h
      by_cases hc : count > 0
      · rw [if_pos hc] at h
        rcases h1 : moveGridDown cfg g y count with e | g1
        · simp only [h1] at h
          cases h
        · simp only [h1] at h
          rcases h2 : updateStatistics g1 count with e | g2
          · simp only [h2] at h
            cases h
          · simp only [h2] at h
            apply ih 0 g2 h
            rw [(updateStatistics_frame g1 g2 count h2).2]
            unfold moveGridDown at h1
            rcases h3 : moveGridDownFrom cfg count (y + 1) g.field with e | f1
            · simp only [h3] at h1
              cases h1
            · simp only [h3, Except.ok.injEq] at h1
              rw [← h1]
              exact moveGridDownFrom_inRange cfg count (y + 1) g.field f1 h3 hf
      · rw [if_neg hc] at h
        exact ih 0 g h hf

theorem lockBlocks_inRange (cfg : Config) (pos : Pos) (v : Int) (blocks : List Pos)
    (f f' : Field) (h : lockBlocks cfg pos v blocks f = .ok f')
    (hf : FieldInRange cfg f) (hv : 0 ≤ v ∧ v ≤ 7) : FieldInRange cfg f' := by
  induction blocks generalizing f with
  | nil =>
    simp only [lockBlocks, Except.ok.injEq] at h
    rw [← h]
    exact hf
  | cons b bs ih =>
    rw [lockBlocks] at h
    rcases h1 : writeCell cfg f (blockAt b pos).y (blockAt b pos).x v with e | f1
    · simp only [h1] at h
      cases h
    · simp only [h1] at h
      apply ih f1 h
      unfold writeCell at h1
      by_cases hb : 0 ≤ (blockAt b pos).y ∧ (blockAt b pos).y < cfg.GRID_HEIGHT ∧
          0 ≤ (blockAt b pos).x ∧ (blockAt b pos).x < cfg.GRID_WIDTH
      · rw [if_pos hb] at h1
        simp only [Except.ok.injEq] at h1
        rw [← h1]
        exact setCell_inRange cfg f _ _ v hf hv
      · rw [if_neg hb] at h1
        cases h1

theorem lockPiece_inRange (cfg : Config) (g g2 : Game) (h : lockPiece cfg g = .ok g2)
    (hf : FieldInRange cfg g.field) (hp : g.current_piece.piece < 7) :
    FieldInRange cfg g2.field := by
  unfold lockPiece at h
  rcases hb : blocksOf g.current_piece.piece g.current_piece.rotation with e | blocks
  · simp only [hb] at h
    cases h
  · simp only [hb] at h
    rcases hl : lockBlocks cfg g.piece_pos ((g.current_piece.piece : Int) + 1) blocks g.field
      with e | f
    · simp only [hl] at h
      cases h
    · simp only [hl, Except.ok.injEq] at h
      rw [← h]
      exact lockBlocks_inRange cfg g.piece_pos _ blocks g.field f hl hf (by omega)

theorem moveDown_inRange (cfg : Config) (g : Game) (draws : List Nat) (g3 : Game)
    (d : List Nat) (h : moveDown cfg g draws = .ok (g3, d)) (hv : ValuesInRange cfg g) :
    ValuesInRange cfg g3 := by
  obtain ⟨hf, hc, hn⟩ := hv
  rcases moveDown_shape cfg g draws g3 d h with ⟨_, _, hg⟩ | ⟨_, g2, gcl, nxt, hl, hcl, hgen, hg⟩
  · rw [hg]
    exact ⟨hf, hc, hn⟩
  · rw [hg]
    refine ⟨?_, hn, (generatePiece_range cfg draws nxt d hgen).1⟩
    exact clearLinesFrom_inRange cfg cfg.GRID_HEIGHT 0 g2 gcl hcl
      (lockPiece_inRange cfg g g2 hl hf hc)

theorem gameUpdate_inRange (cfg : Config) (g : Game) (draws : List Nat) (g' : Game)
    (d : List Nat) (h : gameUpdate cfg g draws = .ok (g', d)) (hv : ValuesInRange cfg g) :
    ValuesInRange cfg g' := by
  obtain ⟨g1, g2, g3, h1, h2, h3, hg'⟩ := gameUpdate_phases cfg g draws g' d h
  obtain ⟨r', hr'⟩ := updateRotation_shape cfg g g1 h1
  obtain ⟨x', hx'⟩ := updateMove_shape cfg g1 g2 h2
  have hv2 : ValuesInRange cfg g2 := by
    rw [hx', hr']
    exact hv
  have hv3 : ValuesInRange cfg g3 := by
    by_cases hd : DescentDue cfg g2
    · rw [(updateDrop_eq cfg g2 draws).1 hd] at h3
      exact moveDown_inRange cfg g2 draws g3 d h3 hv2
    · rw [(updateDrop_eq cfg g2 draws).2 hd] at h3
      simp only [Except.ok.injEq, Prod.mk.injEq] at h3
      rw [← h3.1]
      exact hv2
  rw [hg']
  exact hv3

theorem gameInit_inRange (cfg : Config) (prior : Game) (draws : List Nat) (g : Game)
    (rest : List Nat) (h : gameInit cfg prior draws = .ok (g, rest)) :
    ValuesInRange cfg g := by
  obtain ⟨cur, nxt, d1, hc, hn, hg⟩ := gameInit_eq cfg prior draws g rest h
  rw [hg]
  refine ⟨?_, (generatePiece_range cfg draws cur d1 hc).1,
    (generatePiece_range cfg d1 nxt rest hn).1⟩
  intro y x hy hx
  show 0 ≤ initFieldRows cfg prior.field cfg.GRID_HEIGHT 0 y x ∧
    initFieldRows cfg prior.field cfg.GRID_HEIGHT 0 y x ≤ 7
  rw [initFieldRows_spec, if_pos (by omega)]
  omega

/-- C17: if every cell of the field holds a value in [0, 7] and the current
and the next piece have a shape index below 7, then a state returned by
`gameUpdate` has the same property, and each of its non-zero cells holds a
value in [1, 7]; a state returned by `gameInit` has the property; hence every
state reachable from `gameInit` has it, whatever the driver does to the flags,
the counter and the level between the calls. -/
theorem values_invariant (cfg : Config) :
    (∀ g draws g' d, ValuesInRange cfg g → gameUpdate cfg g draws = .ok (g', d) →
      ValuesInRange cfg g' ∧
      ∀ y x, y < cfg.GRID_HEIGHT → x < cfg.GRID_WIDTH → g'.field y x ≠ 0 →
        1 ≤ g'.field y x ∧ g'.field y x ≤ 7) ∧
    (∀ prior draws g rest, gameInit cfg prior draws = .ok (g, rest) → ValuesInRange cfg g) ∧
    (∀ g, Reachable cfg g → ValuesInRange cfg g) := by
  refine ⟨?_, ?_, ?_⟩
  · intro g draws g' d hv h
    have hv' := gameUpdate_inRange cfg g draws g' d h hv
    refine ⟨hv', ?_⟩
    intro y x hy hx hne
    have := hv'.1 y x hy hx
    omega
  · intro prior draws g rest h
    exact gameInit_inRange cfg prior draws g rest h
  · intro g hr
    induction hr with
    | init prior draws g rest h => exact gameInit_inRange cfg prior draws g rest h
    | tick g gd draws g' rest _ hd h ih =>
      apply gameUpdate_inRange cfg gd draws g' rest h
      obtain ⟨d1, _, d3, d4, _⟩ := hd
      unfold ValuesInRange at *
      rw [d1, d3, d4]
      exact ih

/-- Instance of `values_invariant`: the tick that locks the I piece on the
floor of the empty example field; the four cells written hold 2, the others 0,
and the new pieces are the O piece and the piece drawn. -/
theorem values_invariant_witness :
    ∃ g' d, gameUpdate exampleConfig exampleGameOnFloor [0, 0] = .ok (g', d) ∧
      g'.field 19 4 = 2 ∧ ValuesInRange exampleConfig g' :=
  ⟨_, _, rfl, by decide,
    ((values_invariant exampleConfig).1 exampleGameOnFloor [0, 0] _ _
      ⟨fun _ _ _ _ => ⟨le_refl (0 : Int), show (0 : Int) ≤ 7 by decide⟩,
        by decide, by decide⟩ rfl).1⟩

/-! ## Free fall on the empty field -/

theorem catalogue_blocks (p r : Nat) (blocks : List Pos) (h : blocksOf p r = .ok blocks) :
    (⟨0, 0⟩ : Pos) ∈ blocks ∧
    ∀ b ∈ blocks, -1 ≤ b.x ∧ b.x ≤ 2 ∧ -2 ≤ b.y ∧ b.y ≤ 1 := by
  unfold blocksOf at h
  rcases hp : pieces[p]? with _ | pc
  · simp only [hp] at h
    cases h
  · simp only [hp] at h
    rcases hr : pc.rotations[r]? with _ | bl
    · simp only [hr] at h
      cases h
    · simp only [hr, Except.ok.injEq] at h
      subst h
      have hall : ∀ q ∈ pieces, ∀ l ∈ q.rotations,
          (⟨0, 0⟩ : Pos) ∈ l ∧ ∀ b ∈ l, -1 ≤ b.x ∧ b.x ≤ 2 ∧ -2 ≤ b.y ∧ b.y ≤ 1 := by
        decide
      exact hall pc (List.getElem?_mem hp) bl (List.getElem?_mem hr)

theorem blockAt_plain (b pos : Pos) (hbx : -1 ≤ b.x ∧ b.x ≤ 2) (hby : -2 ≤ b.y ∧ b.y ≤ 1)
    (hx : 0 ≤ pos.x ∧ pos.x ≤ 125) (hy : 0 ≤ pos.y ∧ pos.y ≤ 126) :
    blockAt b pos = ⟨b.x + pos.x, b.y + pos.y⟩ := by
  unfold blockAt
  rw [toInt8_of_range _ (by omega) (by omega), toInt8_of_range _ (by omega) (by omega)]

theorem move_down_empty (cfg : Config) (g : Game) (blocks : List Pos) (M : Int)
    (hW : 5 ≤ cfg.GRID_WIDTH) (hW2 : cfg.GRID_WIDTH ≤ 251) (hH2 : cfg.GRID_HEIGHT ≤ 126)
    (hb : blocksOf g.current_piece.piece g.current_piece.rotation = .ok blocks)
    (hM : ∀ b ∈ blocks, b.y ≤ M) (hM' : ∃ b ∈ blocks, b.y = M)
    (hf : ∀ y x, y < cfg.GRID_HEIGHT → x < cfg.GRID_WIDTH → g.field y x = 0)
    (hx : g.piece_pos.x = ((cfg.GRID_WIDTH / 2 : Nat) : Int))
    (hy1 : 1 ≤ g.piece_pos.y) (hyM : g.piece_pos.y + M < cfg.GRID_HEIGHT) :
    (g.piece_pos.y + 1 + M < cfg.GRID_HEIGHT →
      move cfg g .DIRECTION_DOWN =
        .ok (true, { g with piece_pos := ⟨g.piece_pos.x, g.piece_pos.y + 1⟩ })) ∧
    (g.piece_pos.y + 1 + M = cfg.GRID_HEIGHT →
      move cfg g .DIRECTION_DOWN = .ok (false, g)) := by
  obtain ⟨h00, hbnd⟩ := catalogue_blocks _ _ blocks hb
  have hM0 : 0 ≤ M := by
    have := hM ⟨0, 0⟩ h00
    exact this
  have hstep : stepPos g.piece_pos .DIRECTION_DOWN = ⟨g.piece_pos.x, g.piece_pos.y + 1⟩ := by
    simp only [stepPos]
    rw [toInt8_of_range _ (by omega) (by omega)]
  have hcell : ∀ b ∈ blocks, blockAt b ⟨g.piece_pos.x, g.piece_pos.y + 1⟩
      = ⟨b.x + g.piece_pos.x, b.y + (g.piece_pos.y + 1)⟩ := by
    intro b hbm
    obtain ⟨b1, b2, b3, b4⟩ := hbnd b hbm
    exact blockAt_plain b _ ⟨b1, b2⟩ ⟨b3, b4⟩ (by simp only; omega) (by simp only; omega)
  have hrows : ∀ b ∈ blocks, 0 ≤ (blockAt b ⟨g.piece_pos.x, g.piece_pos.y + 1⟩).y := by
    intro b hbm
    rw [hcell b hbm]
    obtain ⟨_, _, b3, _⟩ := hbnd b hbm
    simp only
    omega
  have hblocked : ∀ b ∈ blocks,
      (CellBlocked cfg g.field (blockAt b ⟨g.piece_pos.x, g.piece_pos.y + 1⟩) ↔
        (cfg.GRID_HEIGHT : Int) ≤ b.y + (g.piece_pos.y + 1)) := by
    intro b hbm
    rw [hcell b hbm]
    obtain ⟨b1, b2, b3, b4⟩ := hbnd b hbm
    unfold CellBlocked
    simp only
    constructor
    · rintro (h | h | h | h)
      · omega
      · omega
      · omega
      · by_contra hlt
        apply h
        apply hf
        · omega
        · omega
    · intro h
      exact Or.inr (Or.inr (Or.inl (by omega)))
  have hany := anyBlockCollides_of_nonneg cfg g.field ⟨g.piece_pos.x, g.piece_pos.y + 1⟩
    blocks hrows
  rw [move_eq cfg g .DIRECTION_DOWN blocks hb, hstep]
  constructor
  · intro hlt
    have hn : ¬ ∃ b ∈ blocks,
        CellBlocked cfg g.field (blockAt b ⟨g.piece_pos.x, g.piece_pos.y + 1⟩) := by
      rintro ⟨b, hbm, hblk⟩
      have h1 := (hblocked b hbm).1 hblk
      have h2 := hM b hbm
      omega
    rw [hany.2 hn]
  · intro heq
    obtain ⟨b, hbm, hbM⟩ := hM'
    have hy : ∃ b ∈ blocks,
        CellBlocked cfg g.field (blockAt b ⟨g.piece_pos.x, g.piece_pos.y + 1⟩) :=
      ⟨b, hbm, (hblocked b hbm).2 (by omega)⟩
    rw [hany.1 hy]

theorem interval_due_iff (n D : Nat) : ((n : Int) % (D : Int) = 0) ↔ n % D = 0 := by
  rw [← Int.natCast_mod]
  exact Int.natCast_eq_zero

theorem fallState_succ (cfg : Config) (g : Game) (y : Int) (n : Nat) :
    ({ fallState cfg g y n with
        interval_count := (fallState cfg g y n).interval_count + 1 } : Game)
      = fallState cfg g y (n + 1) := by
  unfold fallState
  simp only [Nat.cast_add, Nat.cast_one]

theorem fall_tick_idle (cfg : Config) (g : Game) (draws : List Nat) (y : Int) (n : Nat)
    (hidle : EmptyAndIdle cfg g) (hn : ¬ n % cfg.DROP_INTERVAL_COUNT = 0) :
    gameUpdate cfg (fallState cfg g y n) draws = .ok (fallState cfg g y (n + 1), draws) := by
  obtain ⟨_, h3, h4, h5, h1, h2⟩ := hidle
  have h := (gameUpdate_no_flags cfg (fallState cfg g y n) draws h1 h2 h3 h4 h5).2
    (fun hd => hn ((interval_due_iff n cfg.DROP_INTERVAL_COUNT).1 hd))
  rw [h, fallState_succ]

theorem fall_tick_down (cfg : Config) (g : Game) (draws : List Nat) (blocks : List Pos)
    (M : Int) (y : Int) (n : Nat)
    (hW : 5 ≤ cfg.GRID_WIDTH) (hW2 : cfg.GRID_WIDTH ≤ 251) (hH2 : cfg.GRID_HEIGHT ≤ 126)
    (hb : blocksOf g.current_piece.piece g.current_piece.rotation = .ok blocks)
    (hM : ∀ b ∈ blocks, b.y ≤ M) (hM' : ∃ b ∈ blocks, b.y = M)
    (hidle : EmptyAndIdle cfg g) (hn : n % cfg.DROP_INTERVAL_COUNT = 0)
    (hy1 : 1 ≤ y) (hyM : y + 1 + M < cfg.GRID_HEIGHT) :
    gameUpdate cfg (fallState cfg g y n) draws
      = .ok (fallState cfg g (y + 1) (n + 1), draws) := by
  obtain ⟨hf, h3, h4, h5, h1, h2⟩ := hidle
  have h := (gameUpdate_no_flags cfg (fallState cfg g y n) draws h1 h2 h3 h4 h5).1
    ((interval_due_iff n cfg.DROP_INTERVAL_COUNT).2 hn)
  have hmv := (move_down_empty cfg (fallState cfg g y n) blocks M hW hW2 hH2 hb hM hM' hf rfl
    hy1 (by show y + M < _; omega)).1 hyM
  have hmd : moveDown cfg (fallState cfg g y n) draws
      = .ok (fallState cfg g (y + 1) n, draws) := by
    unfold moveDown
    simp only [hmv]
    rfl
  rw [h, hmd]
  simp only
  rw [fallState_succ]

theorem clearLines_no_full (cfg : Config) (g : Game)
    (h : ∀ y, y < cfg.GRID_HEIGHT → ¬ RowFull cfg g.field y) : clearLines cfg g = .ok g := by
  have hs := clearLinesFrom_skip cfg g 0 cfg.GRID_HEIGHT (fun y _ hy => h y (by omega))
  rw [Nat.zero_add] at hs
  unfold clearLines
  rw [hs, clearLinesFrom_zero]

theorem fall_tick_lock (cfg : Config) (g : Game) (draws : List Nat) (blocks : List Pos)
    (M : Int) (y : Int) (n : Nat) (nxt : PieceState) (d : List Nat)
    (hW : 5 ≤ cfg.GRID_WIDTH) (hW2 : cfg.GRID_WIDTH ≤ 251)
    (hH : 4 ≤ cfg.GRID_HEIGHT) (hH2 : cfg.GRID_HEIGHT ≤ 126)
    (hb : blocksOf g.current_piece.piece g.current_piece.rotation = .ok blocks)
    (hM : ∀ b ∈ blocks, b.y ≤ M) (hM' : ∃ b ∈ blocks, b.y = M)
    (hidle : EmptyAndIdle cfg g) (hn : n % cfg.DROP_INTERVAL_COUNT = 0)
    (hyM : y + 1 + M = cfg.GRID_HEIGHT)
    (hgen : generatePiece cfg draws = .ok (nxt, d)) :
    ∃ f', gameUpdate cfg (fallState cfg g y n) draws =
        .ok ({ g with field := f', current_piece := g.next_piece, next_piece := nxt,
                      piece_pos := ⟨((cfg.GRID_WIDTH / 2 : Nat) : Int), 1⟩,
                      interval_count := ((n + 1 : Nat) : Int) }, d) ∧
      ∀ yy xx : Nat, yy < cfg.GRID_HEIGHT → xx < cfg.GRID_WIDTH →
        f' yy xx =
          if (∃ b ∈ blocks,
              (⟨b.x + ((cfg.GRID_WIDTH / 2 : Nat) : Int), b.y + y⟩ : Pos)
                = ⟨(xx : Int), (yy : Int)⟩)
          then (g.current_piece.piece : Int) + 1 else 0 := by
  obtain ⟨h00, hbnd⟩ := catalogue_blocks _ _ blocks hb
  have hM0 : 0 ≤ M := hM ⟨0, 0⟩ h00
  have hM1 : M ≤ 1 := by
    obtain ⟨b, hbm, hbM⟩ := hM'
    have := (hbnd b hbm).2.2.2
    omega
  obtain ⟨hf, h3, h4, h5, h1, h2⟩ := hidle
  have hupd := (gameUpdate_no_flags cfg (fallState cfg g y n) draws h1 h2 h3 h4 h5).1
    ((interval_due_iff n cfg.DROP_INTERVAL_COUNT).2 hn)
  have hmv := (move_down_empty cfg (fallState cfg g y n) blocks M hW hW2 hH2 hb hM hM' hf rfl
    (by show 1 ≤ y; omega) (by show y + M < _; omega)).2 hyM
  have hcell : ∀ b ∈ blocks, blockAt b (fallState cfg g y n).piece_pos
      = ⟨b.x + ((cfg.GRID_WIDTH / 2 : Nat) : Int), b.y + y⟩ := by
    intro b hbm
    obtain ⟨b1, b2, b3, b4⟩ := hbnd b hbm
    exact blockAt_plain b _ ⟨b1, b2⟩ ⟨b3, b4⟩
      (by simp only [fallState]; omega) (by simp only [fallState]; omega)
  have hin : ∀ b ∈ blocks, InGrid cfg (blockAt b (fallState cfg g y n).piece_pos) := by
    intro b hbm
    rw [hcell b hbm]
    obtain ⟨b1, b2, b3, b4⟩ := hbnd b hbm
    have := hM b hbm
    unfold InGrid
    simp only
    omega
  obtain ⟨g2, hl, hfield, _, _, _⟩ := lockPiece_spec cfg (fallState cfg g y n) blocks hb hin
  obtain ⟨f, hfs⟩ := lockPiece_shape cfg (fallState cfg g y n) g2 hl
  have hf2 : ∀ yy xx : Nat, f yy xx =
      if (∃ b ∈ blocks, blockAt b (fallState cfg g y n).piece_pos = ⟨(xx : Int), (yy : Int)⟩)
      then (g.current_piece.piece : Int) + 1 else g.field yy xx := by
    intro yy xx
    have := hfield yy xx
    rw [hfs] at this
    exact this
  have hnofull : ∀ row, row < cfg.GRID_HEIGHT → ¬ RowFull cfg g2.field row := by
    intro row hrow hfull
    have h0 := hfull 0 (by omega)
    rw [hfs] at h0
    apply h0
    show f row 0 = 0
    rw [hf2 row 0, if_neg, hf row 0 hrow (by omega)]
    rintro ⟨b, hbm, hbe⟩
    rw [hcell b hbm] at hbe
    have := (hbnd b hbm).1
    simp only [Pos.mk.injEq] at hbe
    omega
  have hcl := clearLines_no_full cfg g2 hnofull
  have hmd : moveDown cfg (fallState cfg g y n) draws =
      .ok (resetPos cfg { g2 with current_piece := g2.next_piece, next_piece := nxt }, d) := by
    unfold moveDown
    simp only [hmv, hl, hcl, hgen]
  have hw : toInt8 ((cfg.GRID_WIDTH / 2 : Nat) : Int) = ((cfg.GRID_WIDTH / 2 : Nat) : Int) := by
    apply toInt8_of_range <;> omega
  refine ⟨f, ?_, ?_⟩
  · rw [hupd, hmd, hfs]
    simp only [resetPos, fallState, hw, Nat.cast_add, Nat.cast_one]
  · intro yy xx hyy hxx
    rw [hf2 yy xx, hf yy xx hyy hxx]
    by_cases hex : ∃ b ∈ blocks,
        blockAt b (fallState cfg g y n).piece_pos = ⟨(xx : Int), (yy : Int)⟩
    · have : ∃ b ∈ blocks,
          (⟨b.x + ((cfg.GRID_WIDTH / 2 : Nat) : Int), b.y + y⟩ : Pos)
            = ⟨(xx : Int), (yy : Int)⟩ := by
        obtain ⟨b, hbm, hbe⟩ := hex
        exact ⟨b, hbm, by rw [← hcell b hbm]; exact hbe⟩
      rw [if_pos hex, if_pos this]
    · have : ¬ ∃ b ∈ blocks,
          (⟨b.x + ((cfg.GRID_WIDTH / 2 : Nat) : Int), b.y + y⟩ : Pos)
            = ⟨(xx : Int), (yy : Int)⟩ := by
        rintro ⟨b, hbm, hbe⟩
        exact hex ⟨b, hbm, by rw [hcell b hbm]; exact hbe⟩
      rw [if_neg hex, if_neg this]

theorem runTicks_add (cfg : Config) (a b : Nat) (g : Game) (draws : List Nat) :
    runTicks cfg (a + b) g draws =
      match runTicks cfg a g draws with
      | .error e => .error e
      | .ok (g1, d1) => runTicks cfg b g1 d1 := by
  induction a generalizing g draws with
  | zero =>
    rw [Nat.zero_add]
    rfl
  | succ a ih =>
    rw [Nat.succ_add, runTicks, runTicks]
    rcases h : gameUpdate cfg g draws with e | ⟨g1, d1⟩
    · rfl
    · exact ih g1 d1

theorem fall_idle_run (cfg : Config) (g : Game) (draws : List Nat) (y : Int) (k : Nat)
    (hidle : EmptyAndIdle cfg g) (j i : Nat) (hi : 1 ≤ i)
    (hij : i + j ≤ cfg.DROP_INTERVAL_COUNT) :
    runTicks cfg j (fallState cfg g y (k * cfg.DROP_INTERVAL_COUNT + i)) draws
      = .ok (fallState cfg g y (k * cfg.DROP_INTERVAL_COUNT + i + j), draws) := by
  induction j generalizing i with
  | zero => rfl
  | succ j ih =>
    have hmod : ¬ (k * cfg.DROP_INTERVAL_COUNT + i) % cfg.DROP_INTERVAL_COUNT = 0 := by
      rw [Nat.add_comm, Nat.add_mul_mod_self_right, Nat.mod_eq_of_lt (by omega)]
      omega
    rw [runTicks, fall_tick_idle cfg g draws y _ hidle hmod]
    have := ih (i + 1) (by omega) (by omega)
    have e1 : k * cfg.DROP_INTERVAL_COUNT + i + 1 = k * cfg.DROP_INTERVAL_COUNT + (i + 1) := by
      omega
    have e2 : k * cfg.DROP_INTERVAL_COUNT + i + (j + 1)
        = k * cfg.DROP_INTERVAL_COUNT + (i + 1) + j := by omega
    rw [e1, e2]
    exact this

theorem fall_interval (cfg : Config) (g : Game) (draws : List Nat) (blocks : List Pos)
    (M : Int) (k j : Nat)
    (hW : 5 ≤ cfg.GRID_WIDTH) (hW2 : cfg.GRID_WIDTH ≤ 251) (hH2 : cfg.GRID_HEIGHT ≤ 126)
    (hb : blocksOf g.current_piece.piece g.current_piece.rotation = .ok blocks)
    (hM : ∀ b ∈ blocks, b.y ≤ M) (hM' : ∃ b ∈ blocks, b.y = M)
    (hidle : EmptyAndIdle cfg g)
    (hk : (2 : Int) + k + M < cfg.GRID_HEIGHT) (hj1 : 1 ≤ j)
    (hj : j ≤ cfg.DROP_INTERVAL_COUNT) :
    runTicks cfg j (fallState cfg g (1 + k) (k * cfg.DROP_INTERVAL_COUNT)) draws
      = .ok (fallState cfg g (2 + k) (k * cfg.DROP_INTERVAL_COUNT + j), draws) := by
  obtain ⟨j', rfl⟩ : ∃ j', j = j' + 1 := ⟨j - 1, by omega⟩
  have hmod : (k * cfg.DROP_INTERVAL_COUNT) % cfg.DROP_INTERVAL_COUNT = 0 :=
    Nat.mul_mod_left k cfg.DROP_INTERVAL_COUNT
  rw [runTicks, fall_tick_down cfg g draws blocks M (1 + k) _ hW hW2 hH2 hb hM hM' hidle hmod
    (by omega) (by omega)]
  have := fall_idle_run cfg g draws (1 + (k : Int) + 1) k hidle j' 1 (le_refl 1) (by omega)
  have e1 : (1 : Int) + k + 1 = 2 + k := by omega
  have e2 : k * cfg.DROP_INTERVAL_COUNT + 1 + j' = k * cfg.DROP_INTERVAL_COUNT + (j' + 1) := by
    omega
  rw [e1, e2] at this
  simp only
  rw [e1]
  exact this

theorem fall_intervals (cfg : Config) (g : Game) (draws : List Nat) (blocks : List Pos)
    (M : Int) (k : Nat)
    (hW : 5 ≤ cfg.GRID_WIDTH) (hW2 : cfg.GRID_WIDTH ≤ 251) (hH2 : cfg.GRID_HEIGHT ≤ 126)
    (hD : 1 ≤ cfg.DROP_INTERVAL_COUNT)
    (hb : blocksOf g.current_piece.piece g.current_piece.rotation = .ok blocks)
    (hM : ∀ b ∈ blocks, b.y ≤ M) (hM' : ∃ b ∈ blocks, b.y = M)
    (hidle : EmptyAndIdle cfg g)
    (hk : (1 : Int) + k + M < cfg.GRID_HEIGHT) :
    runTicks cfg (k * cfg.DROP_INTERVAL_COUNT) (fallState cfg g 1 0) draws
      = .ok (fallState cfg g (1 + k) (k * cfg.DROP_INTERVAL_COUNT), draws) := by
  induction k with
  | zero =>
    rw [Nat.zero_mul]
    rfl
  | succ k ih =>
    have hk' : (1 : Int) + k + M < cfg.GRID_HEIGHT := by
      push_cast at hk
      omega
    rw [Nat.succ_mul, runTicks_add, ih hk']
    simp only
    have := fall_interval cfg g draws blocks M k cfg.DROP_INTERVAL_COUNT hW hW2 hH2 hb hM hM'
      hidle (by push_cast at hk; omega) hD (le_refl _)
    rw [this]
    have e : (2 : Int) + k = 1 + ((k + 1 : Nat) : Int) := by
      push_cast
      omega
    rw [e]

theorem fallState_start (cfg : Config) (g : Game)
    (hpos : g.piece_pos = ⟨((cfg.GRID_WIDTH / 2 : Nat) : Int), 1⟩)
    (hic : g.interval_count = 0) : fallState cfg g 1 0 = g := by
  rcases g with ⟨f, ps, cp, np, pos, kl, kr, kd, rr, rl, ic, lv, ln, sc, pt⟩
  simp only at hpos hic
  subst hpos
  subst hic
  rfl

/-- C18: on a configuration with 5 to 251 columns, 4 to 126 rows and a
positive automatic-drop interval `D`, start from an empty field with no flag
set, `interval_count` 0 and a catalogue piece in any rotation at the spawn
position (GRID_WIDTH / 2, 1); let `M` be the largest row offset of its blocks
and `N = GRID_HEIGHT - 2 - M`.  Then `k * D` calls of `gameUpdate` (`k ≤ N`)
return the same state with the piece in row `1 + k`, and `k * D + j` calls
(`k < N`, `1 ≤ j ≤ D`) with the piece in row `2 + k`: one row per interval,
nothing locked, no draw used; after `N * D` calls the lowest cell of the piece
is in row `GRID_HEIGHT - 1`.  The next call locks the piece: the four cells of
the piece hold the shape index plus one, every other cell of the field is 0,
the bottom row is non-zero exactly in the columns of the blocks with row
offset `M`, the next piece is promoted and the position is the spawn
position. -/
theorem free_fall (cfg : Config) (g : Game) (draws : List Nat) (blocks : List Pos)
    (M : Int) (N : Nat)
    (hW : 5 ≤ cfg.GRID_WIDTH) (hW2 : cfg.GRID_WIDTH ≤ 251)
    (hH : 4 ≤ cfg.GRID_HEIGHT) (hH2 : cfg.GRID_HEIGHT ≤ 126)
    (hD : 1 ≤ cfg.DROP_INTERVAL_COUNT)
    (hb : blocksOf g.current_piece.piece g.current_piece.rotation = .ok blocks)
    (hM : ∀ b ∈ blocks, b.y ≤ M) (hM' : ∃ b ∈ blocks, b.y = M)
    (hN : (N : Int) = (cfg.GRID_HEIGHT : Int) - 2 - M)
    (hidle : EmptyAndIdle cfg g)
    (hpos : g.piece_pos = ⟨((cfg.GRID_WIDTH / 2 : Nat) : Int), 1⟩)
    (hic : g.interval_count = 0) :
    (∀ k, k ≤ N →
      runTicks cfg (k * cfg.DROP_INTERVAL_COUNT) g draws
        = .ok (fallState cfg g (1 + k) (k * cfg.DROP_INTERVAL_COUNT), draws)) ∧
    (∀ k j, k < N → 1 ≤ j → j ≤ cfg.DROP_INTERVAL_COUNT →
      runTicks cfg (k * cfg.DROP_INTERVAL_COUNT + j) g draws
        = .ok (fallState cfg g (2 + k) (k * cfg.DROP_INTERVAL_COUNT + j), draws)) ∧
    ((1 : Int) + N + M = (cfg.GRID_HEIGHT : Int) - 1) ∧
    (∀ nxt d, generatePiece cfg draws = .ok (nxt, d) →
      ∃ f', runTicks cfg (N * cfg.DROP_INTERVAL_COUNT + 1) g draws =
          .ok ({ g with field := f', current_piece := g.next_piece, next_piece := nxt,
                        piece_pos := ⟨((cfg.GRID_WIDTH / 2 : Nat) : Int), 1⟩,
                        interval_count := ((N * cfg.DROP_INTERVAL_COUNT + 1 : Nat) : Int) },
               d) ∧
        (∀ yy xx : Nat, yy < cfg.GRID_HEIGHT → xx < cfg.GRID_WIDTH →
          f' yy xx =
            if (∃ b ∈ blocks,
                (⟨b.x + ((cfg.GRID_WIDTH / 2 : Nat) : Int), b.y + (1 + (N : Int))⟩ : Pos)
                  = ⟨(xx : Int), (yy : Int)⟩)
            then (g.current_piece.piece : Int) + 1 else 0) ∧
        (∀ xx : Nat, xx < cfg.GRID_WIDTH →
          (f' (cfg.GRID_HEIGHT - 1) xx ≠ 0 ↔
            ∃ b ∈ blocks, b.y = M ∧ (xx : Int) = b.x + ((cfg.GRID_WIDTH / 2 : Nat) : Int)))) := by
  have hstart := fallState_start cfg g hpos hic
  have hrun : ∀ k, k ≤ N →
      runTicks cfg (k * cfg.DROP_INTERVAL_COUNT) g draws
        = .ok (fallState cfg g (1 + k) (k * cfg.DROP_INTERVAL_COUNT), draws) := by
    intro k hk
    have := fall_intervals cfg g draws blocks M k hW hW2 hH2 hD hb hM hM' hidle (by omega)
    rw [hstart] at this
    exact this
  refine ⟨hrun, ?_, by omega, ?_⟩
  · intro k j hk hj1 hj
    rw [runTicks_add, hrun k (by omega)]
    simp only
    exact fall_interval cfg g draws blocks M k j hW hW2 hH2 hb hM hM' hidle (by omega) hj1 hj
  · intro nxt d hgen
    have hmod : (N * cfg.DROP_INTERVAL_COUNT) % cfg.DROP_INTERVAL_COUNT = 0 :=
      Nat.mul_mod_left N cfg.DROP_INTERVAL_COUNT
    obtain ⟨f', hf', hcells⟩ := fall_tick_lock cfg g draws blocks M (1 + N)
      (N * cfg.DROP_INTERVAL_COUNT) nxt d hW hW2 hH hH2 hb hM hM' hidle hmod (by omega) hgen
    refine ⟨f', ?_, hcells, ?_⟩
    · rw [runTicks_add, hrun N (le_refl N)]
      simp only
      rw [runTicks, hf']
      rfl
    · intro xx hxx
      rw [hcells (cfg.GRID_HEIGHT - 1) xx (by omega) hxx]
      constructor
      · intro hne
        by_cases hex : ∃ b ∈ blocks,
            (⟨b.x + ((cfg.GRID_WIDTH / 2 : Nat) : Int), b.y + (1 + (N : Int))⟩ : Pos)
              = ⟨(xx : Int), ((cfg.GRID_HEIGHT - 1 : Nat) : Int)⟩
        · obtain ⟨b, hbm, hbe⟩ := hex
          simp only [Pos.mk.injEq] at hbe
          exact ⟨b, hbm, by omega, by omega⟩
        · rw [if_neg hex] at hne
          exact absurd rfl hne
      · rintro ⟨b, hbm, hbM, hbx⟩
        have hex : ∃ b ∈ blocks,
            (⟨b.x + ((cfg.GRID_WIDTH / 2 : Nat) : Int), b.y + (1 + (N : Int))⟩ : Pos)
              = ⟨(xx : Int), ((cfg.GRID_HEIGHT - 1 : Nat) : Int)⟩ :=
          ⟨b, hbm, by
            simp only [Pos.mk.injEq]
            omega⟩
        rw [if_pos hex]
        omega

/-- Instance of `free_fall`: the O piece on the example configuration (10
columns, 20 rows, automatic-drop interval 32): `M = 0`, `N = 18`; after
`18 * 32` ticks the piece is in row 19, the next tick locks it with the draws
0, 0, and the cells (5, 19) and (6, 18) hold 1 while (4, 19) is still 0. -/
theorem free_fall_witness :
    runTicks exampleConfig (18 * exampleConfig.DROP_INTERVAL_COUNT) (exampleGame fieldEmpty)
        [0, 0]
      = .ok (fallState exampleConfig (exampleGame fieldEmpty) (1 + (18 : Nat))
          (18 * exampleConfig.DROP_INTERVAL_COUNT), [0, 0]) ∧
    ∃ f', runTicks exampleConfig (18 * exampleConfig.DROP_INTERVAL_COUNT + 1)
          (exampleGame fieldEmpty) [0, 0] =
        .ok ({ exampleGame fieldEmpty with
                field := f', current_piece := ⟨0, 0⟩, next_piece := ⟨0, 0⟩,
                piece_pos := ⟨((exampleConfig.GRID_WIDTH / 2 : Nat) : Int), 1⟩,
                interval_count := ((18 * exampleConfig.DROP_INTERVAL_COUNT + 1 : Nat) : Int) },
             []) ∧
      f' 19 5 = 1 ∧ f' 18 6 = 1 ∧ f' 19 4 = 0 := by
  have h := free_fall exampleConfig (exampleGame fieldEmpty) [0, 0]
    [⟨0, 0⟩, ⟨0, -1⟩, ⟨1, -1⟩, ⟨1, 0⟩] 0 18
    (by decide) (by decide) (by decide) (by decide) (by decide) rfl
    (by decide) (by decide) (by decide)
    ⟨fun _ _ _ _ => rfl, rfl, rfl, rfl, rfl, rfl⟩ rfl rfl
  obtain ⟨f', hrun, hcells, _⟩ := h.2.2.2 ⟨0, 0⟩ [] rfl
  refine ⟨h.1 18 (le_refl 18), f', hrun, ?_, ?_, ?_⟩
  · rw [hcells 19 5 (by decide) (by decide)]
    decide
  · rw [hcells 18 6 (by decide) (by decide)]
    decide
  · rw [hcells 19 4 (by decide) (by decide)]
    decide

/-! ## Collision test of a piece -/

theorem blocksOf_ok (p r : Nat) (hp : p < 7) (hr : r < 4) :
    ∃ blocks, blocksOf p r = .ok blocks ∧ blocks.length = 4 := by
  interval_cases p <;> interval_cases r <;> exact ⟨_, rfl, rfl⟩

theorem catalogue_rows (p r : Nat) (blocks : List Pos) (h : blocksOf p r = .ok blocks) :
    (∀ b ∈ blocks, -1 ≤ b.y) ∨ (∀ b ∈ blocks, b.x = 0) := by
  unfold blocksOf at h
  rcases hp : pieces[p]? with _ | pc
  · simp only [hp] at h
    cases h
  · simp only [hp] at h
    rcases hr : pc.rotations[r]? with _ | bl
    · simp only [hr] at h
      cases h
    · simp only [hr, Except.ok.injEq] at h
      subst h
      have hall : ∀ q ∈ pieces, ∀ l ∈ q.rotations,
          (∀ b ∈ l, -1 ≤ b.y) ∨ (∀ b ∈ l, b.x = 0) := by
        decide
      exact hall pc (List.getElem?_mem hp) bl (List.getElem?_mem hr)

theorem blockAt_sum (b pos : Pos) (hbx : -1 ≤ b.x ∧ b.x ≤ 2) (hby : -2 ≤ b.y ∧ b.y ≤ 1)
    (hx : -127 ≤ pos.x ∧ pos.x ≤ 125) (hy : -126 ≤ pos.y ∧ pos.y ≤ 126) :
    blockAt b pos = ⟨b.x + pos.x, b.y + pos.y⟩ := by
  unfold blockAt
  rw [toInt8_of_range _ (by omega) (by omega), toInt8_of_range _ (by omega) (by omega)]

theorem checkCellCollision_of_column (cfg : Config) (grid : Field) (pos : Pos)
    (hy : 0 ≤ pos.x → pos.x < cfg.GRID_WIDTH → 0 ≤ pos.y) :
    (CellBlocked cfg grid pos → checkCellCollision cfg grid pos = .ok true) ∧
    (¬ CellBlocked cfg grid pos → checkCellCollision cfg grid pos = .ok false) := by
  by_cases h0 : 0 ≤ pos.y
  · exact checkCellCollision_of_nonneg cfg grid pos h0
  · have hcol : pos.x < 0 ∨ pos.x ≥ cfg.GRID_WIDTH := by
      by_contra hn
      exact h0 (hy (by omega) (by omega))
    have hg : pos.x < 0 ∨ pos.x ≥ cfg.GRID_WIDTH ∨ pos.y ≥ cfg.GRID_HEIGHT := by tauto
    constructor
    · intro _
      unfold checkCellCollision
      rw [if_pos hg]
    · intro hn
      exact absurd (show CellBlocked cfg grid pos by unfold CellBlocked; tauto) hn

theorem anyBlockCollides_of_column (cfg : Config) (grid : Field) (pos : Pos)
    (blocks : List Pos)
    (h : ∀ b ∈ blocks, 0 ≤ (blockAt b pos).x → (blockAt b pos).x < cfg.GRID_WIDTH →
      0 ≤ (blockAt b pos).y) :
    ((∃ b ∈ blocks, CellBlocked cfg grid (blockAt b pos)) →
      anyBlockCollides cfg grid pos blocks = .ok true) ∧
    ((¬ ∃ b ∈ blocks, CellBlocked cfg grid (blockAt b pos)) →
      anyBlockCollides cfg grid pos blocks = .ok false) := by
  induction blocks with
  | nil =>
    constructor
    · rintro ⟨b, hb, _⟩
      cases hb
    · intro _
      rfl
  | cons b bs ih =>
    have hb := checkCellCollision_of_column cfg grid (blockAt b pos)
      (h b (List.mem_cons_self b bs))
    have ih' := ih (fun c hc => h c (List.mem_cons_of_mem b hc))
    by_cases hblk : CellBlocked cfg grid (blockAt b pos)
    · constructor
      · intro _
        rw [anyBlockCollides, hb.1 hblk]
      · intro hn
        exact absurd ⟨b, List.mem_cons_self b bs, hblk⟩ hn
    · constructor
      · rintro ⟨c, hc, hcb⟩
        rw [anyBlockCollides, hb.2 hblk]
        rcases List.mem_cons.1 hc with hcb' | hcb'
        · subst hcb'
          exact absurd hcb hblk
        · exact ih'.1 ⟨c, hcb', hcb⟩
      · intro hn
        rw [anyBlockCollides, hb.2 hblk]
        exact ih'.2 (fun ⟨c, hc, hcb⟩ => hn ⟨c, List.mem_cons_of_mem b hc, hcb⟩)

theorem anyBlockCollidesWith_of_outside (cfg : Config) (outside : Int → Int → Int)
    (grid : Field) (pos : Pos) (blocks : List Pos)
    (h : ∃ b ∈ blocks, Outside cfg (blockAt b pos)) :
    anyBlockCollidesWith cfg outside grid pos blocks = true := by
  induction blocks with
  | nil =>
    obtain ⟨b, hb, _⟩ := h
    cases hb
  | cons c cs ih =>
    rw [anyBlockCollidesWith]
    by_cases hc : checkCellCollisionWith cfg outside grid (blockAt c pos) = true
    · rw [if_pos hc]
    · rw [if_neg hc]
      obtain ⟨b, hb, hout⟩ := h
      rcases List.mem_cons.1 hb with hbc | hbc
      · subst hbc
        exfalso
        apply hc
        unfold checkCellCollisionWith
        unfold Outside at hout
        rw [if_pos hout]
      · exact ih ⟨b, hbc, hout⟩

/-- C7: for every field, every catalogue shape, every rotation in [0,4) and
every position whose cell coordinates are `int8_t` values, the shape has four
cells, the position plus each relative offset.  If one of the four cells has
x < 0, x >= GRID_WIDTH or y >= GRID_HEIGHT, then `checkCollision` returns true:
at every position passed by the callers (pivot row at least 1, on a field of at
least 3 rows), at every position where no cell lies above the field in a valid
column, and, at every position, whatever value a read outside the array yields.
When all four cells lie inside the field, `checkCollision` returns true exactly
when one of the four cells is non-zero in the field, and false exactly when
all four are zero. -/
theorem checkCollision_spec (cfg : Config) (g : Game) (pos : Pos) (rotation : Nat)
    (hp : g.current_piece.piece < 7) (hr : rotation < 4)
    (hx : -127 ≤ pos.x ∧ pos.x ≤ 125) (hy : -126 ≤ pos.y ∧ pos.y ≤ 126) :
    ∃ blocks, blocksOf g.current_piece.piece rotation = .ok blocks ∧ blocks.length = 4 ∧
      (∀ b ∈ blocks, blockAt b pos = ⟨b.x + pos.x, b.y + pos.y⟩) ∧
      (1 ≤ pos.y → 3 ≤ cfg.GRID_HEIGHT →
        (∃ b ∈ blocks, Outside cfg ⟨b.x + pos.x, b.y + pos.y⟩) →
        checkCollision cfg g pos rotation = .ok true) ∧
      ((∀ b ∈ blocks, 0 ≤ b.x + pos.x → b.x + pos.x < cfg.GRID_WIDTH → 0 ≤ b.y + pos.y) →
        (∃ b ∈ blocks, Outside cfg ⟨b.x + pos.x, b.y + pos.y⟩) →
        checkCollision cfg g pos rotation = .ok true) ∧
      (∀ outside : Int → Int → Int,
        (∃ b ∈ blocks, Outside cfg ⟨b.x + pos.x, b.y + pos.y⟩) →
        checkCollisionWith cfg outside g pos rotation = .ok true) ∧
      ((∀ b ∈ blocks, InGrid cfg ⟨b.x + pos.x, b.y + pos.y⟩) →
        (checkCollision cfg g pos rotation = .ok true ↔
          ∃ b ∈ blocks, g.field (b.y + pos.y).toNat (b.x + pos.x).toNat ≠ 0) ∧
        (checkCollision cfg g pos rotation = .ok false ↔
          ∀ b ∈ blocks, g.field (b.y + pos.y).toNat (b.x + pos.x).toNat = 0)) := by
  obtain ⟨blocks, hb, hlen⟩ := blocksOf_ok g.current_piece.piece rotation hp hr
  obtain ⟨_, hbnd⟩ := catalogue_blocks _ _ blocks hb
  have hcell : ∀ b ∈ blocks, blockAt b pos = ⟨b.x + pos.x, b.y + pos.y⟩ := by
    intro b hbm
    obtain ⟨b1, b2, b3, b4⟩ := hbnd b hbm
    exact blockAt_sum b pos ⟨b1, b2⟩ ⟨b3, b4⟩ hx hy
  have hcc : checkCollision cfg g pos rotation = anyBlockCollides cfg g.field pos blocks := by
    unfold checkCollision
    rw [hb]
  have hgen : (∀ b ∈ blocks, 0 ≤ b.x + pos.x → b.x + pos.x < cfg.GRID_WIDTH →
        0 ≤ b.y + pos.y) →
      (∃ b ∈ blocks, Outside cfg ⟨b.x + pos.x, b.y + pos.y⟩) →
      checkCollision cfg g pos rotation = .ok true := by
    intro hcol hout
    rw [hcc]
    apply (anyBlockCollides_of_column cfg g.field pos blocks ?_).1
    · obtain ⟨b, hbm, ho⟩ := hout
      refine ⟨b, hbm, ?_⟩
      rw [hcell b hbm]
      unfold CellBlocked
      unfold Outside at ho
      tauto
    · intro b hbm
      rw [hcell b hbm]
      exact hcol b hbm
  refine ⟨blocks, hb, hlen, hcell, ?_, hgen, ?_, ?_⟩
  · intro hy1 hH hout
    apply hgen _ hout
    intro b hbm h0 hW
    rcases catalogue_rows _ _ blocks hb with hrow | hcolumn
    · have := hrow b hbm
      omega
    · obtain ⟨c, hcm, ho⟩ := hout
      have hbx := hcolumn b hbm
      have hcx := hcolumn c hcm
      obtain ⟨_, _, _, c4⟩ := hbnd c hcm
      obtain ⟨_, _, b3, _⟩ := hbnd b hbm
      unfold Outside at ho
      simp only at ho
      omega
  · intro outside hout
    unfold checkCollisionWith
    rw [hb]
    simp only [Except.ok.injEq]
    apply anyBlockCollidesWith_of_outside
    obtain ⟨b, hbm, ho⟩ := hout
    exact ⟨b, hbm, by rw [hcell b hbm]; exact ho⟩
  · intro hin
    have hrows : ∀ b ∈ blocks, 0 ≤ (blockAt b pos).y := by
      intro b hbm
      rw [hcell b hbm]
      exact (hin b hbm).2.2.1
    have hany := anyBlockCollides_of_nonneg cfg g.field pos blocks hrows
    have hblk : ∀ b ∈ blocks, (CellBlocked cfg g.field (blockAt b pos) ↔
        g.field (b.y + pos.y).toNat (b.x + pos.x).toNat ≠ 0) := by
      intro b hbm
      rw [hcell b hbm]
      obtain ⟨i1, i2, i3, i4⟩ := hin b hbm
      unfold CellBlocked
      simp only at i1 i2 i3 i4 ⊢
      constructor
      · rintro (h | h | h | h)
        · omega
        · omega
        · omega
        · exact h
      · intro h
        exact Or.inr (Or.inr (Or.inr h))
    rw [hcc]
    by_cases hex : ∃ b ∈ blocks, CellBlocked cfg g.field (blockAt b pos)
    · have hex' : ∃ b ∈ blocks, g.field (b.y + pos.y).toNat (b.x + pos.x).toNat ≠ 0 := by
        obtain ⟨b, hbm, hcb⟩ := hex
        exact ⟨b, hbm, (hblk b hbm).1 hcb⟩
      rw [hany.1 hex]
      constructor
      · exact ⟨fun _ => hex', fun _ => rfl⟩
      · constructor
        · intro h
          cases h
        · intro h
          obtain ⟨b, hbm, hne⟩ := hex'
          exact absurd (h b hbm) hne
    · have hall : ∀ b ∈ blocks, g.field (b.y + pos.y).toNat (b.x + pos.x).toNat = 0 := by
        intro b hbm
        by_contra hne
        exact hex ⟨b, hbm, (hblk b hbm).2 hne⟩
      rw [hany.2 hex]
      constructor
      · constructor
        · intro h
          cases h
        · rintro ⟨b, hbm, hne⟩
          exact absurd (hall b hbm) hne
      · exact ⟨fun _ => hall, fun _ => rfl⟩

/-- Instances of `checkCollision_spec` on the empty example field.  The J piece
in rotation 2 at position (9, 1) has the cells (8, 0), (8, 1), (9, 1) and
(10, 1), the last one right of the field: `checkCollision` returns true.  The
O piece at the spawn position (5, 1) has its four cells inside the field, all
zero: `checkCollision` returns false. -/
theorem checkCollision_spec_witness :
    blocksOf 2 2 = .ok [⟨-1, -1⟩, ⟨-1, 0⟩, ⟨0, 0⟩, ⟨1, 0⟩] ∧
    Outside exampleConfig ⟨1 + 9, 0 + 1⟩ ∧
    checkCollision exampleConfig (exampleGameAt fieldEmpty 2 2 ⟨9, 1⟩) ⟨9, 1⟩ 2 = .ok true ∧
    checkCollisionWith exampleConfig (fun _ _ => 0) (exampleGameAt fieldEmpty 2 2 ⟨9, 1⟩)
      ⟨9, 1⟩ 2 = .ok true ∧
    checkCollision exampleConfig (exampleGameAt fieldEmpty 0 0 ⟨5, 1⟩) ⟨5, 1⟩ 0 = .ok false := by
  refine ⟨rfl, by unfold Outside; decide, ?_, ?_, ?_⟩
  · obtain ⟨blocks, hb, _, _, hcall, _⟩ :=
      checkCollision_spec exampleConfig (exampleGameAt fieldEmpty 2 2 ⟨9, 1⟩) ⟨9, 1⟩ 2
        (by decide) (by decide) (by decide) (by decide)
    have hbl : blocks = [⟨-1, -1⟩, ⟨-1, 0⟩, ⟨0, 0⟩, ⟨1, 0⟩] :=
      Except.ok.inj (hb.symm.trans rfl)
    subst hbl
    exact hcall (by decide) (by decide)
      ⟨⟨1, 0⟩, by simp, by unfold Outside; decide⟩
  · obtain ⟨blocks, hb, _, _, _, _, hwith, _⟩ :=
      checkCollision_spec exampleConfig (exampleGameAt fieldEmpty 2 2 ⟨9, 1⟩) ⟨9, 1⟩ 2
        (by decide) (by decide) (by decide) (by decide)
    have hbl : blocks = [⟨-1, -1⟩, ⟨-1, 0⟩, ⟨0, 0⟩, ⟨1, 0⟩] :=
      Except.ok.inj (hb.symm.trans rfl)
    subst hbl
    exact hwith (fun _ _ => 0) ⟨⟨1, 0⟩, by simp, by unfold Outside; decide⟩
  · obtain ⟨blocks, hb, _, _, _, _, _, hin⟩ :=
      checkCollision_spec exampleConfig (exampleGameAt fieldEmpty 0 0 ⟨5, 1⟩) ⟨5, 1⟩ 0
        (by decide) (by decide) (by decide) (by decide)
    have hbl : blocks = [⟨0, 0⟩, ⟨0, -1⟩, ⟨1, -1⟩, ⟨1, 0⟩] :=
      Except.ok.inj (hb.symm.trans rfl)
    subst hbl
    refine ((hin ?_).2).2 (fun _ _ => rfl)
    intro b hbm
    simp only [List.mem_cons, List.mem_singleton, List.not_mem_nil, or_false] at hbm
    rcases hbm with h | h | h | h <;> subst h <;> (unfold InGrid; decide)

/-! ## A tick returns -/

theorem fullCount_succ (cfg : Config) (f : Field) (n : Nat) :
    fullCount cfg f (n + 1) = fullCount cfg f n + (if lineFull cfg f n = true then 1 else 0) := by
  unfold fullCount
  rw [List.range_succ, List.countP_append]
  simp [List.countP_cons]

theorem fullCount_mono (cfg : Config) (f : Field) (m n : Nat) (h : m ≤ n) :
    fullCount cfg f m ≤ fullCount cfg f n := by
  induction n, h using Nat.le_induction with
  | base => exact le_refl _
  | succ k _ ih =>
    rw [fullCount_succ]
    omega

theorem lineFull_congr (cfg : Config) (f f' : Field) (y y' : Nat)
    (h : ∀ x, x < cfg.GRID_WIDTH → f' y' x = f y x) :
    lineFull cfg f' y' = lineFull cfg f y := by
  rw [Bool.eq_iff_iff, lineFull_iff, lineFull_iff]
  unfold RowFull
  constructor
  · intro hf x hx
    rw [← h x hx]
    exact hf x hx
  · intro hf x hx
    rw [h x hx]
    exact hf x hx

theorem fullCount_shift (cfg : Config) (f f' : Field) (c n : Nat)
    (hlow : ∀ r, r < c → r < n → lineFull cfg f' r = false)
    (hhigh : ∀ r, c ≤ r → r < n → lineFull cfg f' r = lineFull cfg f (r - c)) :
    fullCount cfg f' n ≤ fullCount cfg f (n - c) := by
  induction n with
  | zero => exact Nat.zero_le _
  | succ k ih =>
    have ih' := ih (fun r h1 h2 => hlow r h1 (by omega)) (fun r h1 h2 => hhigh r h1 (by omega))
    rw [fullCount_succ]
    by_cases hk : k < c
    · rw [hlow k hk (by omega)]
      have e : k + 1 - c = k - c := by omega
      rw [e]
      simpa using ih'
    · have e : k + 1 - c = (k - c) + 1 := by omega
      rw [e, fullCount_succ, hhigh k (by omega) (by omega)]
      omega

theorem fullCount_le_length (cfg : Config) (f : Field) (n : Nat) (S : List Nat)
    (h : ∀ r, r < n → lineFull cfg f r = true → r ∈ S) :
    fullCount cfg f n ≤ S.length := by
  unfold fullCount
  rw [List.countP_eq_length_filter]
  apply List.Subperm.length_le
  apply List.subperm_of_subset
  · exact (List.nodup_range n).filter _
  · intro r hr
    rw [List.mem_filter, List.mem_range] at hr
    exact h r hr.1 hr.2

theorem clearLinesFrom_returns (cfg : Config) (n : Nat) :
    ∀ (count : Nat) (g : Game), n + count ≤ cfg.GRID_HEIGHT →
      count + fullCount cfg g.field n ≤ 4 → ∃ g', clearLinesFrom cfg n count g = .ok g' := by
  induction n with
  | zero =>
    intro count g _ _
    exact ⟨g, rfl⟩
  | succ y ih =>
    intro count g hH hcnt
    rw [fullCount_succ] at hcnt
    rw [clearLinesFrom]
    by_cases hfull : lineFull cfg g.field y = true
    · rw [if_pos hfull]
      rw [if_pos hfull] at hcnt
      exact ih (count + 1) g (by omega) (by omega)
    · rw [if_neg hfull]
      rw [if_neg hfull] at hcnt
      by_cases hc : count > 0
      · rw [if_pos hc]
        obtain ⟨f', hmg, hf'⟩ := moveGridDown_spec cfg g y count hc (by omega)
        rw [hmg]
        have hus : updateStatistics { g with field := f' } count =
            .ok { g with field := f', lines := g.lines + count,
                         score := g.score + g.points (count - 1) * (g.level + 1) } := by
          unfold updateStatistics
          rw [if_pos ⟨by omega, by omega⟩]
        simp only [hus]
        apply ih 0 _ (by omega)
        have hnf : ¬ RowFull cfg g.field y := by
          rw [← lineFull_iff]
          exact hfull
        obtain ⟨x0, hx0, _⟩ := width_pos_of_not_full cfg g.field y hnf
        have hsh := fullCount_shift cfg g.field f' count y
          (by
            intro r h1 h2
            rw [lineFull_false_iff]
            intro hrf
            have := hrf x0 hx0
            rw [hf' r x0, if_pos hx0, if_neg (by omega), if_pos (by omega)] at this
            exact this rfl)
          (by
            intro r h1 h2
            apply lineFull_congr
            intro x hx
            rw [hf' r x, if_pos hx, if_pos ⟨h1, by omega⟩])
        have hm := fullCount_mono cfg g.field (y - count) y (by omega)
        show 0 + fullCount cfg f' y ≤ 4
        omega
      · rw [if_neg hc]
        exact ih 0 g (by omega) (by omega)

theorem checkCellCollision_false_inGrid (cfg : Config) (grid : Field) (p : Pos)
    (h : checkCellCollision cfg grid p = .ok false) : InGrid cfg p := by
  unfold checkCellCollision readCell at h
  by_cases hg : p.x < 0 ∨ p.x ≥ cfg.GRID_WIDTH ∨ p.y ≥ cfg.GRID_HEIGHT
  · rw [if_pos hg] at h
    cases h
  · rw [if_neg hg] at h
    by_cases hin : 0 ≤ p.y ∧ p.y < cfg.GRID_HEIGHT ∧ 0 ≤ p.x ∧ p.x < cfg.GRID_WIDTH
    · exact ⟨hin.2.2.1, hin.2.2.2, hin.1, hin.2.1⟩
    · rw [if_neg hin] at h
      cases h

theorem anyBlockCollides_returns (cfg : Config) (grid : Field) (pos : Pos)
    (blocks : List Pos) (h : ∀ b ∈ blocks, 0 ≤ (blockAt b pos).y) :
    ∃ c, anyBlockCollides cfg grid pos blocks = .ok c := by
  have hany := anyBlockCollides_of_nonneg cfg grid pos blocks h
  by_cases hblk : ∃ b ∈ blocks, CellBlocked cfg grid (blockAt b pos)
  · exact ⟨true, hany.1 hblk⟩
  · exact ⟨false, hany.2 hblk⟩

theorem pieceInField_pos (cfg : Config) (g : Game) (h : PieceInField cfg g) :
    InGrid cfg g.piece_pos := by
  obtain ⟨hp, hr, hin⟩ := h
  obtain ⟨blocks, hb, _⟩ := blocksOf_ok _ _ hp hr
  obtain ⟨h00, _⟩ := catalogue_blocks _ _ blocks hb
  have := hin blocks hb ⟨0, 0⟩ h00
  unfold InGrid at this ⊢
  simp only [zero_add] at this
  exact this

theorem cells_collide_or_inGrid (cfg : Config) (grid : Field) (pos : Pos) (p r : Nat)
    (blocks : List Pos) (hb : blocksOf p r = .ok blocks)
    (hx : -1 ≤ pos.x ∧ pos.x ≤ 125) (hy : 0 ≤ pos.y ∧ pos.y ≤ 126)
    (hrows : ∀ b ∈ blocks, 0 ≤ b.y + pos.y) :
    anyBlockCollides cfg grid pos blocks = .ok true ∨
    (anyBlockCollides cfg grid pos blocks = .ok false ∧
      ∀ b ∈ blocks, InGrid cfg ⟨b.x + pos.x, b.y + pos.y⟩) := by
  obtain ⟨_, hbnd⟩ := catalogue_blocks _ _ blocks hb
  have hcell : ∀ b ∈ blocks, blockAt b pos = ⟨b.x + pos.x, b.y + pos.y⟩ := by
    intro b hbm
    obtain ⟨b1, b2, b3, b4⟩ := hbnd b hbm
    exact blockAt_sum b pos ⟨b1, b2⟩ ⟨b3, b4⟩ ⟨by omega, hx.2⟩ ⟨by omega, hy.2⟩
  have hr : ∀ b ∈ blocks, 0 ≤ (blockAt b pos).y := by
    intro b hbm
    rw [hcell b hbm]
    exact hrows b hbm
  obtain ⟨c, hc⟩ := anyBlockCollides_returns cfg grid pos blocks hr
  cases c
  · right
    refine ⟨hc, ?_⟩
    intro b hbm
    have := checkCellCollision_false_inGrid cfg grid _
      ((anyBlockCollides_false_iff cfg grid pos blocks).1 hc b hbm)
    rw [hcell b hbm] at this
    exact this
  · left
    exact hc

theorem catalogue_entry (i : Nat) (hi : i < 7) :
    ∃ p, pieces[i]? = some p ∧ (p.count = 1 ∨ p.count = 2 ∨ p.count = 4) := by
  interval_cases i <;> exact ⟨_, rfl, by decide⟩

theorem rotate_ready (cfg : Config) (g : Game) (k : Nat)
    (hW : cfg.GRID_WIDTH ≤ 125) (hH : cfg.GRID_HEIGHT ≤ 126)
    (hpf : PieceInField cfg g)
    (hrows : ∀ r blocks, blocksOf g.current_piece.piece r = .ok blocks →
      ∀ b ∈ blocks, 0 ≤ b.y + g.piece_pos.y)
    (p : Piece) (hcount : p.count = 1 ∨ p.count = 2 ∨ p.count = 4) :
    ∃ c, checkCollision cfg g g.piece_pos ((g.current_piece.rotation + k) % p.count) = .ok c ∧
      (c = false → PieceInField cfg
        { g with current_piece :=
          { g.current_piece with rotation := (g.current_piece.rotation + k) % p.count } }) := by
  have hpos := pieceInField_pos cfg g hpf
  obtain ⟨hp7, hr4, _⟩ := hpf
  have hr' : (g.current_piece.rotation + k) % p.count < 4 := by
    have : (g.current_piece.rotation + k) % p.count < p.count :=
      Nat.mod_lt _ (by omega)
    omega
  obtain ⟨blocks, hb, _⟩ := blocksOf_ok g.current_piece.piece _ hp7 hr'
  unfold InGrid at hpos
  have hcc : checkCollision cfg g g.piece_pos ((g.current_piece.rotation + k) % p.count)
      = anyBlockCollides cfg g.field g.piece_pos blocks := by
    unfold checkCollision
    rw [hb]
  rw [hcc]
  rcases cells_collide_or_inGrid cfg g.field g.piece_pos _ _ blocks hb
      ⟨by omega, by omega⟩ ⟨by omega, by omega⟩ (hrows _ blocks hb) with h | ⟨h, hin⟩
  · exact ⟨true, h, fun hc => by cases hc⟩
  · refine ⟨false, h, fun _ => ⟨hp7, hr', ?_⟩⟩
    intro blocks' hb'
    have hb2 : blocksOf g.current_piece.piece ((g.current_piece.rotation + k) % p.count)
        = .ok blocks' := hb'
    rw [hb] at hb2
    have e : blocks = blocks' := Except.ok.inj hb2
    subst e
    exact hin

theorem rotate_right_ready (cfg : Config) (g : Game)
    (hW : cfg.GRID_WIDTH ≤ 125) (hH : cfg.GRID_HEIGHT ≤ 126)
    (hpf : PieceInField cfg g)
    (hrows : ∀ r blocks, blocksOf g.current_piece.piece r = .ok blocks →
      ∀ b ∈ blocks, 0 ≤ b.y + g.piece_pos.y) :
    ∃ g1, rotate_right cfg g = .ok g1 ∧ PieceInField cfg g1 := by
  obtain ⟨p, hp, hcount⟩ := catalogue_entry g.current_piece.piece hpf.1
  obtain ⟨c, hc, hin⟩ := rotate_ready cfg g 1 hW hH hpf hrows p hcount
  rw [rotate_right_eq cfg g p hp, hc]
  cases c
  · exact ⟨_, rfl, hin rfl⟩
  · exact ⟨_, rfl, hpf⟩

theorem rotate_left_ready (cfg : Config) (g : Game)
    (hW : cfg.GRID_WIDTH ≤ 125) (hH : cfg.GRID_HEIGHT ≤ 126)
    (hpf : PieceInField cfg g)
    (hrows : ∀ r blocks, blocksOf g.current_piece.piece r = .ok blocks →
      ∀ b ∈ blocks, 0 ≤ b.y + g.piece_pos.y) :
    ∃ g1, rotate_left cfg g = .ok g1 ∧ PieceInField cfg g1 := by
  obtain ⟨p, hp, hcount⟩ := catalogue_entry g.current_piece.piece hpf.1
  obtain ⟨c, hc, hin⟩ := rotate_ready cfg g 3 hW hH hpf hrows p hcount
  rw [rotate_left_eq cfg g p hp, hc]
  cases c
  · exact ⟨_, rfl, hin rfl⟩
  · exact ⟨_, rfl, hpf⟩

theorem pieceInField_congr (cfg : Config) (g g' : Game) (h : PieceInField cfg g)
    (hc : g'.current_piece = g.current_piece) (hpos : g'.piece_pos = g.piece_pos) :
    PieceInField cfg g' := by
  unfold PieceInField at h ⊢
  rw [hc, hpos]
  exact h

theorem updateRotation_ready (cfg : Config) (g : Game)
    (hW : cfg.GRID_WIDTH ≤ 125) (hH : cfg.GRID_HEIGHT ≤ 126)
    (hpf : PieceInField cfg g)
    (hrows : (g.rotate_right = true ∨ g.rotate_left = true) →
      ∀ r blocks, blocksOf g.current_piece.piece r = .ok blocks →
        ∀ b ∈ blocks, 0 ≤ b.y + g.piece_pos.y) :
    ∃ g1, updateRotation cfg g = .ok g1 ∧ PieceInField cfg g1 := by
  rcases g with ⟨f, ps, cp, np, pos, kl, kr, kd, rr, rl, ic, lv, ln, sc, pt⟩
  cases rr <;> cases rl
  · exact ⟨_, rfl, hpf⟩
  · have hrows' := hrows (Or.inr rfl)
    obtain ⟨g1, h1, hp1⟩ := rotate_left_ready cfg _ hW hH hpf hrows'
    refine ⟨{ g1 with rotate_left := false }, ?_, pieceInField_congr cfg g1 _ hp1 rfl rfl⟩
    unfold updateRotation
    simp only [Bool.false_eq_true, if_false, if_true, h1]
  · have hrows' := hrows (Or.inl rfl)
    obtain ⟨g1, h1, hp1⟩ := rotate_right_ready cfg _ hW hH hpf hrows'
    obtain ⟨r', hr'⟩ := rotate_right_shape cfg _ g1 h1
    refine ⟨{ g1 with rotate_right := false }, ?_, pieceInField_congr cfg g1 _ hp1 rfl rfl⟩
    unfold updateRotation
    simp only [if_true, h1]
    rw [hr']
    simp only [Bool.false_eq_true, if_false]
  · have hrows' := hrows (Or.inl rfl)
    obtain ⟨g1, h1, hp1⟩ := rotate_right_ready cfg _ hW hH hpf hrows'
    obtain ⟨r', hr'⟩ := rotate_right_shape cfg _ g1 h1
    have hp1' : PieceInField cfg { g1 with rotate_right := false } :=
      pieceInField_congr cfg g1 _ hp1 rfl rfl
    have hrows1 : ∀ r blocks,
        blocksOf ({ g1 with rotate_right := false } : Game).current_piece.piece r = .ok blocks →
        ∀ b ∈ blocks, 0 ≤ b.y + ({ g1 with rotate_right := false } : Game).piece_pos.y := by
      rw [hr']
      exact hrows'
    obtain ⟨g2, h2, hp2⟩ := rotate_left_ready cfg _ hW hH hp1' hrows1
    refine ⟨{ g2 with rotate_left := false }, ?_, pieceInField_congr cfg g2 _ hp2 rfl rfl⟩
    unfold updateRotation
    simp only [if_true, h1]
    have hl : g1.rotate_left = true := by
      rw [hr']
    rw [if_pos hl, h2]

theorem move_ready (cfg : Config) (g : Game) (dir : Direction)
    (hW : cfg.GRID_WIDTH ≤ 125) (hH : cfg.GRID_HEIGHT ≤ 126)
    (hpf : PieceInField cfg g) :
    ∃ r g1, move cfg g dir = .ok (r, g1) ∧ PieceInField cfg g1 ∧ (r = false → g1 = g) := by
  have hpos := pieceInField_pos cfg g hpf
  obtain ⟨hp7, hr4, hin⟩ := hpf
  obtain ⟨blocks, hb, _⟩ := blocksOf_ok _ _ hp7 hr4
  unfold InGrid at hpos
  have key : ∀ q : Pos, stepPos g.piece_pos dir = q → (-1 ≤ q.x ∧ q.x ≤ 125) →
      (0 ≤ q.y ∧ q.y ≤ 126) → (∀ b ∈ blocks, 0 ≤ b.y + q.y) →
      ∃ r g1, move cfg g dir = .ok (r, g1) ∧ PieceInField cfg g1 ∧ (r = false → g1 = g) := by
    intro q hq hqx hqy hrows
    rw [move_eq cfg g dir blocks hb, hq]
    rcases cells_collide_or_inGrid cfg g.field q _ _ blocks hb hqx hqy hrows with h | ⟨h, hcells⟩
    · rw [h]
      exact ⟨false, g, rfl, ⟨hp7, hr4, hin⟩, fun _ => rfl⟩
    · rw [h]
      refine ⟨true, _, rfl, ⟨hp7, hr4, ?_⟩, fun hc => by cases hc⟩
      intro blocks' hb'
      have hb2 : blocksOf g.current_piece.piece g.current_piece.rotation = .ok blocks' := hb'
      rw [hb] at hb2
      have e : blocks = blocks' := Except.ok.inj hb2
      subst e
      exact hcells
  have hrow0 : ∀ b ∈ blocks, 0 ≤ b.y + g.piece_pos.y := fun b hbm => (hin blocks hb b hbm).2.2.1
  cases dir
  · apply key ⟨g.piece_pos.x, g.piece_pos.y + 1⟩
    · simp only [stepPos]
      rw [toInt8_of_range _ (by omega) (by omega)]
    · exact ⟨by show -1 ≤ g.piece_pos.x; omega, by show g.piece_pos.x ≤ 125; omega⟩
    · exact ⟨by show 0 ≤ g.piece_pos.y + 1; omega, by show g.piece_pos.y + 1 ≤ 126; omega⟩
    · intro b hbm
      have := hrow0 b hbm
      show 0 ≤ b.y + (g.piece_pos.y + 1)
      omega
  · apply key ⟨g.piece_pos.x - 1, g.piece_pos.y⟩
    · simp only [stepPos]
      rw [toInt8_of_range _ (by omega) (by omega)]
    · exact ⟨by show -1 ≤ g.piece_pos.x - 1; omega, by show g.piece_pos.x - 1 ≤ 125; omega⟩
    · exact ⟨by show 0 ≤ g.piece_pos.y; omega, by show g.piece_pos.y ≤ 126; omega⟩
    · exact hrow0
  · apply key ⟨g.piece_pos.x + 1, g.piece_pos.y⟩
    · simp only [stepPos]
      rw [toInt8_of_range _ (by omega) (by omega)]
    · exact ⟨by show -1 ≤ g.piece_pos.x + 1; omega, by show g.piece_pos.x + 1 ≤ 125; omega⟩
    · exact ⟨by show 0 ≤ g.piece_pos.y; omega, by show g.piece_pos.y ≤ 126; omega⟩
    · exact hrow0

theorem updateMove_ready (cfg : Config) (g : Game)
    (hW : cfg.GRID_WIDTH ≤ 125) (hH : cfg.GRID_HEIGHT ≤ 126)
    (hpf : PieceInField cfg g) :
    ∃ g2, updateMove cfg g = .ok g2 ∧ PieceInField cfg g2 := by
  unfold updateMove
  by_cases hi : g.interval_count % (cfg.MOVE_INTERVAL_COUNT : Int) = 0
  · rw [if_pos hi]
    by_cases hl : g.key_left = true
    · rw [if_pos hl]
      obtain ⟨r, g1, hm, hp1, _⟩ := move_ready cfg g .DIRECTION_LEFT hW hH hpf
      rw [hm]
      exact ⟨g1, rfl, hp1⟩
    · rw [if_neg hl]
      by_cases hr : g.key_right = true
      · rw [if_pos hr]
        obtain ⟨r, g1, hm, hp1, _⟩ := move_ready cfg g .DIRECTION_RIGHT hW hH hpf
        rw [hm]
        exact ⟨g1, rfl, hp1⟩
      · rw [if_neg hr]
        exact ⟨g, rfl, hpf⟩
  · rw [if_neg hi]
    exact ⟨g, rfl, hpf⟩

theorem lockPiece_clearLines_ready (cfg : Config) (g : Game)
    (hW : cfg.GRID_WIDTH ≤ 125) (hH : cfg.GRID_HEIGHT ≤ 126)
    (hpf : PieceInField cfg g)
    (hnf : ∀ y, y < cfg.GRID_HEIGHT → ¬ RowFull cfg g.field y) :
    ∃ g2 g3, lockPiece cfg g = .ok g2 ∧ clearLines cfg g2 = .ok g3 := by
  have hpos := pieceInField_pos cfg g hpf
  obtain ⟨hp7, hr4, hin⟩ := hpf
  obtain ⟨blocks, hb, hlen⟩ := blocksOf_ok _ _ hp7 hr4
  obtain ⟨_, hbnd⟩ := catalogue_blocks _ _ blocks hb
  unfold InGrid at hpos
  have hcell : ∀ b ∈ blocks,
      blockAt b g.piece_pos = ⟨b.x + g.piece_pos.x, b.y + g.piece_pos.y⟩ := by
    intro b hbm
    obtain ⟨b1, b2, b3, b4⟩ := hbnd b hbm
    exact blockAt_sum b _ ⟨b1, b2⟩ ⟨b3, b4⟩ ⟨by omega, by omega⟩ ⟨by omega, by omega⟩
  have hin' : ∀ b ∈ blocks, InGrid cfg (blockAt b g.piece_pos) := by
    intro b hbm
    rw [hcell b hbm]
    exact hin blocks hb b hbm
  obtain ⟨g2, hl, hfield, _⟩ := lockPiece_spec cfg g blocks hb hin'
  have hcount : fullCount cfg g2.field cfg.GRID_HEIGHT ≤ 4 := by
    have h := fullCount_le_length cfg g2.field cfg.GRID_HEIGHT
      (blocks.map (fun b => (blockAt b g.piece_pos).y.toNat)) (by
        intro r hr hfull
        by_contra hn
        apply hnf r hr
        rw [lineFull_iff] at hfull
        intro x hx
        have hx2 := hfull x hx
        rw [hfield r x] at hx2
        rw [if_neg] at hx2
        · exact hx2
        · rintro ⟨b, hbm, hbe⟩
          apply hn
          rw [List.mem_map]
          refine ⟨b, hbm, ?_⟩
          rw [hbe]
          exact Int.toNat_natCast r)
    rw [List.length_map, hlen] at h
    exact h
  obtain ⟨g3, h3⟩ := clearLinesFrom_returns cfg cfg.GRID_HEIGHT 0 g2 (by omega) (by omega)
  exact ⟨g2, g3, hl, h3⟩

theorem moveDown_ready (cfg : Config) (g : Game) (draws : List Nat)
    (hW : cfg.GRID_WIDTH ≤ 125) (hH : cfg.GRID_HEIGHT ≤ 126)
    (hpf : PieceInField cfg g)
    (hnf : ∀ y, y < cfg.GRID_HEIGHT → ¬ RowFull cfg g.field y)
    (hgen : ∃ r, generatePiece cfg draws = .ok r) :
    ∃ g3 d, moveDown cfg g draws = .ok (g3, d) := by
  obtain ⟨r, g1, hm, _, hsame⟩ := move_ready cfg g .DIRECTION_DOWN hW hH hpf
  unfold moveDown
  rw [hm]
  cases r
  · have e := hsame rfl
    subst e
    obtain ⟨g2, g3, hl, hc⟩ := lockPiece_clearLines_ready cfg g1 hW hH hpf hnf
    obtain ⟨⟨nxt, d1⟩, hg⟩ := hgen
    simp only [hl, hc, hg]
    exact ⟨_, _, rfl⟩
  · exact ⟨_, _, rfl⟩

theorem gameUpdate_ready (cfg : Config) (g : Game) (draws : List Nat)
    (hready : TickReady cfg g)
    (hgen : DescentDue cfg g → ∃ r, generatePiece cfg draws = .ok r) :
    ∃ g' d, gameUpdate cfg g draws = .ok (g', d) := by
  obtain ⟨hpf, hW, hH, hrows, hnf⟩ := hready
  obtain ⟨g1, h1, hp1⟩ := updateRotation_ready cfg g hW hH hpf hrows
  obtain ⟨g2, h2, hp2⟩ := updateMove_ready cfg g1 hW hH hp1
  obtain ⟨r', hr'⟩ := updateRotation_shape cfg g g1 h1
  obtain ⟨x', hx'⟩ := updateMove_shape cfg g1 g2 h2
  have hfield : g2.field = g.field := by rw [hx', hr']
  have hdd : DescentDue cfg g2 ↔ DescentDue cfg g :=
    descentDue_congr cfg g g2 (by rw [hx', hr']) (by rw [hx', hr'])
  have h3 : ∃ g3 d, updateDrop cfg g2 draws = .ok (g3, d) := by
    by_cases hd : DescentDue cfg g2
    · rw [(updateDrop_eq cfg g2 draws).1 hd]
      exact moveDown_ready cfg g2 draws hW hH hp2 (by rw [hfield]; exact hnf) (hgen (hdd.1 hd))
    · rw [(updateDrop_eq cfg g2 draws).2 hd]
      exact ⟨_, _, rfl⟩
  obtain ⟨g3, d, h3⟩ := h3
  unfold gameUpdate
  simp only [h1, h2, h3]
  exact ⟨_, _, rfl⟩

theorem gameUpdate_controls (cfg : Config) (g : Game) (draws : List Nat)
    (g' : Game) (d : List Nat) (h : gameUpdate cfg g draws = .ok (g', d)) :
    g'.rotate_right = false ∧ g'.rotate_left = false ∧
    g'.key_left = g.key_left ∧ g'.key_right = g.key_right ∧ g'.key_down = g.key_down ∧
    g'.interval_count = g.interval_count + 1 ∧ g'.level = g.level := by
  obtain ⟨g1, g2, g3, h1, h2, h3, hg'⟩ := gameUpdate_phases cfg g draws g' d h
  obtain ⟨r', hr'⟩ := updateRotation_shape cfg g g1 h1
  obtain ⟨x', hx'⟩ := updateMove_shape cfg g1 g2 h2
  obtain ⟨c1, c2, c3, c4, c5, c6, c7, _, _⟩ := updateDrop_controls cfg g2 draws g3 d h3
  rw [hx', hr'] at c1 c2 c3 c4 c5 c6 c7
  rw [hg']
  exact ⟨c4, c5, c1, c2, c3, by rw [← c6], c7⟩

theorem exampleGameKeys_ready :
    TickReady exampleConfig (exampleGameKeys fieldEmpty 5 0 ⟨5, 5⟩) := by
  refine ⟨⟨by decide, by decide, ?_⟩, by decide, by decide, ?_, ?_⟩
  · intro blocks hb
    have hbl : [⟨-1, 0⟩, ⟨0, 0⟩, ⟨1, 0⟩, ⟨0, 1⟩] = blocks := Except.ok.inj hb
    subst hbl
    intro b hbm
    simp only [List.mem_cons, List.mem_singleton, List.not_mem_nil, or_false] at hbm
    rcases hbm with h | h | h | h <;> subst h <;> (unfold InGrid; decide)
  · intro _ r blocks hb b hbm
    obtain ⟨_, hbnd⟩ := catalogue_blocks _ _ blocks hb
    obtain ⟨_, _, b3, _⟩ := hbnd b hbm
    show 0 ≤ b.y + 5
    omega
  · intro y _ hfull
    exact hfull 0 (by decide) rfl

/-- C12: for every state whose interval counter can be incremented in an `int`
(`interval_count + 1` fits) and every list of draws, a state returned by
`gameUpdate` has both rotation flags false, the three movement flags as they
were before the call, `interval_count` one more than before, a value that fits
an `int`, and the level unchanged.  The call returns on every state in which
the current piece lies inside the field, no rotation of the shape has a cell
above the field when a rotation is requested, no row of the field is full, the
field has at most 125 columns and 126 rows, and the draws suffice for a new
piece when a descent is due. -/
theorem gameUpdate_flags_and_counter (cfg : Config) (g : Game) (draws : List Nat)
    (hfit : FitsInt cfg (g.interval_count + 1)) :
    (∀ g' d, gameUpdate cfg g draws = .ok (g', d) →
      g'.rotate_right = false ∧ g'.rotate_left = false ∧
      g'.key_left = g.key_left ∧ g'.key_right = g.key_right ∧ g'.key_down = g.key_down ∧
      g'.interval_count = g.interval_count + 1 ∧ FitsInt cfg g'.interval_count ∧
      g'.level = g.level) ∧
    (TickReady cfg g → (DescentDue cfg g → ∃ r, generatePiece cfg draws = .ok r) →
      ∃ g' d, gameUpdate cfg g draws = .ok (g', d)) := by
  constructor
  · intro g' d h
    obtain ⟨c1, c2, c3, c4, c5, c6, c7⟩ := gameUpdate_controls cfg g draws g' d h
    exact ⟨c1, c2, c3, c4, c5, c6, by rw [c6]; exact hfit, c7⟩
  · intro hready hgen
    exact gameUpdate_ready cfg g draws hready hgen

/-- Instance of `gameUpdate_flags_and_counter`: the T piece in rotation 0 at
position (5, 5) of the empty example field, with `rotate_right` and `key_left`
set and `interval_count` 0; the state is ready for a tick, the tick returns,
turns the piece, moves it left and lowers it, and the counter becomes 1. -/
theorem gameUpdate_flags_and_counter_witness :
    FitsInt exampleConfig ((exampleGameKeys fieldEmpty 5 0 ⟨5, 5⟩).interval_count + 1) ∧
    TickReady exampleConfig (exampleGameKeys fieldEmpty 5 0 ⟨5, 5⟩) ∧
    (∃ g' d, gameUpdate exampleConfig (exampleGameKeys fieldEmpty 5 0 ⟨5, 5⟩) [0, 0] =
      .ok (g', d)) ∧
    ∃ g' d, gameUpdate exampleConfig (exampleGameKeys fieldEmpty 5 0 ⟨5, 5⟩) [0, 0] =
        .ok (g', d) ∧
      g'.current_piece = ⟨5, 1⟩ ∧ g'.piece_pos = ⟨4, 6⟩ ∧
      g'.rotate_right = false ∧ g'.rotate_left = false ∧
      g'.key_left = true ∧ g'.key_right = false ∧ g'.key_down = false ∧
      g'.interval_count = 0 + 1 ∧ FitsInt exampleConfig g'.interval_count ∧ g'.level = 0 :=
  ⟨by unfold FitsInt; decide, exampleGameKeys_ready,
    (gameUpdate_flags_and_counter exampleConfig (exampleGameKeys fieldEmpty 5 0 ⟨5, 5⟩) [0, 0]
      (by unfold FitsInt; decide)).2 exampleGameKeys_ready (fun _ => ⟨_, rfl⟩),
    _, _, rfl, by decide, by decide,
    (gameUpdate_flags_and_counter exampleConfig (exampleGameKeys fieldEmpty 5 0 ⟨5, 5⟩) [0, 0]
      (by unfold FitsInt; decide)).1 _ _ rfl⟩

end Tetris
